import Mathlib

/-!
Verification of the Worm Maze Puzzle core: a shallow embedding of the
move/undo engine (js/game.js), the snake actor (js/snake.js), the level
parser and procedural generator (js/levels.js), and the offline
solvability verifier (scripts/validate-levels.js), together with proofs
of the specified properties.

Modeling conventions:
  - JS numbers holding grid coordinates or timestamps become Int
    (coordinates can go negative one step off the board); counters that
    are only ever incremented from 0 become Nat; the star-power counter
    is Int because the code defensively clamps it at zero.
  - Mutable objects become explicit state passing; the in-place mutation
    of a history delta that was already pushed is modeled by pushing the
    fully updated delta (observationally equal).
  - Rendering, audio, persistence (localStorage), the replay log and the
    history checkpoints are omitted: they never feed back into the fields
    the engine reads.
-/

/-- A grid coordinate, as in the {x, y} point objects of the source. -/
structure Pos where
  x : Int
  y : Int
deriving DecidableEq, Repr

/-- The TILE enumeration of constants.js. -/
inductive Tile where
  | EMPTY
  | WALL
  | EXIT
  | OBSTACLE
  | SPAWN
  | ITEM
  | BIG_ITEM
  | STAR_ITEM
  | PORTAL_A
  | PORTAL_B
deriving DecidableEq, Repr

/-- The GAME_STATE enumeration of constants.js. -/
inductive GState where
  | TITLE
  | LEVEL_SELECT
  | PLAYING
  | PAUSED
  | LEVEL_COMPLETE
  | GAME_COMPLETE
deriving DecidableEq, Repr

/-- STATE_TRANSITIONS of constants.js: the states each state may move to. -/
def STATE_TRANSITIONS : GState → List GState
  | GState.TITLE => [GState.LEVEL_SELECT, GState.PLAYING]
  | GState.LEVEL_SELECT => [GState.TITLE, GState.PLAYING]
  | GState.PLAYING =>
      [GState.PAUSED, GState.LEVEL_COMPLETE, GState.GAME_COMPLETE, GState.TITLE]
  | GState.PAUSED => [GState.PLAYING, GState.TITLE, GState.LEVEL_SELECT]
  | GState.LEVEL_COMPLETE => [GState.PLAYING, GState.TITLE, GState.LEVEL_SELECT]
  | GState.GAME_COMPLETE => [GState.PLAYING, GState.TITLE, GState.LEVEL_SELECT]

def GRID_COLS : Int := 20
def GRID_ROWS : Int := 15

namespace GAMEPLAY

def MOVE_ANIMATION_MS : Int := 120
def BLOCKED_FEEDBACK_MS : Int := 260
def DEADLOCK_HINT_MS : Int := 2500
def HISTORY_LIMIT : Nat := 300
def SHAKE_DURATION_MS : Int := 180
def STAR_POWER_MOVES : Int := 8

end GAMEPLAY

/-- DIRECTIONS of constants.js: a direction name maps to its unit delta;
unknown names map to null. -/
def DIRECTIONS (name : String) : Option Pos :=
  if name = "up" then some ⟨0, -1⟩
  else if name = "down" then some ⟨0, 1⟩
  else if name = "left" then some ⟨-1, 0⟩
  else if name = "right" then some ⟨1, 0⟩
  else none

/-- Object.keys(DIRECTIONS), in the insertion order of constants.js. -/
def directionNames : List String := ["up", "down", "left", "right"]

/-- The walkable flag of TILE_META in constants.js. -/
def tileWalkable : Tile → Bool
  | Tile.WALL => false
  | Tile.OBSTACLE => false
  | _ => true

/-- isWalkable of snake.js (and levels.js): inside the board and neither
Wall nor Obstacle. -/
def isWalkable (tiles : List (List Tile)) (x y : Int) : Bool :=
  if x < 0 ∨ y < 0 ∨ x ≥ GRID_COLS ∨ y ≥ GRID_ROWS then
    false
  else
    let tile := (tiles.getD y.toNat []).getD x.toNat Tile.WALL
    tile ≠ Tile.WALL ∧ tile ≠ Tile.OBSTACLE

/-- Read a tile out of a row-major grid; out-of-range list accesses (which
cannot occur on a well-formed 15 by 20 grid reached through an
inside-board check) default to Wall. -/
def tileAt (tiles : List (List Tile)) (p : Pos) : Tile :=
  (tiles.getD p.y.toNat []).getD p.x.toNat Tile.WALL

/-- Write one cell of a row-major grid (tiles[y][x] = t). -/
def setTileAt (tiles : List (List Tile)) (p : Pos) (t : Tile) : List (List Tile) :=
  tiles.set p.y.toNat ((tiles.getD p.y.toNat []).set p.x.toNat t)

/-! ## Snake (snake.js) -/

/-- The baseOrder of buildInitialSegments: the fixed direction-preference
order of the initial-placement search. -/
def baseOrder : List String := ["right", "down", "left", "up"]

/-- countOpenNeighbors of snake.js: walkable, unvisited neighbors of a
cell, in baseOrder. -/
def countOpenNeighbors (tiles : List (List Tile)) (visited : List Pos)
    (x y : Int) : Nat :=
  (baseOrder.filterMap DIRECTIONS).countP fun d =>
    isWalkable tiles (x + d.x) (y + d.y) && !visited.contains ⟨x + d.x, y + d.y⟩

/-- Insert an option into a list already sorted by descending score,
after all entries of greater or equal score (a stable descending sort
step, matching the stable Array.prototype.sort with comparator
b.score - a.score). -/
def insertByScore (o : String × Nat) : List (String × Nat) → List (String × Nat)
  | [] => [o]
  | h :: t => if o.2 ≤ h.2 then h :: insertByScore o t else o :: h :: t

/-- options.sort(sortByOpenness) of snake.js: stable sort by descending
openness score. -/
def sortByOpenness (l : List (String × Nat)) : List (String × Nat) :=
  l.foldl (fun acc o => insertByScore o acc) []

/-- The unvisited walkable neighbor options of (x, y), each with its
openness score, in baseOrder, as built by dfs in snake.js. -/
def dfsOptions (tiles : List (List Tile)) (visited : List Pos)
    (x y : Int) : List (String × Nat) :=
  baseOrder.filterMap fun dirName =>
    match DIRECTIONS dirName with
    | none => none
    | some d =>
      let nx := x + d.x
      let ny := y + d.y
      if visited.contains ⟨nx, ny⟩ ∨ ¬ isWalkable tiles nx ny then none
      else some (dirName, countOpenNeighbors tiles visited nx ny)

/-- dfs of buildInitialSegments (snake.js), made functional: the mutable
path/visited pair is threaded through, and success returns the extended
path; the loop over the sorted options tries each in order until one
succeeds, backtracking (keeping the caller's path and visited set)
otherwise. The fuel argument only bounds recursion depth; the search
adds an unvisited board cell per level, so depth never exceeds the 300
board cells and a fuel of 302 is never exhausted. -/
def dfsBuild (tiles : List (List Tile)) (len : Nat) :
    Nat → List Pos → List Pos → Int → Int → Option (List Pos)
  | 0, _, _, _, _ => none
  | Nat.succ fuel, path, visited, x, y =>
    if len ≤ path.length then some path
    else
      (sortByOpenness (dfsOptions tiles visited x y)).foldl
        (fun acc o =>
          match acc with
          | some r => some r
          | none =>
            match DIRECTIONS o.1 with
            | none => none
            | some d =>
              let n : Pos := ⟨x + d.x, y + d.y⟩
              dfsBuild tiles len fuel (path ++ [n]) (visited ++ [n]) n.x n.y)
        none

/-- The loop body of the dfs option fold, named so the fold can be
reasoned about: the first success is kept, later options are only tried
while none has succeeded. -/
def dfsStep (tiles : List (List Tile)) (len fuel : Nat)
    (path visited : List Pos) (x y : Int)
    (acc : Option (List Pos)) (o : String × Nat) : Option (List Pos) :=
  match acc with
  | some r => some r
  | none =>
    match DIRECTIONS o.1 with
    | none => none
    | some d =>
      let n : Pos := ⟨x + d.x, y + d.y⟩
      dfsBuild tiles len fuel (path ++ [n]) (visited ++ [n]) n.x n.y

/-- The padding loop of buildInitialSegments: duplicate the last cell
until the chain reaches the required length. -/
def padToLength (path : List Pos) (len : Nat) : List Pos :=
  path ++ List.replicate (len - path.length) (path.getLastD ⟨0, 0⟩)

/-- The dfs phase of buildInitialSegments: the search path starting from
spawn (the whole path is [spawn] when the search fails, exactly as the
backtracking leaves it in the source). -/
def dfsPath (spawn : Pos) (len : Nat) (tiles : List (List Tile)) : List Pos :=
  (dfsBuild tiles len 302 [spawn] [spawn] spawn.x spawn.y).getD [spawn]

/-- buildInitialSegments of snake.js: greedy corridor-filling depth-first
search from spawn, padded by duplicating the tail when the search comes
up short. -/
def buildInitialSegments (spawn : Pos) (len : Nat)
    (tiles : List (List Tile)) : List Pos :=
  padToLength (dfsPath spawn len tiles) len

/-- The Snake class of snake.js. -/
structure Snake where
  segments : List Pos
  direction : String
deriving DecidableEq, Repr

namespace Snake

/-- Snake constructor. -/
def mkSnake (spawn : Pos) (len : Nat) (tiles : List (List Tile)) : Snake :=
  { segments := buildInitialSegments spawn len tiles, direction := "right" }

/-- getHead; the default is never used because segments stay nonempty. -/
def getHead (s : Snake) : Pos := s.segments.headD ⟨0, 0⟩

/-- Snake.prototype.move: unshift the new head, pop the tail, record the
facing; unknown directions are no-ops. -/
def move (s : Snake) (directionName : String) : Snake :=
  match DIRECTIONS directionName with
  | none => s
  | some d =>
    let head := s.getHead
    let nextHead : Pos := ⟨head.x + d.x, head.y + d.y⟩
    { segments := (nextHead :: s.segments).dropLast, direction := directionName }

/-- Snake.prototype.growByTailPosition: append a new segment at the
caller-supplied position. -/
def growByTailPosition (s : Snake) (tailPosition : Pos) : Snake :=
  { s with segments := s.segments ++ [tailPosition] }

end Snake

/-! ## Game state (game.js) -/

/-- The per-play copy of a parsed level, restricted to the fields the
engine reads (title/theme/character/metrics are display-only). -/
structure CurrentLevel where
  id : Nat
  snakeLength : Nat
  spawn : Pos
  tiles : List (List Tile)
deriving DecidableEq, Repr

/-- One move-history delta, as recorded by tryMove (inputAtMs, which only
feeds the replay log, is omitted). -/
structure Delta where
  moveCountBefore : Nat
  previousDirection : String
  tail : Pos
  direction : String
  growth : Nat
  consumedItem : Option (Pos × Tile)
  totalItemsBefore : Nat
  levelItemsBefore : Nat
  starMovesBefore : Int
  portalJump : Option (Pos × Pos)
deriving DecidableEq, Repr

/-- The move-animation interpolation window. -/
structure MoveAnim where
  fromSegments : List Pos
  toSegments : List Pos
  startAt : Int
  duration : Int
deriving DecidableEq, Repr

/-- The blocked-move feedback record (field names follow the source;
until is a Lean keyword, hence untilMs). -/
structure Feedback where
  tile : Pos
  reason : String
  startedAt : Int
  untilMs : Int
  shakeUntil : Int
deriving DecidableEq, Repr

/-- The one-shot notifications pushed by Game.prototype.emit, with the
payload fields the core computes. -/
inductive GEvent where
  | stateChanged (s : GState)
  | moveDone (direction : String) (moveCount : Nat) (starMoves : Int)
  | blocked (reason : String) (tile : Pos)
  | item_collected (kind : String) (growth : Nat) (pos : Pos)
      (length : Nat) (collected : Nat) (total : Nat)
  | power_start (turns : Int)
  | power_end
  | portal_used (source : Pos) (dest : Pos)
  | level_clear (levelId : Nat) (moveCount : Nat) (bestMoves : Nat)
      (collectedItems : Nat) (totalItems : Nat) (previousBest : Nat)
  | game_complete (moveCount : Nat) (totalMoves : Nat)
  | deadlock
  | undone (moveCount : Nat)
deriving DecidableEq, Repr

/-- The Game object of game.js, restricted to the fields the core engine
reads or that the claims mention. Omitted (never read back by the
embedded operations): settings other than reduceMotion, key bindings,
replay log/archive, history checkpoints, persistence, input-latency and
feedback-consumption bookkeeping. The levels array is modeled by the
loaded level value plus levelIndex/numLevels, which is all
handleLevelClear reads of it. -/
structure Game where
  state : GState
  currentLevel : Option CurrentLevel
  snake : Option Snake
  moveCount : Nat
  totalMoveCount : Nat
  history : List Delta
  animationTimeMs : Int
  moveAnimation : Option MoveAnim
  feedback : Option Feedback
  eventQueue : List GEvent
  deadlockHintUntil : Int
  levelCollectedItems : Nat
  levelTotalItems : Nat
  totalItemsCollected : Nat
  starMovesRemaining : Int
  portalLinks : List (Pos × Pos)
  discardedHistoryCount : Nat
  reduceMotion : Bool
  bestMoves : List (Nat × Nat)
  progressClears : Nat
  unlockedLevelIndex : Nat
  levelIndex : Nat
  numLevels : Nat
deriving DecidableEq, Repr

namespace Game

/-- Game.prototype.emit: push one event. -/
def emit (g : Game) (e : GEvent) : Game :=
  { g with eventQueue := g.eventQueue ++ [e] }

/-- Game.prototype.isTransitionAllowed. -/
def isTransitionAllowed (g : Game) (next : GState) : Bool :=
  (STATE_TRANSITIONS g.state).contains next ∨ next = g.state

/-- Game.prototype.setState: validated transition, no-op when illegal. -/
def setState (g : Game) (next : GState) : Game :=
  if g.isTransitionAllowed next then { g with state := next } else g

/-- Game.prototype.isInsideBoard. -/
def isInsideBoard (x y : Int) : Bool :=
  x ≥ 0 ∧ y ≥ 0 ∧ x < GRID_COLS ∧ y < GRID_ROWS

/-- The body of Game.prototype.getTile over an optional loaded level:
Wall off the board or without a level. -/
def getTileL (lvl? : Option CurrentLevel) (x y : Int) : Tile :=
  match lvl? with
  | none => Tile.WALL
  | some lvl => if isInsideBoard x y then tileAt lvl.tiles ⟨x, y⟩ else Tile.WALL

/-- Game.prototype.getTile. -/
def getTile (g : Game) (x y : Int) : Tile :=
  getTileL g.currentLevel x y

/-- Game.prototype.isStarActive. -/
def isStarActive (g : Game) : Bool := g.starMovesRemaining > 0

/-- The body of Game.prototype.canEnterTileType as a function of the
star counter: Wall never, Obstacle only with star power active. -/
def canEnterT (starMovesRemaining : Int) (tileType : Tile) : Bool :=
  if tileType = Tile.WALL then false
  else if tileType = Tile.OBSTACLE ∧ ¬ (starMovesRemaining > 0) then false
  else true

/-- Game.prototype.canEnterTileType. -/
def canEnterTileType (g : Game) (tileType : Tile) : Bool :=
  canEnterT g.starMovesRemaining tileType

/-- Game.prototype.canMoveTo. -/
def canMoveTo (g : Game) (x y : Int) : Bool :=
  match g.currentLevel with
  | none => false
  | some lvl =>
    if ¬ isInsideBoard x y then false
    else g.canEnterTileType (tileAt lvl.tiles ⟨x, y⟩)

/-- Game.prototype.getMoveCandidate (the snake is present whenever this
is reached in the source). -/
def getMoveCandidate (s : Snake) (directionName : String) : Option Pos :=
  match DIRECTIONS directionName with
  | none => none
  | some d => some ⟨s.getHead.x + d.x, s.getHead.y + d.y⟩

/-- Game.prototype.hasAnyValidMove. -/
def hasAnyValidMove (g : Game) : Bool :=
  match g.snake with
  | none => false
  | some s => directionNames.any fun dirName =>
      match getMoveCandidate s dirName with
      | none => false
      | some c => g.canMoveTo c.x c.y

/-- Game.prototype.buildPortalLinks: symmetric mapping between the first
PortalA and the first PortalB in row-major scan order, empty unless both
exist. -/
def buildPortalLinksOf (tiles : List (List Tile)) : List (Pos × Pos) :=
  let cells := (List.range GRID_ROWS.toNat).flatMap fun y =>
    (List.range GRID_COLS.toNat).map fun x => (Pos.mk x y)
  let firstA := cells.find? fun p => tileAt tiles p = Tile.PORTAL_A
  let firstB := cells.find? fun p => tileAt tiles p = Tile.PORTAL_B
  match firstA, firstB with
  | some a, some b => [(a, b), (b, a)]
  | _, _ => []

/-- Game.prototype.getPortalDestination: lookup in the link table. -/
def getPortalDestination (g : Game) (p : Pos) : Option Pos :=
  (g.portalLinks.find? fun link => link.1 = p).map Prod.snd

/-- Game.prototype.countItemsInCurrentLevel: Item and BigItem tiles. -/
def countItemsIn (tiles : List (List Tile)) : Nat :=
  ((List.range GRID_ROWS.toNat).flatMap fun y =>
    (List.range GRID_COLS.toNat).map fun x => (Pos.mk x y)).countP
    fun p => tileAt tiles p = Tile.ITEM ∨ tileAt tiles p = Tile.BIG_ITEM

/-- Game.prototype.pushHistoryDelta, minus the write-only history
checkpoints: append, then discard oldest-first past the cap. -/
def pushHistoryDelta (g : Game) (delta : Delta) : Game :=
  let g := { g with history := g.history ++ [delta] }
  if GAMEPLAY.HISTORY_LIMIT < g.history.length then
    { g with discardedHistoryCount := g.discardedHistoryCount + 1,
             history := g.history.tail }
  else g

/-- Game.prototype.setBlockedFeedback (navigator.vibrate is external). -/
def setBlockedFeedback (g : Game) (candidate : Pos) (reason : String) : Game :=
  let fb : Feedback :=
    { tile := candidate, reason := reason, startedAt := g.animationTimeMs,
      untilMs := g.animationTimeMs + GAMEPLAY.BLOCKED_FEEDBACK_MS,
      shakeUntil := g.animationTimeMs + GAMEPLAY.SHAKE_DURATION_MS }
  let g := { g with feedback := some fb }
  g.emit (GEvent.blocked reason candidate)

/-- Game.prototype.startMoveAnimation. -/
def startMoveAnimation (g : Game) (fromSegments toSegments : List Pos) : Game :=
  let duration : Int := if g.reduceMotion then 0 else GAMEPLAY.MOVE_ANIMATION_MS
  let anim : MoveAnim :=
    { fromSegments := fromSegments, toSegments := toSegments,
      startAt := g.animationTimeMs, duration := duration }
  { g with moveAnimation := some anim }

end Game

/-- The result record of handleItemCollection. -/
structure ItemResult where
  growth : Nat
  collectedType : String
  activatedStar : Bool
deriving DecidableEq, Repr

namespace Game

/-- The current snake length (0 without a snake, as in
getCurrentSnakeLength). -/
def snakeLen (g : Game) : Nat := (g.snake.map fun s => s.segments.length).getD 0

/-- Rewrite one tile of the loaded level's grid. -/
def writeTile (g : Game) (p : Pos) (t : Tile) : Game :=
  { g with currentLevel := g.currentLevel.map fun lvl =>
      { lvl with tiles := setTileAt lvl.tiles p t } }

/-- Game.prototype.handleItemCollection: jelly grows by 1, super jelly by
2 (two independent grow calls), star sets the fixed star-power constant;
each consumes its tile and is recorded on the delta. In the source the
delta was already pushed and is mutated in place; here the updated delta
is returned and pushed afterwards, which yields the same history. -/
def handleItemCollection (g : Game) (candidate : Pos) (candidateTile : Tile)
    (tail : Pos) (delta : Delta) : Game × Delta × ItemResult :=
  if candidateTile = Tile.ITEM then
    let g := g.writeTile candidate Tile.EMPTY
    let g := { g with snake := g.snake.map (Snake.growByTailPosition · tail) }
    let delta := { delta with consumedItem := some (candidate, candidateTile) }
    let g := { g with levelCollectedItems := g.levelCollectedItems + 1,
                      totalItemsCollected := g.totalItemsCollected + 1 }
    let delta := { delta with growth := 1 }
    let g := g.emit (GEvent.item_collected "jelly" 1 candidate g.snakeLen
      g.levelCollectedItems g.levelTotalItems)
    (g, delta, ⟨1, "jelly", false⟩)
  else if candidateTile = Tile.BIG_ITEM then
    let g := g.writeTile candidate Tile.EMPTY
    let g := { g with snake := g.snake.map (Snake.growByTailPosition · tail) }
    let g := { g with snake := g.snake.map (Snake.growByTailPosition · tail) }
    let delta := { delta with consumedItem := some (candidate, candidateTile) }
    let g := { g with levelCollectedItems := g.levelCollectedItems + 1,
                      totalItemsCollected := g.totalItemsCollected + 1 }
    let delta := { delta with growth := 2 }
    let g := g.emit (GEvent.item_collected "super_jelly" 2 candidate g.snakeLen
      g.levelCollectedItems g.levelTotalItems)
    (g, delta, ⟨2, "super_jelly", false⟩)
  else if candidateTile = Tile.STAR_ITEM then
    let g := g.writeTile candidate Tile.EMPTY
    let g := { g with starMovesRemaining := GAMEPLAY.STAR_POWER_MOVES }
    let delta := { delta with consumedItem := some (candidate, candidateTile) }
    let g := g.emit (GEvent.power_start g.starMovesRemaining)
    let g := g.emit (GEvent.item_collected "star" 0 candidate g.snakeLen
      g.levelCollectedItems g.levelTotalItems)
    (g, delta, ⟨0, "star", true⟩)
  else
    (g, delta, ⟨0, "", false⟩)

/-- Game.prototype.handlePortalWarp: on a linked portal tile whose
partner is enterable, rewrite only the head to the partner coordinate
and record the jump on the delta. -/
def handlePortalWarp (g : Game) (candidate : Pos) (candidateTile : Tile)
    (delta : Delta) : Game × Delta :=
  if candidateTile ≠ Tile.PORTAL_A ∧ candidateTile ≠ Tile.PORTAL_B then
    (g, delta)
  else
    match g.getPortalDestination candidate with
    | none => (g, delta)
    | some dest =>
      let destinationTile := g.getTile dest.x dest.y
      if ¬ g.canEnterTileType destinationTile then (g, delta)
      else
        let warpSnake : Snake → Snake := fun s =>
          { s with segments :=
              match s.segments with
              | [] => []
              | _ :: t => dest :: t }
        let g := { g with snake := g.snake.map warpSnake }
        let delta := { delta with portalJump := some (candidate, dest) }
        (g.emit (GEvent.portal_used candidate dest), delta)

/-- Game.prototype.tickStarPower: decrement unless the star was activated
this very move; clamp at zero and emit power_end on reaching zero. -/
def tickStarPower (g : Game) (justActivated : Bool) : Game :=
  if g.starMovesRemaining > 0 ∧ ¬ justActivated then
    let g := { g with starMovesRemaining := g.starMovesRemaining - 1 }
    if g.starMovesRemaining ≤ 0 then
      ({ g with starMovesRemaining := 0 }).emit GEvent.power_end
    else g
  else g

/-- bestMoves[levelId] || 0 on the association list modeling the
bestMoves object. -/
def bmLookup (bm : List (Nat × Nat)) (levelId : Nat) : Nat :=
  ((bm.find? fun e => e.1 = levelId).map Prod.snd).getD 0

/-- Game.prototype.handleLevelClear, minus the replay archive and
persistence writes, which the engine never reads back. -/
def handleLevelClear (g : Game) : Game :=
  match g.currentLevel with
  | none => g
  | some lvl =>
    let levelId := lvl.id
    let previousBest := bmLookup g.bestMoves levelId
    let g := if previousBest = 0 ∨ g.moveCount < previousBest then
        { g with bestMoves := (levelId, g.moveCount) :: g.bestMoves }
      else g
    let g := { g with progressClears := g.progressClears + 1 }
    let lastLevelIndex := g.numLevels - 1
    if g.levelIndex ≥ lastLevelIndex then
      let g := { g with unlockedLevelIndex := lastLevelIndex }
      let g := g.setState GState.GAME_COMPLETE
      g.emit (GEvent.game_complete g.moveCount g.totalMoveCount)
    else
      let g := { g with unlockedLevelIndex := max g.unlockedLevelIndex (g.levelIndex + 1) }
      let g := g.setState GState.LEVEL_COMPLETE
      g.emit (GEvent.level_clear levelId g.moveCount (bmLookup g.bestMoves levelId)
        g.levelCollectedItems g.levelTotalItems previousBest)

/-- Game.prototype.checkPostMoveState: exit reached means level clear;
otherwise a position with no legal move arms the deadlock hint. -/
def checkPostMoveState (g : Game) : Game :=
  let headAfterMove := (g.snake.map Snake.getHead).getD ⟨0, 0⟩
  let headTile := g.getTile headAfterMove.x headAfterMove.y
  if headTile = Tile.EXIT then g.handleLevelClear
  else if ¬ g.hasAnyValidMove then
    ({ g with deadlockHintUntil := g.animationTimeMs + GAMEPLAY.DEADLOCK_HINT_MS
     }).emit GEvent.deadlock
  else g

/-- The move-animation pacing gate of tryMove: a new move is refused
until 70 percent of the animation window has elapsed. The comparison in
the source is elapsed < duration * 0.7; for the only positive duration
(120) that product is exactly 84 as a double, so elapsed * 10 <
duration * 7 over Int is exact. -/
def gateBlocked (g : Game) : Bool :=
  match g.moveAnimation with
  | some anim =>
    anim.duration > 0 && (g.animationTimeMs - anim.startAt) * 10 < anim.duration * 7
  | none => false

/-- The accepted-move path of tryMove: record the history delta, shift
the actor, then in order resolve item collection, portal warp and the
star-power tick, bump the move counters, start the move animation, emit
the move event, and check the post-move state. In the source the delta
is pushed before being filled in by the item/portal handlers (in-place
mutation); pushing the filled-in delta afterwards yields the same
history. -/
def commitMove (g : Game) (snake : Snake) (directionName : String)
    (candidate : Pos) (candidateTile : Tile) : Game :=
  let beforeSegments := snake.segments
  let tail := beforeSegments.getLastD ⟨0, 0⟩
  let delta : Delta :=
    { moveCountBefore := g.moveCount, previousDirection := snake.direction,
      tail := tail, direction := directionName, growth := 0,
      consumedItem := none, totalItemsBefore := g.totalItemsCollected,
      levelItemsBefore := g.levelCollectedItems,
      starMovesBefore := g.starMovesRemaining, portalJump := none }
  let g := { g with snake := some (snake.move directionName) }
  let r := g.handleItemCollection candidate candidateTile tail delta
  let g := r.1
  let r2 := g.handlePortalWarp candidate candidateTile r.2.1
  let g := r2.1
  let g := g.pushHistoryDelta r2.2
  let g := g.tickStarPower r.2.2.activatedStar
  let g := { g with moveCount := g.moveCount + 1,
                    totalMoveCount := g.totalMoveCount + 1 }
  let afterSegments := (g.snake.map Snake.segments).getD []
  let g := g.startMoveAnimation beforeSegments afterSegments
  let g := g.emit (GEvent.moveDone directionName g.moveCount g.starMovesRemaining)
  g.checkPostMoveState

/-- The accepted-move path of commitMove before the post-move check, as
its own definition so the commit/check phases can be reasoned about
separately; commitMove is definitionally commitSteps followed by
checkPostMoveState. -/
def commitSteps (g : Game) (snake : Snake) (directionName : String)
    (candidate : Pos) (candidateTile : Tile) : Game :=
  let beforeSegments := snake.segments
  let tail := beforeSegments.getLastD ⟨0, 0⟩
  let delta : Delta :=
    { moveCountBefore := g.moveCount, previousDirection := snake.direction,
      tail := tail, direction := directionName, growth := 0,
      consumedItem := none, totalItemsBefore := g.totalItemsCollected,
      levelItemsBefore := g.levelCollectedItems,
      starMovesBefore := g.starMovesRemaining, portalJump := none }
  let g := { g with snake := some (snake.move directionName) }
  let r := g.handleItemCollection candidate candidateTile tail delta
  let g := r.1
  let r2 := g.handlePortalWarp candidate candidateTile r.2.1
  let g := r2.1
  let g := g.pushHistoryDelta r2.2
  let g := g.tickStarPower r.2.2.activatedStar
  let g := { g with moveCount := g.moveCount + 1,
                    totalMoveCount := g.totalMoveCount + 1 }
  let afterSegments := (g.snake.map Snake.segments).getD []
  let g := g.startMoveAnimation beforeSegments afterSegments
  g.emit (GEvent.moveDone directionName g.moveCount g.starMovesRemaining)

/-- Game.prototype.tryMove. The inputAtMs argument only feeds the replay
log and latency bookkeeping, both omitted. -/
def tryMove (g : Game) (directionName : String) (_inputAtMs : Int) : Bool × Game :=
  if g.state ≠ GState.PLAYING then (false, g) else
  match g.snake with
  | none => (false, g)
  | some snake =>
    if g.gateBlocked then (false, g) else
    match getMoveCandidate snake directionName with
    | none => (false, g)
    | some candidate =>
      let candidateTile := g.getTile candidate.x candidate.y
      if ¬ g.canEnterTileType candidateTile then
        (false, g.setBlockedFeedback candidate
          (if candidateTile = Tile.OBSTACLE then "obstacle" else "wall"))
      else
        (true, g.commitMove snake directionName candidate candidateTile)

/-- Game.prototype.undo: pop the newest delta and reconstruct the
pre-move state; no-op outside Playing or with empty history. -/
def undo (g : Game) : Bool × Game :=
  if g.state ≠ GState.PLAYING then (false, g) else
  match g.history.getLast? with
  | none => (false, g)
  | some delta =>
    let history' := g.history.dropLast
    let current := (g.snake.map Snake.segments).getD []
    let growth := delta.growth
    let restoreEnd := max 1 (current.length - growth)
    let effectiveSegments :=
      match delta.portalJump with
      | some pj =>
        match current with
        | [] => current
        | _ :: t => pj.1 :: t
      | none => current
    let restored := (effectiveSegments.drop 1).take (restoreEnd - 1) ++ [delta.tail]
    -- The empty-restored fallback of the source is unreachable: delta.tail
    -- is recorded on every move, so restored always ends with it.
    let g :=
      match delta.consumedItem with
      | some ci =>
        let g := g.writeTile ci.1 (if ci.2 = Tile.EMPTY then Tile.ITEM else ci.2)
        { g with levelCollectedItems := delta.levelItemsBefore,
                 totalItemsCollected := delta.totalItemsBefore }
      | none => g
    let g := { g with
      starMovesRemaining := max 0 delta.starMovesBefore,
      snake := some { segments := restored, direction := delta.previousDirection },
      moveCount := delta.moveCountBefore,
      history := history' }
    let g := g.startMoveAnimation current restored
    (true, g.emit (GEvent.undone delta.moveCountBefore))

/-- Game.prototype.update: advance the animation clock and clear a
finished move animation. -/
def update (g : Game) (nowTimeMs : Int) : Game :=
  let g := { g with animationTimeMs := nowTimeMs }
  match g.moveAnimation with
  | some anim =>
    if anim.duration > 0 ∧ anim.duration < g.animationTimeMs - anim.startAt then
      { g with moveAnimation := none }
    else g
  | none => g

/-- Game.prototype.loadLevel, given the selected level value (the index
clamping into the levels array happens at the call sites). -/
def loadLevel (g : Game) (lvl : CurrentLevel) : Game :=
  { g with
    currentLevel := some lvl,
    snake := some (Snake.mkSnake lvl.spawn lvl.snakeLength lvl.tiles),
    moveCount := 0,
    history := [],
    discardedHistoryCount := 0,
    moveAnimation := none,
    feedback := none,
    deadlockHintUntil := 0,
    levelCollectedItems := 0,
    levelTotalItems := countItemsIn lvl.tiles,
    starMovesRemaining := 0,
    portalLinks := buildPortalLinksOf lvl.tiles }

end Game

/-! ## Solvability verifier (scripts/validate-levels.js) -/

/-- The row-major enumeration of board cells (y outer, x inner), the scan
order of every grid loop in the source. -/
def boardCells : List Pos :=
  (List.range GRID_ROWS.toNat).flatMap fun y =>
    (List.range GRID_COLS.toNat).map fun x => Pos.mk x y

/-- The portal positions of one kind collected by solveLevel before its
search loop, in row-major order. -/
def portalList (tiles : List (List Tile)) (t : Tile) : List Pos :=
  boardCells.filter fun p => tileAt tiles p = t

/-- level.tiles[ny] && level.tiles[ny][nx] of solveLevel: undefined (none)
off the stored rows. -/
def solveTileAt (tiles : List (List Tile)) (x y : Int) : Option Tile :=
  if x < 0 ∨ y < 0 then none
  else
    match tiles.get? y.toNat with
    | none => none
    | some row => row.get? x.toNat

/-- One direction of the successor computation in the breadth-first loop
of solveLevel: none when the direction is skipped (continue), otherwise
the enqueued (segments, starMoves) pair. The tile grid is never mutated
by the verifier. -/
def solveSuccessor (tiles : List (List Tile)) (portalA portalB : List Pos)
    (segments : List Pos) (starMoves : Int) (directionName : String) :
    Option (List Pos × Int) :=
  match DIRECTIONS directionName with
  | none => none
  | some d =>
    let headPos := segments.headD ⟨0, 0⟩
    let nx := headPos.x + d.x
    let ny := headPos.y + d.y
    match solveTileAt tiles nx ny with
    | none => none
    | some tile =>
      if tile = Tile.WALL then none
      else if tile = Tile.OBSTACLE ∧ ¬ (starMoves > 0) then none
      else
        let nextSegments := Pos.mk nx ny :: segments.dropLast
        let nextStarMoves : Int :=
          if tile = Tile.STAR_ITEM then GAMEPLAY.STAR_POWER_MOVES
          else if starMoves > 0 then starMoves - 1
          else starMoves
        let nextSegments :=
          if tile = Tile.PORTAL_A ∧ portalB ≠ [] then
            portalB.headD ⟨0, 0⟩ :: nextSegments.tail
          else if tile = Tile.PORTAL_B ∧ portalA ≠ [] then
            portalA.headD ⟨0, 0⟩ :: nextSegments.tail
          else nextSegments
        some (nextSegments, nextStarMoves)

/-! ## Procedural generator (js/levels.js) -/

/-- manhattan of levels.js. -/
def manhattan (a b : Pos) : Nat := (a.x - b.x).natAbs + (a.y - b.y).natAbs

/-- The linear congruential generator state of createRng (seed >>> 0 with
a 0-to-1 fixup happens at seeding; the state is a 32-bit value). -/
structure Rng where
  state : Nat
deriving DecidableEq, Repr

/-- One step of the createRng generator. -/
def randStep (r : Rng) : Rng :=
  ⟨(r.state * 1664525 + 1013904223) % 4294967296⟩

/-- Math.floor(rand() * n): exact over Nat because state * n stays far
below 2 to the 53rd for the small bounds used. -/
def randIndex (r : Rng) (n : Nat) : Nat × Rng :=
  let r := randStep r
  (r.state * n / 4294967296, r)

/-- Swap two indices of a list (the body of one Fisher-Yates step). -/
def listSwap {α : Type} (l : List α) (i j : Nat) : List α :=
  match l.get? i, l.get? j with
  | some a, some b => (l.set i b).set j a
  | _, _ => l

/-- The descending Fisher-Yates loop of shuffleInPlace, iterating the
index i+1 down to 1. -/
def shuffleAux {α : Type} : List α → Rng → Nat → List α × Rng
  | l, r, 0 => (l, r)
  | l, r, Nat.succ i =>
    let p := randIndex r (i + 2)
    shuffleAux (listSwap l (i + 1) p.1) p.2 i

/-- shuffleInPlace of levels.js. -/
def shuffleInPlace {α : Type} (l : List α) (r : Rng) : List α × Rng :=
  shuffleAux l r (l.length - 1)

/-- Character-grid access; the blank default is never a map symbol. -/
def charAt (grid : List (List Char)) (p : Pos) : Char :=
  (grid.getD p.y.toNat []).getD p.x.toNat ' '

/-- Character-grid update (grid[y][x] = c). -/
def setCharAt (grid : List (List Char)) (p : Pos) (c : Char) : List (List Char) :=
  grid.set p.y.toNat ((grid.getD p.y.toNat []).set p.x.toNat c)

/-- The ordered index pairs (i < j) of the nested best-pair scan of
placePortalPair. -/
def orderedPairs {α : Type} : List α → List (α × α)
  | [] => []
  | h :: t => (t.map fun b => (h, b)) ++ orderedPairs t

/-- The running best of the placePortalPair scan: the first pair of
strictly greatest Manhattan distance (bestDist starts below every real
distance, so none survives only an empty pair list). -/
def bestPairScan (sample : List Pos) : Option (Pos × Pos × Nat) :=
  (orderedPairs sample).foldl
    (fun acc ab =>
      let d := manhattan ab.1 ab.2
      match acc with
      | none => some (ab.1, ab.2, d)
      | some best => if best.2.2 < d then some (ab.1, ab.2, d) else acc)
    none

/-- placePortalPair of levels.js: filter side cells far from spawn and
exit (falling back to all candidates when fewer than two survive),
sample 24 shuffled cells, take the pair of maximal mutual Manhattan
distance, and write P and Q when that distance reaches 8. -/
def placePortalPair (grid : List (List Char)) (candidates : List Pos)
    (r : Rng) (spawn exitPos : Pos) : Bool × List (List Char) × Rng :=
  if candidates.length < 2 then (false, grid, r)
  else
    let filtered := candidates.filter fun cell =>
      6 ≤ manhattan cell spawn ∧ 6 ≤ manhattan cell exitPos
    let filtered := if filtered.length < 2 then candidates else filtered
    let sr := shuffleInPlace filtered r
    let sample := sr.1.take 24
    match bestPairScan sample with
    | none => (false, grid, sr.2)
    | some best =>
      let bestA := best.1
      let bestB := best.2.1
      if best.2.2 < 8 then (false, grid, sr.2)
      else if charAt grid bestA ≠ '.' ∨ charAt grid bestB ≠ '.' then
        (false, grid, sr.2)
      else
        (true, setCharAt (setCharAt grid bestA 'P') bestB 'Q', sr.2)

/-! ## Level parsing (parseMap and charToTile of levels.js) -/

/-- The raw level definition fed to parseMap (map rows as character
lists; title/theme/character are display-only and omitted). -/
structure LevelDef where
  id : Nat
  snakeLength : Nat
  map : List (List Char)
deriving DecidableEq, Repr

/-- The parsed level produced by parseMap (the display-only difficulty
metrics are omitted). -/
structure ParsedLevel where
  id : Nat
  snakeLength : Nat
  spawn : Pos
  tiles : List (List Tile)
deriving DecidableEq, Repr

/-- charToTile of levels.js; unknown symbols throw. -/
def charToTile (c : Char) : Except String Tile :=
  if c = '.' then .ok Tile.EMPTY
  else if c = '#' then .ok Tile.WALL
  else if c = 'E' then .ok Tile.EXIT
  else if c = 'X' then .ok Tile.OBSTACLE
  else if c = 'S' then .ok Tile.SPAWN
  else if c = 'I' then .ok Tile.ITEM
  else if c = 'G' then .ok Tile.BIG_ITEM
  else if c = 'T' then .ok Tile.STAR_ITEM
  else if c = 'P' then .ok Tile.PORTAL_A
  else if c = 'Q' then .ok Tile.PORTAL_B
  else .error "Unknown map symbol."

/-- The inner cell loop of parseMap over one row: convert characters,
record the single spawn (stored as Empty), count exits. -/
def parseCells (y : Nat) : Nat → List Char → Option Pos → Nat →
    Except String (List Tile × Option Pos × Nat)
  | _, [], spawn, exits => .ok ([], spawn, exits)
  | x, c :: rest, spawn, exits =>
    match charToTile c with
    | .error e => .error e
    | .ok tile =>
      if tile = Tile.SPAWN then
        match spawn with
        | some _ => .error "multiple spawn points"
        | none =>
          match parseCells y (x + 1) rest (some ⟨(x : Int), (y : Int)⟩) exits with
          | .error e => .error e
          | .ok out => .ok (Tile.EMPTY :: out.1, out.2)
      else
        let exits := if tile = Tile.EXIT then exits + 1 else exits
        match parseCells y (x + 1) rest spawn exits with
        | .error e => .error e
        | .ok out => .ok (tile :: out.1, out.2)

/-- The row loop of parseMap: per-row column-count check, then cells. -/
def parseRows : Nat → List (List Char) → Option Pos → Nat →
    Except String (List (List Tile) × Option Pos × Nat)
  | _, [], spawn, exits => .ok ([], spawn, exits)
  | y, row :: rest, spawn, exits =>
    if row.length ≠ GRID_COLS.toNat then .error "invalid col count"
    else
      match parseCells y 0 row spawn exits with
      | .error e => .error e
      | .ok rowOut =>
        match parseRows (y + 1) rest rowOut.2.1 rowOut.2.2 with
        | .error e => .error e
        | .ok out => .ok (rowOut.1 :: out.1, out.2)

/-- parseMap of levels.js: structural validation is fatal (row and column
counts, unknown symbols, missing or duplicate spawn, missing exit); on
success the spawn coordinate is recorded and its cell stored as Empty. -/
def parseMap (levelDef : LevelDef) : Except String ParsedLevel :=
  if levelDef.map.length ≠ GRID_ROWS.toNat then .error "invalid row count"
  else
    match parseRows 0 levelDef.map none 0 with
    | .error e => .error e
    | .ok out =>
      match out.2.1 with
      | none => .error "missing a spawn point"
      | some sp =>
        if out.2.2 = 0 then .error "missing an exit"
        else .ok { id := levelDef.id, snakeLength := levelDef.snakeLength,
                   spawn := sp, tiles := out.1 }

/-! ## Play-session scaffolding -/

/-- A Game as the constructor leaves it with default (absent) persisted
progress: Title state, nothing loaded, all counters zero. -/
def initGame (reduceMotion : Bool) (numLevels : Nat) : Game :=
  { state := GState.TITLE, currentLevel := none, snake := none,
    moveCount := 0, totalMoveCount := 0, history := [],
    animationTimeMs := 0, moveAnimation := none, feedback := none,
    eventQueue := [], deadlockHintUntil := 0, levelCollectedItems := 0,
    levelTotalItems := 0, totalItemsCollected := 0, starMovesRemaining := 0,
    portalLinks := [], discardedHistoryCount := 0, reduceMotion := reduceMotion,
    bestMoves := [], progressClears := 0, unlockedLevelIndex := 0,
    levelIndex := 0, numLevels := numLevels }

/-- The freshly loaded playing state of a level: loadLevel followed by
the Title-to-Playing transition, as startGame does. -/
def loadedPlaying (lvl : CurrentLevel) (reduceMotion : Bool) (numLevels : Nat) : Game :=
  ((initGame reduceMotion numLevels).loadLevel lvl).setState GState.PLAYING

/-- One driver step: advance the frame clock to the input timestamp, then
try the move; succeeds only when the move is accepted and the game is
still Playing afterwards. -/
def stepPlaying (g : Game) (mv : String × Int) : Option Game :=
  let g := g.update mv.2
  let r := g.tryMove mv.1 mv.2
  if r.1 ∧ r.2.state = GState.PLAYING then some r.2 else none

/-- A whole sequence of accepted moves made while the game remains in the
Playing state. -/
def runPlaying : Game → List (String × Int) → Option Game
  | g, [] => some g
  | g, mv :: rest =>
    match stepPlaying g mv with
    | none => none
    | some g' => runPlaying g' rest

/-- n undo operations in a row (each popping the newest delta). -/
def undoN : Game → Nat → Game
  | g, 0 => g
  | g, Nat.succ n => undoN (g.undo).2 n

/-- Whether n undo operations in a row all succeed. -/
def undosOk : Game → Nat → Bool
  | _, 0 => true
  | g, Nat.succ n => (g.undo).1 && undosOk (g.undo).2 n

/-- The fields of a Game that the undo operation reads and that the
restoration claims are about; everything else tryMove touches is
presentation (events, animation, feedback) or cumulative bookkeeping. -/
structure Core where
  state : GState
  currentLevel : Option CurrentLevel
  snake : Option Snake
  moveCount : Nat
  history : List Delta
  levelCollectedItems : Nat
  levelTotalItems : Nat
  totalItemsCollected : Nat
  starMovesRemaining : Int
  portalLinks : List (Pos × Pos)
deriving DecidableEq, Repr

/-- Project a Game onto its core fields. -/
def Game.core (g : Game) : Core :=
  { state := g.state, currentLevel := g.currentLevel, snake := g.snake,
    moveCount := g.moveCount, history := g.history,
    levelCollectedItems := g.levelCollectedItems,
    levelTotalItems := g.levelTotalItems,
    totalItemsCollected := g.totalItemsCollected,
    starMovesRemaining := g.starMovesRemaining,
    portalLinks := g.portalLinks }

/-! ## Concrete test levels (used by witnesses and counterexamples) -/

/-- Build a playable level from map rows through the real parser; the
error branch is never taken for the well-formed test maps below. -/
def levelFromMap (id : Nat) (snakeLength : Nat) (rows : List String) : CurrentLevel :=
  match parseMap ⟨id, snakeLength, rows.map String.toList⟩ with
  | .ok l => ⟨l.id, l.snakeLength, l.spawn, l.tiles⟩
  | .error _ => ⟨id, snakeLength, ⟨0, 0⟩, []⟩

/-- A level with a two-cell corridor for arbitrarily long oscillating
move sequences; the required exit is walled off. -/
def levelCorridor : CurrentLevel :=
  levelFromMap 1 1
    [ "####################",
      "#S.#################",
      "####################",
      "####################",
      "####################",
      "####################",
      "####################",
      "####################",
      "####################",
      "####################",
      "####################",
      "####################",
      "####################",
      "##################E#",
      "####################" ]

/-- A level with a BigItem, an Item, an empty cell and a StarItem in a
row east of spawn. -/
def levelItems : CurrentLevel :=
  levelFromMap 2 1
    [ "####################",
      "#SGI.T..############",
      "####################",
      "####################",
      "####################",
      "####################",
      "####################",
      "####################",
      "####################",
      "####################",
      "####################",
      "####################",
      "####################",
      "##################E#",
      "####################" ]

/-- A level with a star item directly east of spawn and corridor beyond. -/
def levelStar : CurrentLevel :=
  levelFromMap 3 1
    [ "####################",
      "#ST.................",
      "####################",
      "####################",
      "####################",
      "####################",
      "####################",
      "####################",
      "####################",
      "####################",
      "####################",
      "####################",
      "####################",
      "##################E#",
      "####################" ]

/-- A level with an obstacle directly east of spawn. -/
def levelObstacle : CurrentLevel :=
  levelFromMap 4 1
    [ "####################",
      "#SX.################",
      "####################",
      "####################",
      "####################",
      "####################",
      "####################",
      "####################",
      "####################",
      "####################",
      "####################",
      "####################",
      "####################",
      "##################E#",
      "####################" ]

/-- A level with a linked portal pair: PortalA east of spawn, PortalB in
an isolated pocket. -/
def levelPortal : CurrentLevel :=
  levelFromMap 5 1
    [ "####################",
      "#SP#################",
      "####################",
      "#####Q.#############",
      "####################",
      "####################",
      "####################",
      "####################",
      "####################",
      "####################",
      "####################",
      "####################",
      "####################",
      "##################E#",
      "####################" ]

/-- A level whose spawn sits on the board edge, so a move can leave the
board. -/
def levelEdge : CurrentLevel :=
  levelFromMap 6 1
    [ "S###################",
      "####################",
      "####################",
      "####################",
      "####################",
      "####################",
      "####################",
      "####################",
      "####################",
      "####################",
      "####################",
      "####################",
      "####################",
      "##################E#",
      "####################" ]

/-- The undo operation expressed on the core projection: undo reads and
writes only core fields (its event/animation output is presentation).
Game.undo agrees with this function through Game.core. -/
def undoCore (c : Core) : Bool × Core :=
  if c.state ≠ GState.PLAYING then (false, c) else
  match c.history.getLast? with
  | none => (false, c)
  | some delta =>
    let history' := c.history.dropLast
    let current := (c.snake.map Snake.segments).getD []
    let restoreEnd := max 1 (current.length - delta.growth)
    let effectiveSegments :=
      match delta.portalJump with
      | some pj =>
        match current with
        | [] => current
        | _ :: t => pj.1 :: t
      | none => current
    let restored := (effectiveSegments.drop 1).take (restoreEnd - 1) ++ [delta.tail]
    let c :=
      match delta.consumedItem with
      | some ci =>
        let restoredKind := if ci.2 = Tile.EMPTY then Tile.ITEM else ci.2
        let restoreLvl : CurrentLevel → CurrentLevel := fun lvl =>
          { lvl with tiles := setTileAt lvl.tiles ci.1 restoredKind }
        { c with currentLevel := c.currentLevel.map restoreLvl,
                 levelCollectedItems := delta.levelItemsBefore,
                 totalItemsCollected := delta.totalItemsBefore }
      | none => c
    (true, { c with
      starMovesRemaining := max 0 delta.starMovesBefore,
      snake := some { segments := restored, direction := delta.previousDirection },
      moveCount := delta.moveCountBefore,
      history := history' })

/-- The hypotheses under which an accepted move is exactly invertible:
playing, a nonempty actor, a nonnegative star counter, and room left in
the bounded history. All are facts about core fields. -/
def CoreInv (c : Core) : Prop :=
  c.state = GState.PLAYING ∧
  (∃ s, c.snake = some s ∧ s.segments ≠ []) ∧
  0 ≤ c.starMovesRemaining

/-- The accepted-move path expressed on the core projection, for a
Playing state that stays Playing (no level clear on this move): the
explicit result of delta recording, shift, item collection, portal warp,
history push with cap, star tick and move-count bump. commitMove agrees
with this function through Game.core under those hypotheses. -/
def commitCore (c0 : Core) (s : Snake) (directionName : String)
    (candidate : Pos) (candidateTile : Tile) : Core :=
  let B := s.segments
  let tl := B.getLastD ⟨0, 0⟩
  let growth : Nat :=
    if candidateTile = Tile.ITEM then 1
    else if candidateTile = Tile.BIG_ITEM then 2 else 0
  let consumed : Option (Pos × Tile) :=
    if candidateTile = Tile.ITEM ∨ candidateTile = Tile.BIG_ITEM ∨
        candidateTile = Tile.STAR_ITEM
    then some (candidate, candidateTile) else none
  let currentLevel' :=
    if consumed.isSome then
      c0.currentLevel.map fun lvl =>
        { lvl with tiles := setTileAt lvl.tiles candidate Tile.EMPTY }
    else c0.currentLevel
  let starAfterItem : Int :=
    if candidateTile = Tile.STAR_ITEM then GAMEPLAY.STAR_POWER_MOVES
    else c0.starMovesRemaining
  let shifted := (candidate :: B.dropLast) ++ List.replicate growth tl
  let warpDest : Option Pos :=
    if candidateTile = Tile.PORTAL_A ∨ candidateTile = Tile.PORTAL_B then
      match (c0.portalLinks.find? fun link => link.1 = candidate).map Prod.snd with
      | some dest =>
        if Game.canEnterT starAfterItem
            (Game.getTileL currentLevel' dest.x dest.y) then some dest
        else none
      | none => none
    else none
  let segs' :=
    match warpDest, shifted with
    | some dest, _ :: t => dest :: t
    | _, l => l
  let delta : Delta :=
    { moveCountBefore := c0.moveCount, previousDirection := s.direction,
      tail := tl, direction := directionName, growth := growth,
      consumedItem := consumed,
      totalItemsBefore := c0.totalItemsCollected,
      levelItemsBefore := c0.levelCollectedItems,
      starMovesBefore := c0.starMovesRemaining,
      portalJump := warpDest.map fun dest => (candidate, dest) }
  let hist1 := c0.history ++ [delta]
  let history' := if GAMEPLAY.HISTORY_LIMIT < hist1.length then hist1.tail else hist1
  let star' : Int :=
    if candidateTile = Tile.STAR_ITEM then starAfterItem
    else if starAfterItem > 0 then
      (if starAfterItem - 1 ≤ 0 then 0 else starAfterItem - 1)
    else starAfterItem
  let pickup : Nat := if growth > 0 then 1 else 0
  { state := c0.state, currentLevel := currentLevel',
    snake := some ⟨segs', directionName⟩,
    moveCount := c0.moveCount + 1, history := history',
    levelCollectedItems := c0.levelCollectedItems + pickup,
    levelTotalItems := c0.levelTotalItems,
    totalItemsCollected := c0.totalItemsCollected + pickup,
    starMovesRemaining := star', portalLinks := c0.portalLinks }

/-- The oscillating corridor run used as a long concrete play: position
after k accepted moves (spawn (1,1), then alternating right/left). -/
def corrPos (k : Nat) : Pos := if k % 2 = 0 then ⟨1, 1⟩ else ⟨2, 1⟩

/-- Direction name of the k-th corridor move (0-indexed). -/
def corrDir (k : Nat) : String := if k % 2 = 0 then "right" else "left"

/-- The actor's facing after k corridor moves. -/
def corrFacing (k : Nat) : String := if k = 0 then "right" else corrDir (k - 1)

/-- The history delta recorded by the k-th corridor move. -/
def corrDelta (k : Nat) : Delta :=
  { moveCountBefore := k, previousDirection := corrFacing k, tail := corrPos k,
    direction := corrDir k, growth := 0, consumedItem := none,
    totalItemsBefore := 0, levelItemsBefore := 0, starMovesBefore := 0,
    portalJump := none }

/-- The core state after k corridor moves: the bounded history holds the
newest 300 deltas. -/
def corrCore (k : Nat) : Core :=
  { state := GState.PLAYING, currentLevel := some levelCorridor,
    snake := some ⟨[corrPos k], corrFacing k⟩, moveCount := k,
    history := ((List.range k).map corrDelta).drop (k - 300),
    levelCollectedItems := 0, levelTotalItems := 0, totalItemsCollected := 0,
    starMovesRemaining := 0, portalLinks := [] }

/-- The core state after j undos following 301 corridor moves: the first
move's delta was discarded, so the chain stops at move 1. -/
def corrUndoCore (j : Nat) : Core :=
  { corrCore (301 - j) with
    history := ((List.range (301 - j)).map corrDelta).drop 1 }

/-- The undo chain expressed on cores. -/
def undoNCore : Core → Nat → Core
  | c, 0 => c
  | c, Nat.succ n => undoNCore (undoCore c).2 n

/-- Whether n core-level undos in a row all succeed. -/
def undosOkCore : Core → Nat → Bool
  | _, 0 => true
  | c, Nat.succ n => (undoCore c).1 && undosOkCore (undoCore c).2 n

/-- A bare Playing engine state over a given level, actor segment list,
facing and star counter: the engine-side denotation of the verifier's
abstract search state (segments, tiles, star). -/
def engineState (lvl : CurrentLevel) (segs : List Pos) (dir0 : String)
    (star : Int) : Game :=
  { loadedPlaying lvl false 1 with
    snake := some ⟨segs, dir0⟩, starMovesRemaining := star }

/-- The corridor map as a raw LevelDef: the parser input behind
levelCorridor, used to exercise parseMap directly. -/
def corridorDef : LevelDef :=
  ⟨1, 1,
    ([ "####################",
       "#S.#################",
       "####################",
       "####################",
       "####################",
       "####################",
       "####################",
       "####################",
       "####################",
       "####################",
       "####################",
       "####################",
       "####################",
       "##################E#",
       "####################" ] : List String).map String.toList⟩

/-- A default parsed level for reading a parse result out of Except. -/
def emptyParsedLevel : ParsedLevel :=
  ⟨0, 0, ⟨0, 0⟩, []⟩

/-- An all-floor character grid of the board shape, the simplest input on
which the generator's portal placement can act. -/
def dotsGrid : List (List Char) :=
  List.replicate 15 (List.replicate 20 '.')

/-! ## Theorems -/

/-- Setting a list entry to the value it already holds is the identity. -/
theorem list_set_of_getElem? {α : Type} :
    ∀ (l : List α) (n : Nat) (a : α), l[n]? = some a → l.set n a = l
  | [], n, a, h => by cases h
  | b :: t, 0, a, h => by
    simp only [List.getElem?_cons_zero, Option.some.injEq] at h
    subst h
    rfl
  | b :: t, Nat.succ n, a, h => by
    simp only [List.getElem?_cons_succ] at h
    simp [List.set, list_set_of_getElem? t n a h]

/-- Writing back the tile a cell already holds is the identity on grids. -/
theorem setTileAt_of_tileAt (tiles : List (List Tile)) (p : Pos) (t : Tile)
    (hw : t ≠ Tile.WALL) (h : tileAt tiles p = t) : setTileAt tiles p t = tiles := by
  unfold tileAt at h
  unfold setTileAt
  rcases hy : tiles[p.y.toNat]? with _ | row
  · have hrow : tiles.getD p.y.toNat [] = [] := by
      simp [List.getD_eq_getElem?_getD, hy]
    rw [hrow] at h
    simp only [List.getD_nil] at h
    exact absurd h.symm hw
  · have hrow : tiles.getD p.y.toNat [] = row := by
      simp [List.getD_eq_getElem?_getD, hy]
    rw [hrow] at h ⊢
    rcases hx : row[p.x.toNat]? with _ | c
    · have hc : row.getD p.x.toNat Tile.WALL = Tile.WALL := by
        simp [List.getD_eq_getElem?_getD, hx]
      rw [hc] at h
      exact absurd h.symm hw
    · have hc : row.getD p.x.toNat Tile.WALL = c := by
        simp [List.getD_eq_getElem?_getD, hx]
      rw [hc] at h
      subst h
      rw [list_set_of_getElem? row p.x.toNat _ hx]
      exact list_set_of_getElem? tiles p.y.toNat row hy

/-- Game.prototype.undo agrees with its core-level mirror undoCore: undo
reads and writes core fields only. -/
theorem undo_core_spec (g : Game) :
    (g.undo.1, g.undo.2.core) = undoCore g.core := by
  obtain ⟨st, lvl, sn, mc, tmc, hist, at1, ma, fb, eq1, dh, lci, lti, tic, smr,
    pl, dhc, rm, bm, pc, uli, li, nl⟩ := g
  simp only [Game.undo, undoCore, Game.core, Game.writeTile, Game.emit,
    Game.startMoveAnimation]
  split
  case isTrue h => rfl
  case isFalse h =>
    cases hh : hist.getLast? with
    | none => rfl
    | some delta =>
      obtain ⟨dmc, dpd, dtl, ddir, dgr, dci, dtib, dlib, dsmb, dpj⟩ := delta
      cases dci with
      | none => cases dpj <;> rfl
      | some ci => cases dpj <;> rfl

/-- The undo success flag is a function of the core. -/
theorem undo_fst_core (g : Game) : g.undo.1 = (undoCore g.core).1 := by
  have h := undo_core_spec g
  exact congrArg Prod.fst h

/-- The undo result core is a function of the core. -/
theorem undo_snd_core (g : Game) : g.undo.2.core = (undoCore g.core).2 := by
  have h := undo_core_spec g
  exact congrArg Prod.snd h

/-- The frame update touches only the animation clock and window. -/
theorem update_core (g : Game) (t : Int) : (g.update t).core = g.core := by
  cases ha : g.moveAnimation <;>
    simp only [Game.update, ha, Game.core] <;>
    first
    | rfl
    | split <;> rfl


/-- Every rejected tryMove leaves the actor, level, counters, star power
and history untouched. -/
theorem tryMove_rejected_fields (g : Game) (d : String) (t : Int)
    (h : (g.tryMove d t).1 = false) :
    (g.tryMove d t).2.snake = g.snake ∧
    (g.tryMove d t).2.currentLevel = g.currentLevel ∧
    (g.tryMove d t).2.moveCount = g.moveCount ∧
    (g.tryMove d t).2.totalMoveCount = g.totalMoveCount ∧
    (g.tryMove d t).2.starMovesRemaining = g.starMovesRemaining ∧
    (g.tryMove d t).2.history = g.history ∧
    (g.tryMove d t).2.state = g.state := by
  by_cases h1 : g.state ≠ GState.PLAYING
  · simp [Game.tryMove, h1]
  · cases hsn : g.snake with
    | none => simp [Game.tryMove, h1, hsn]
    | some s =>
      by_cases h2 : g.gateBlocked
      · simp [Game.tryMove, h1, hsn, h2]
      · cases hc : Game.getMoveCandidate s d with
        | none => simp [Game.tryMove, h1, hsn, h2, hc]
        | some c =>
          by_cases h3 : g.canEnterTileType (g.getTile c.x c.y)
          · exfalso
            simp [Game.tryMove, h1, hsn, h2, hc, h3] at h
          · simp [Game.tryMove, h1, hsn, h2, hc, h3,
              Game.setBlockedFeedback, Game.emit]

/-- An accepted tryMove passed every gate and committed the move. -/
theorem tryMove_accepted (g : Game) (d : String) (t : Int)
    (h : (g.tryMove d t).1 = true) :
    ∃ s c, g.state = GState.PLAYING ∧ g.snake = some s ∧ g.gateBlocked = false ∧
      Game.getMoveCandidate s d = some c ∧
      g.canEnterTileType (g.getTile c.x c.y) = true ∧
      (g.tryMove d t).2 = g.commitMove s d c (g.getTile c.x c.y) := by
  by_cases h1 : g.state ≠ GState.PLAYING
  · simp [Game.tryMove, h1] at h
  · cases hsn : g.snake with
    | none => simp [Game.tryMove, h1, hsn] at h
    | some s =>
      by_cases h2 : g.gateBlocked
      · simp [Game.tryMove, h1, hsn, h2] at h
      · cases hc : Game.getMoveCandidate s d with
        | none => simp [Game.tryMove, h1, hsn, h2, hc] at h
        | some c =>
          by_cases h3 : g.canEnterTileType (g.getTile c.x c.y)
          · refine ⟨s, c, by simpa using h1, rfl, by simpa using h2, hc, by simpa using h3, ?_⟩
            simp [Game.tryMove, h1, hsn, h2, hc, h3]
          · simp [Game.tryMove, h1, hsn, h2, hc, h3] at h

/-- With a level loaded, a level clear always leaves the Playing state
(to LevelComplete or GameComplete; both transitions are legal). -/
theorem handleLevelClear_state_ne (g : Game) (lvl : CurrentLevel)
    (hlv : g.currentLevel = some lvl) (hst : g.state = GState.PLAYING) :
    (g.handleLevelClear).state ≠ GState.PLAYING := by
  unfold Game.handleLevelClear
  rw [hlv]
  by_cases hbest : Game.bmLookup g.bestMoves lvl.id = 0 ∨
      g.moveCount < Game.bmLookup g.bestMoves lvl.id <;>
    simp only [hbest, if_true, if_false, ite_true, ite_false] <;>
    by_cases hlast : g.numLevels - 1 ≤ g.levelIndex <;>
      simp [hlast, Game.setState, Game.isTransitionAllowed, STATE_TRANSITIONS,
        hst, Game.emit, ge_iff_le]

/-- While the head is not on the exit, the post-move check only arms the
deadlock hint and emits events: the core is unchanged. -/
theorem checkPost_core_of_playing (g : Game)
    (hst : g.state = GState.PLAYING)
    (hpost : (g.checkPostMoveState).state = GState.PLAYING) :
    (g.checkPostMoveState).core = g.core := by
  unfold Game.checkPostMoveState at hpost ⊢
  by_cases hexit :
      g.getTile ((g.snake.map Snake.getHead).getD ⟨0, 0⟩).x
        ((g.snake.map Snake.getHead).getD ⟨0, 0⟩).y = Tile.EXIT
  · exfalso
    simp only [hexit, if_true, ite_true] at hpost
    cases hlv : g.currentLevel with
    | none =>
      unfold Game.getTile Game.getTileL at hexit
      rw [hlv] at hexit
      exact absurd hexit (by simp)
    | some lvl => exact handleLevelClear_state_ne g lvl hlv hst hpost
  · simp only [hexit, if_false, ite_false]
    split
    · rfl
    · simp [Game.emit, Game.core]

/-- emit only appends an event. -/
theorem emit_core (g : Game) (e : GEvent) : (g.emit e).core = g.core := rfl

/-- startMoveAnimation only sets the animation window. -/
theorem startMoveAnimation_core (g : Game) (a b : List Pos) :
    (g.startMoveAnimation a b).core = g.core := rfl

/-- setBlockedFeedback only sets feedback and emits. -/
theorem setBlockedFeedback_core (g : Game) (c : Pos) (r : String) :
    (g.setBlockedFeedback c r).core = g.core := rfl

/-- pushHistoryDelta on the core: append, then shift past the cap. -/
theorem pushHistoryDelta_core (g : Game) (δ : Delta) :
    (g.pushHistoryDelta δ).core = { g.core with
      history := if GAMEPLAY.HISTORY_LIMIT < (g.history ++ [δ]).length then
          (g.history ++ [δ]).tail
        else g.history ++ [δ] } := by
  unfold Game.pushHistoryDelta
  dsimp only []
  split <;> rfl

/-- tickStarPower on the core. -/
theorem tickStarPower_core (g : Game) (b : Bool) :
    (g.tickStarPower b).core = { g.core with
      starMovesRemaining :=
        if g.starMovesRemaining > 0 ∧ ¬ b then
          (if g.starMovesRemaining - 1 ≤ 0 then 0 else g.starMovesRemaining - 1)
        else g.starMovesRemaining } := by
  unfold Game.tickStarPower
  by_cases h1 : g.starMovesRemaining > 0 ∧ ¬ (b = true)
  · rw [if_pos h1, if_pos h1]
    dsimp only []
    by_cases h2 : g.starMovesRemaining - 1 ≤ 0
    · rw [if_pos h2, if_pos h2]
      rfl
    · rw [if_neg h2, if_neg h2]
      rfl
  · rw [if_neg h1, if_neg h1]
    rfl

/-- handleItemCollection on the core: jelly and super jelly consume the
tile, grow from the vacated tail cell and bump both item counters once;
the star item consumes its tile and arms the star counter; every other
tile is untouched; the delta records growth and the consumed tile. -/
theorem handleItemCollection_spec (g : Game) (cand : Pos) (ct : Tile)
    (tl : Pos) (δ : Delta) :
    ((g.handleItemCollection cand ct tl δ).1.core = { g.core with
        currentLevel :=
          if ct = Tile.ITEM ∨ ct = Tile.BIG_ITEM ∨ ct = Tile.STAR_ITEM then
            g.currentLevel.map fun lvl =>
              { lvl with tiles := setTileAt lvl.tiles cand Tile.EMPTY }
          else g.currentLevel,
        snake := g.snake.map fun s => { s with segments := s.segments ++ List.replicate (if ct = Tile.ITEM then 1 else if ct = Tile.BIG_ITEM then 2 else 0) tl },
        levelCollectedItems := g.levelCollectedItems + (if ct = Tile.ITEM ∨ ct = Tile.BIG_ITEM then 1 else 0),
        totalItemsCollected := g.totalItemsCollected + (if ct = Tile.ITEM ∨ ct = Tile.BIG_ITEM then 1 else 0),
        starMovesRemaining :=
          if ct = Tile.STAR_ITEM then GAMEPLAY.STAR_POWER_MOVES
          else g.starMovesRemaining }) ∧
    ((g.handleItemCollection cand ct tl δ).2.1 = { δ with
        growth := if ct = Tile.ITEM then 1
          else if ct = Tile.BIG_ITEM then 2 else δ.growth,
        consumedItem :=
          if ct = Tile.ITEM ∨ ct = Tile.BIG_ITEM ∨ ct = Tile.STAR_ITEM then
            some (cand, ct)
          else δ.consumedItem }) ∧
    ((g.handleItemCollection cand ct tl δ).2.2.activatedStar =
      (if ct = Tile.STAR_ITEM then true else false)) ∧
    ((g.handleItemCollection cand ct tl δ).2.2.growth =
      (if ct = Tile.ITEM then 1 else if ct = Tile.BIG_ITEM then 2 else 0)) := by
  cases ct <;>
    cases hsn : g.snake <;>
      simp [Game.handleItemCollection, Game.writeTile, Game.emit, Game.core,
        Game.snakeLen, Snake.growByTailPosition, hsn, List.replicate]

/-- handlePortalWarp on the core: on a linked portal tile with an
enterable partner, only the head segment is rewritten and the jump is
recorded on the delta; in every other case nothing changes. -/
theorem handlePortalWarp_spec (g : Game) (cand : Pos) (ct : Tile) (δ : Delta) :
    ((g.handlePortalWarp cand ct δ).1.core = { g.core with
        snake :=
          match (if ct = Tile.PORTAL_A ∨ ct = Tile.PORTAL_B then (match g.getPortalDestination cand with | none => none | some dest => if g.canEnterTileType (g.getTile dest.x dest.y) then some dest else none) else none : Option Pos) with
          | some dest => g.snake.map fun s =>
              { s with segments :=
                  match s.segments with
                  | [] => []
                  | _ :: t => dest :: t }
          | none => g.snake }) ∧
    ((g.handlePortalWarp cand ct δ).2 =
      match (if ct = Tile.PORTAL_A ∨ ct = Tile.PORTAL_B then (match g.getPortalDestination cand with | none => none | some dest => if g.canEnterTileType (g.getTile dest.x dest.y) then some dest else none) else none : Option Pos) with
      | some dest => { δ with portalJump := some (cand, dest) }
      | none => δ) := by
  by_cases hpq : ct = Tile.PORTAL_A ∨ ct = Tile.PORTAL_B
  · have hne : ¬ (ct ≠ Tile.PORTAL_A ∧ ct ≠ Tile.PORTAL_B) := by tauto
    cases hd : g.getPortalDestination cand with
    | none =>
      simp [Game.handlePortalWarp, hne, hpq, hd, Game.core]
    | some dest =>
      by_cases hce : g.canEnterTileType (g.getTile dest.x dest.y)
      · cases hsn : g.snake with
        | none => simp [Game.handlePortalWarp, hne, hpq, hd, hce, hsn, Game.core, Game.emit]
        | some s => simp [Game.handlePortalWarp, hne, hpq, hd, hce, hsn, Game.core, Game.emit]
      · simp [Game.handlePortalWarp, hne, hpq, hd, hce, Game.core]
  · have hne : ct ≠ Tile.PORTAL_A ∧ ct ≠ Tile.PORTAL_B := by tauto
    simp [Game.handlePortalWarp, hne, hpq, Game.core]

/-- Extensionality for the core projection. -/
theorem core_ext (c1 c2 : Core) (h1 : c1.state = c2.state)
    (h2 : c1.currentLevel = c2.currentLevel) (h3 : c1.snake = c2.snake)
    (h4 : c1.moveCount = c2.moveCount) (h5 : c1.history = c2.history)
    (h6 : c1.levelCollectedItems = c2.levelCollectedItems)
    (h7 : c1.levelTotalItems = c2.levelTotalItems)
    (h8 : c1.totalItemsCollected = c2.totalItemsCollected)
    (h9 : c1.starMovesRemaining = c2.starMovesRemaining)
    (h10 : c1.portalLinks = c2.portalLinks) : c1 = c2 := by
  cases c1
  cases c2
  simp_all

set_option maxHeartbeats 2000000 in
/-- The accepted-move chain before the post-move check agrees with its
core-level mirror commitCore. -/
theorem commitSteps_core (g : Game) (s : Snake) (d : String) (dv c : Pos)
    (ct : Tile)
    (hst : g.state = GState.PLAYING)
    (hsn : g.snake = some s)
    (hne : s.segments ≠ [])
    (hdv : DIRECTIONS d = some dv)
    (hc : Game.getMoveCandidate s d = some c) :
    (g.commitSteps s d c ct).core = commitCore g.core s d c ct := by
  have hcc : (⟨s.getHead.x + dv.x, s.getHead.y + dv.y⟩ : Pos) = c := by
    unfold Game.getMoveCandidate at hc
    rw [hdv] at hc
    exact Option.some.inj hc
  have hmove : (s.move d).segments = c :: s.segments.dropLast ∧ (s.move d).direction = d := by
    unfold Snake.move
    rw [hdv]
    constructor
    · show ((⟨s.getHead.x + dv.x, s.getHead.y + dv.y⟩ : Pos) :: s.segments).dropLast = _
      rw [hcc, List.dropLast_cons_of_ne_nil hne]
    · rfl
  let tl : Pos := s.segments.getLastD ⟨0, 0⟩
  let d0 : Delta :=
    { moveCountBefore := g.moveCount, previousDirection := s.direction,
      tail := tl, direction := d, growth := 0, consumedItem := none,
      totalItemsBefore := g.totalItemsCollected,
      levelItemsBefore := g.levelCollectedItems,
      starMovesBefore := g.starMovesRemaining, portalJump := none }
  let g1 : Game := { g with snake := some (s.move d) }
  let g2 : Game := (g1.handleItemCollection c ct tl d0).1
  let d1 : Delta := (g1.handleItemCollection c ct tl d0).2.1
  let act : Bool := (g1.handleItemCollection c ct tl d0).2.2.activatedStar
  let g3 : Game := (g2.handlePortalWarp c ct d1).1
  let d2 : Delta := (g2.handlePortalWarp c ct d1).2
  let g4 : Game := g3.pushHistoryDelta d2
  let g5 : Game := g4.tickStarPower act
  let g6 : Game := { g5 with moveCount := g5.moveCount + 1,
                             totalMoveCount := g5.totalMoveCount + 1 }
  let g7 : Game := g6.startMoveAnimation s.segments ((g6.snake.map Snake.segments).getD [])
  let g8 : Game := g7.emit (GEvent.moveDone d g6.moveCount g6.starMovesRemaining)
  have hcommit : g.commitSteps s d c ct = g8 := rfl
  have h2 := handleItemCollection_spec g1 c ct tl d0
  have h3 := handlePortalWarp_spec g2 c ct d1
  have e2st : g2.state = g.state := congrArg Core.state h2.1
  have e3st : g3.state = g2.state := congrArg Core.state h3.1
  have e4st : g4.state = g3.state := congrArg Core.state (pushHistoryDelta_core g3 d2)
  have e5st : g5.state = g4.state := congrArg Core.state (tickStarPower_core g4 act)
  rw [hcommit]
  have h2lvl : g2.currentLevel = (if ct = Tile.ITEM ∨ ct = Tile.BIG_ITEM ∨ ct = Tile.STAR_ITEM then g.currentLevel.map (fun lvl => { lvl with tiles := setTileAt lvl.tiles c Tile.EMPTY }) else g.currentLevel) :=
    congrArg Core.currentLevel h2.1
  have h2sn : g2.snake = some { segments := (s.move d).segments ++ List.replicate (if ct = Tile.ITEM then 1 else if ct = Tile.BIG_ITEM then 2 else 0) tl, direction := (s.move d).direction } :=
    congrArg Core.snake h2.1
  have h2star : g2.starMovesRemaining = (if ct = Tile.STAR_ITEM then GAMEPLAY.STAR_POWER_MOVES else g.starMovesRemaining) :=
    congrArg Core.starMovesRemaining h2.1
  have h2hist : g2.history = g.history := congrArg Core.history h2.1
  have h2links : g2.portalLinks = g.portalLinks := congrArg Core.portalLinks h2.1
  have h2mc : g2.moveCount = g.moveCount := congrArg Core.moveCount h2.1
  have h2lci : g2.levelCollectedItems = g.levelCollectedItems + (if ct = Tile.ITEM ∨ ct = Tile.BIG_ITEM then 1 else 0) :=
    congrArg Core.levelCollectedItems h2.1
  have h2tic : g2.totalItemsCollected = g.totalItemsCollected + (if ct = Tile.ITEM ∨ ct = Tile.BIG_ITEM then 1 else 0) :=
    congrArg Core.totalItemsCollected h2.1
  have h2lti : g2.levelTotalItems = g.levelTotalItems := congrArg Core.levelTotalItems h2.1
  have h3sn : g3.snake = (match (if ct = Tile.PORTAL_A ∨ ct = Tile.PORTAL_B then (match g2.getPortalDestination c with | none => none | some dest => if g2.canEnterTileType (g2.getTile dest.x dest.y) then some dest else none) else none : Option Pos) with | some dest => g2.snake.map (fun s' => { s' with segments := match s'.segments with | [] => [] | _ :: t => dest :: t }) | none => g2.snake) :=
    congrArg Core.snake h3.1
  have h3d : d2 = (match (if ct = Tile.PORTAL_A ∨ ct = Tile.PORTAL_B then (match g2.getPortalDestination c with | none => none | some dest => if g2.canEnterTileType (g2.getTile dest.x dest.y) then some dest else none) else none : Option Pos) with | some dest => { d1 with portalJump := some (c, dest) } | none => d1) :=
    h3.2
  have hD : (if ct = Tile.PORTAL_A ∨ ct = Tile.PORTAL_B then (match g2.getPortalDestination c with | none => none | some dest => if g2.canEnterTileType (g2.getTile dest.x dest.y) then some dest else none) else none : Option Pos) = (if ct = Tile.PORTAL_A ∨ ct = Tile.PORTAL_B then (match (g.portalLinks.find? fun link => link.1 = c).map Prod.snd with | none => none | some dest => if Game.canEnterT (if ct = Tile.STAR_ITEM then GAMEPLAY.STAR_POWER_MOVES else g.starMovesRemaining) (Game.getTileL (if ct = Tile.ITEM ∨ ct = Tile.BIG_ITEM ∨ ct = Tile.STAR_ITEM then g.currentLevel.map (fun lvl => { lvl with tiles := setTileAt lvl.tiles c Tile.EMPTY }) else g.currentLevel) dest.x dest.y) then some dest else none) else none : Option Pos) := by
    unfold Game.getPortalDestination Game.canEnterTileType Game.getTile
    rw [h2links, h2star, h2lvl]
  rw [hD] at h3sn h3d
  have h3lvl : g3.currentLevel = g2.currentLevel := congrArg Core.currentLevel h3.1
  have h3star : g3.starMovesRemaining = g2.starMovesRemaining := congrArg Core.starMovesRemaining h3.1
  have h3hist : g3.history = g2.history := congrArg Core.history h3.1
  have h3links : g3.portalLinks = g2.portalLinks := congrArg Core.portalLinks h3.1
  have h3mc : g3.moveCount = g2.moveCount := congrArg Core.moveCount h3.1
  have h3lci : g3.levelCollectedItems = g2.levelCollectedItems := congrArg Core.levelCollectedItems h3.1
  have h3tic : g3.totalItemsCollected = g2.totalItemsCollected := congrArg Core.totalItemsCollected h3.1
  have h3lti : g3.levelTotalItems = g2.levelTotalItems := congrArg Core.levelTotalItems h3.1
  have hpush := pushHistoryDelta_core g3 d2
  have h4hist : g4.history = (if GAMEPLAY.HISTORY_LIMIT < (g3.history ++ [d2]).length then (g3.history ++ [d2]).tail else g3.history ++ [d2]) :=
    congrArg Core.history hpush
  have htick := tickStarPower_core g4 act
  have h5star : g5.starMovesRemaining = (if g4.starMovesRemaining > 0 ∧ ¬ act then (if g4.starMovesRemaining - 1 ≤ 0 then 0 else g4.starMovesRemaining - 1) else g4.starMovesRemaining) :=
    congrArg Core.starMovesRemaining htick
  have h4star : g4.starMovesRemaining = g3.starMovesRemaining := congrArg Core.starMovesRemaining hpush
  have h5hist : g5.history = g4.history := congrArg Core.history htick
  have h5lvl : g5.currentLevel = g4.currentLevel := congrArg Core.currentLevel htick
  have h4lvl : g4.currentLevel = g3.currentLevel := congrArg Core.currentLevel hpush
  have h5sn : g5.snake = g4.snake := congrArg Core.snake htick
  have h4sn : g4.snake = g3.snake := congrArg Core.snake hpush
  have h5mc : g5.moveCount = g4.moveCount := congrArg Core.moveCount htick
  have h4mc : g4.moveCount = g3.moveCount := congrArg Core.moveCount hpush
  have h5lci : g5.levelCollectedItems = g4.levelCollectedItems := congrArg Core.levelCollectedItems htick
  have h4lci : g4.levelCollectedItems = g3.levelCollectedItems := congrArg Core.levelCollectedItems hpush
  have h5tic : g5.totalItemsCollected = g4.totalItemsCollected := congrArg Core.totalItemsCollected htick
  have h4tic : g4.totalItemsCollected = g3.totalItemsCollected := congrArg Core.totalItemsCollected hpush
  have h5lti : g5.levelTotalItems = g4.levelTotalItems := congrArg Core.levelTotalItems htick
  have h4lti : g4.levelTotalItems = g3.levelTotalItems := congrArg Core.levelTotalItems hpush
  have h5links : g5.portalLinks = g4.portalLinks := congrArg Core.portalLinks htick
  have h4links : g4.portalLinks = g3.portalLinks := congrArg Core.portalLinks hpush
  have h3mc : g3.moveCount = g2.moveCount := congrArg Core.moveCount h3.1
  have h2d : d1 = { d0 with growth := (if ct = Tile.ITEM then 1 else if ct = Tile.BIG_ITEM then 2 else d0.growth), consumedItem := (if ct = Tile.ITEM ∨ ct = Tile.BIG_ITEM ∨ ct = Tile.STAR_ITEM then some (c, ct) else d0.consumedItem) } := h2.2.1
  have hact : act = (if ct = Tile.STAR_ITEM then true else false) := h2.2.2.1
  have htl0 : tl = s.segments.getLast?.getD ⟨0, 0⟩ := by
    show s.segments.getLastD ⟨0, 0⟩ = _
    exact List.getLastD_eq_getLast? _ _
  apply core_ext
  case h1 =>
    show g5.state = _
    rw [e5st, e4st, e3st, e2st]
    rfl
  case h2 =>
    show g5.currentLevel = _
    rw [h5lvl, h4lvl, h3lvl, h2lvl]
    by_cases hcond : ct = Tile.ITEM ∨ ct = Tile.BIG_ITEM ∨ ct = Tile.STAR_ITEM <;>
      simp [commitCore, Game.core, hcond]
  case h4 =>
    show g5.moveCount + 1 = _
    rw [h5mc, h4mc, h3mc, h2mc]
    rfl
  case h7 =>
    show g5.levelTotalItems = _
    rw [h5lti, h4lti, h3lti, h2lti]
    rfl
  case h10 =>
    show g5.portalLinks = _
    rw [h5links, h4links, h3links, h2links]
    rfl
  case h6 =>
    show g5.levelCollectedItems = _
    rw [h5lci, h4lci, h3lci, h2lci]
    rcases ct <;> simp [commitCore, Game.core]
  case h8 =>
    show g5.totalItemsCollected = _
    rw [h5tic, h4tic, h3tic, h2tic]
    rcases ct <;> simp [commitCore, Game.core]
  case h9 =>
    show g5.starMovesRemaining = _
    rw [h5star, h4star, h3star, h2star, hact]
    rcases ct <;> simp [commitCore, Game.core]
  case h3 =>
    show g5.snake = _
    rw [h5sn, h4sn, h3sn, h2sn, hmove.1, hmove.2]
    by_cases hpq : ct = Tile.PORTAL_A ∨ ct = Tile.PORTAL_B
    · rcases hfind : (g.portalLinks.find? fun link => link.1 = c).map Prod.snd with _ | dest
      · simp [commitCore, Game.core, hpq, hfind]
        all_goals exact Or.inr htl0
      · by_cases hce : Game.canEnterT (if ct = Tile.STAR_ITEM then GAMEPLAY.STAR_POWER_MOVES else g.starMovesRemaining) (Game.getTileL (if ct = Tile.ITEM ∨ ct = Tile.BIG_ITEM ∨ ct = Tile.STAR_ITEM then g.currentLevel.map (fun lvl => { lvl with tiles := setTileAt lvl.tiles c Tile.EMPTY }) else g.currentLevel) dest.x dest.y) <;>
          simp [commitCore, Game.core, hpq, hfind, hce] <;>
            all_goals exact Or.inr htl0
    · simp [commitCore, Game.core, hpq]
      all_goals exact Or.inr htl0
  case h5 =>
    have hd00 : d0 = { moveCountBefore := g.moveCount, previousDirection := s.direction, tail := s.segments.getLastD ⟨0, 0⟩, direction := d, growth := 0, consumedItem := none, totalItemsBefore := g.totalItemsCollected, levelItemsBefore := g.levelCollectedItems, starMovesBefore := g.starMovesRemaining, portalJump := none } := rfl
    show g5.history = _
    rw [h5hist, h4hist, h3hist, h2hist, h3d, h2d, hd00]
    by_cases hpq : ct = Tile.PORTAL_A ∨ ct = Tile.PORTAL_B
    · rcases hfind : (g.portalLinks.find? fun link => link.1 = c).map Prod.snd with _ | dest
      · simp [commitCore, Game.core, hpq, hfind]
        all_goals exact Or.inr htl0
      · by_cases hce : Game.canEnterT (if ct = Tile.STAR_ITEM then GAMEPLAY.STAR_POWER_MOVES else g.starMovesRemaining) (Game.getTileL (if ct = Tile.ITEM ∨ ct = Tile.BIG_ITEM ∨ ct = Tile.STAR_ITEM then g.currentLevel.map (fun lvl => { lvl with tiles := setTileAt lvl.tiles c Tile.EMPTY }) else g.currentLevel) dest.x dest.y) <;>
          simp [commitCore, Game.core, hpq, hfind, hce] <;>
            all_goals exact Or.inr htl0
    · simp [commitCore, Game.core, hpq]
      all_goals exact Or.inr htl0

/-- The state is carried through commitCore untouched. -/
theorem commitCore_state (c0 : Core) (s : Snake) (d : String) (c : Pos)
    (ct : Tile) : (commitCore c0 s d c ct).state = c0.state := rfl

set_option maxHeartbeats 2000000 in
/-- The accepted-move path agrees with its core-level mirror commitCore,
for a Playing state that stays Playing after the move. -/
theorem commit_core_eq (g : Game) (s : Snake) (d : String) (dv c : Pos)
    (ct : Tile)
    (hst : g.state = GState.PLAYING)
    (hsn : g.snake = some s)
    (hne : s.segments ≠ [])
    (hdv : DIRECTIONS d = some dv)
    (hc : Game.getMoveCandidate s d = some c)
    (hpost : (g.commitMove s d c ct).state = GState.PLAYING) :
    (g.commitMove s d c ct).core = commitCore g.core s d c ct := by
  have hsteps : g.commitMove s d c ct = (g.commitSteps s d c ct).checkPostMoveState := rfl
  have hcore := commitSteps_core g s d dv c ct hst hsn hne hdv hc
  have hst8 : (g.commitSteps s d c ct).state = GState.PLAYING := by
    have h := congrArg Core.state hcore
    rw [commitCore_state] at h
    exact h.trans hst
  have hpost8 : ((g.commitSteps s d c ct).checkPostMoveState).state = GState.PLAYING :=
    hsteps ▸ hpost
  rw [hsteps, checkPost_core_of_playing _ hst8 hpost8]
  exact hcore

/-- Writing a cell twice keeps only the second write. -/
theorem setTileAt_setTileAt (tiles : List (List Tile)) (p : Pos) (a b : Tile) :
    setTileAt (setTileAt tiles p a) p b = setTileAt tiles p b := by
  unfold setTileAt
  by_cases hy : p.y.toNat < tiles.length
  · have hget : (tiles.set p.y.toNat ((tiles.getD p.y.toNat []).set p.x.toNat a)).getD
        p.y.toNat [] = (tiles.getD p.y.toNat []).set p.x.toNat a := by
      simp [List.getD_eq_getElem?_getD, List.getElem?_set_self, hy]
    rw [hget, List.set_set, List.set_set]
  · have h1 : tiles.set p.y.toNat ((tiles.getD p.y.toNat []).set p.x.toNat a) = tiles :=
      List.set_eq_of_length_le (Nat.le_of_not_lt hy)
    rw [h1]

/-- A getTile reading other than Wall pins down the loaded level and the
value of its grid cell at that coordinate. -/
theorem getTileL_eq_tileAt (lvl? : Option CurrentLevel) (x y : Int) (t : Tile)
    (h : Game.getTileL lvl? x y = t) (hw : t ≠ Tile.WALL) :
    ∃ lvl, lvl? = some lvl ∧ tileAt lvl.tiles ⟨x, y⟩ = t := by
  cases lvl? with
  | none => exact absurd h.symm (by simpa [Game.getTileL] using hw)
  | some lvl =>
    refine ⟨lvl, rfl, ?_⟩
    unfold Game.getTileL at h
    by_cases hin : Game.isInsideBoard x y
    · simpa [hin] using h
    · simp only [if_neg hin] at h
      exact absurd h.symm hw

/-- The bounded history push: the newest delta is always the last entry,
and dropping it leaves the original history minus its oldest entry when
the cap was exceeded. -/
theorem pushCap_getLast (l : List Delta) (δ : Delta) :
    (if GAMEPLAY.HISTORY_LIMIT < l.length + 1 then (l ++ [δ]).tail
     else l ++ [δ]).getLast? = some δ := by
  by_cases hcap : GAMEPLAY.HISTORY_LIMIT < l.length + 1
  · have hl : l ≠ [] := by
      intro h
      subst h
      simp [GAMEPLAY.HISTORY_LIMIT] at hcap
    rw [if_pos hcap, List.tail_append_of_ne_nil hl, List.getLast?_concat]
  · rw [if_neg hcap, List.getLast?_concat]

/-- Companion to pushCap_getLast for the remaining history. -/
theorem pushCap_dropLast (l : List Delta) (δ : Delta) :
    (if GAMEPLAY.HISTORY_LIMIT < l.length + 1 then (l ++ [δ]).tail
     else l ++ [δ]).dropLast =
      if GAMEPLAY.HISTORY_LIMIT < l.length + 1 then l.tail else l := by
  by_cases hcap : GAMEPLAY.HISTORY_LIMIT < l.length + 1
  · have hl : l ≠ [] := by
      intro h
      subst h
      simp [GAMEPLAY.HISTORY_LIMIT] at hcap
    rw [if_pos hcap, List.tail_append_of_ne_nil hl, List.dropLast_concat, if_pos hcap]
  · rw [if_neg hcap, List.dropLast_concat, if_neg hcap]

set_option maxHeartbeats 1000000 in
/-- Undo exactly inverts a committed accepted move on the core: under a
nonempty actor, nonnegative star power and a truthful candidate tile, the
only residue is the drop of the oldest delta when the history was full. -/
theorem undo_commit_core (c0 : Core) (s : Snake) (d : String) (cand : Pos) (ct : Tile)
    (hst : c0.state = GState.PLAYING) (hsn : c0.snake = some s)
    (hne : s.segments ≠ []) (hstar : 0 ≤ c0.starMovesRemaining)
    (htile : ∀ lvl, c0.currentLevel = some lvl →
      ct = Tile.ITEM ∨ ct = Tile.BIG_ITEM ∨ ct = Tile.STAR_ITEM →
      tileAt lvl.tiles cand = ct) :
    undoCore (commitCore c0 s d cand ct) =
      (true, { c0 with history :=
        if GAMEPLAY.HISTORY_LIMIT < c0.history.length + 1
        then c0.history.tail else c0.history }) := by
  obtain ⟨B, sdir⟩ := s
  have hne' : B ≠ [] := hne
  have hB1 : 1 ≤ B.length := List.length_pos.mpr hne'
  have hmax : max 1 B.length = B.length := Nat.max_eq_right hB1
  have hdl : B.dropLast.length = B.length - 1 := List.length_dropLast B
  have htl : B.getLast?.getD ⟨0, 0⟩ = B.getLast hne' := by
    rw [List.getLast?_eq_getLast B hne']
    rfl
  have hrest : B.dropLast ++ [B.getLast hne'] = B := List.dropLast_append_getLast hne'
  have htake : List.take (B.length - 1) B.dropLast = B.dropLast := by
    rw [← hdl]
    exact List.take_length B.dropLast
  have hstmax : max 0 c0.starMovesRemaining = c0.starMovesRemaining := max_eq_right hstar
  have htake2 : List.take (B.length - 1) B ++ [B.getLast hne'] = B := by
    rw [← List.dropLast_eq_take]
    exact hrest
  rcases ct with _ | _ | _ | _ | _ | _ | _ | _ | _
  case mk.EMPTY =>
    simp [commitCore, undoCore, hst, pushCap_getLast, pushCap_dropLast, hmax, hdl, htl,
      hrest, hstmax, htake, List.take_left, Nat.add_sub_cancel, hsn]
  case mk.SPAWN =>
    simp [commitCore, undoCore, hst, pushCap_getLast, pushCap_dropLast, hmax, hdl, htl,
      hrest, hstmax, htake, List.take_left, Nat.add_sub_cancel, hsn]
  case mk.WALL =>
    simp [commitCore, undoCore, hst, pushCap_getLast, pushCap_dropLast, hmax, hdl, htl,
      hrest, hstmax, htake, List.take_left, Nat.add_sub_cancel, hsn]
  case mk.EXIT =>
    simp [commitCore, undoCore, hst, pushCap_getLast, pushCap_dropLast, hmax, hdl, htl,
      hrest, hstmax, htake, List.take_left, Nat.add_sub_cancel, hsn]
  case mk.OBSTACLE =>
    simp [commitCore, undoCore, hst, pushCap_getLast, pushCap_dropLast, hmax, hdl, htl,
      hrest, hstmax, htake, List.take_left, Nat.add_sub_cancel, hsn]
  case mk.ITEM =>
    rcases hlvl : c0.currentLevel with _ | lvl
    · simp [commitCore, undoCore, hst, hlvl, pushCap_getLast, pushCap_dropLast, hmax, hdl,
        htl, hrest, hstmax, htake, htake2, hsn]
    · have ht := htile lvl hlvl (Or.inl rfl)
      have hset : setTileAt (setTileAt lvl.tiles cand Tile.EMPTY) cand Tile.ITEM = lvl.tiles := by
        rw [setTileAt_setTileAt]
        exact setTileAt_of_tileAt _ _ _ (by simp) ht
      simp [commitCore, undoCore, hst, hlvl, pushCap_getLast, pushCap_dropLast, hmax, hdl,
        htl, hrest, hstmax, htake, htake2, hsn, hset]
  case mk.BIG_ITEM =>
    rcases hlvl : c0.currentLevel with _ | lvl
    · simp [commitCore, undoCore, hst, hlvl, pushCap_getLast, pushCap_dropLast, hmax, hdl,
        htl, hrest, hstmax, htake, htake2, hsn]
    · have ht := htile lvl hlvl (Or.inr (Or.inl rfl))
      have hset : setTileAt (setTileAt lvl.tiles cand Tile.EMPTY) cand Tile.BIG_ITEM = lvl.tiles := by
        rw [setTileAt_setTileAt]
        exact setTileAt_of_tileAt _ _ _ (by simp) ht
      simp [commitCore, undoCore, hst, hlvl, pushCap_getLast, pushCap_dropLast, hmax, hdl,
        htl, hrest, hstmax, htake, htake2, hsn, hset]
  case mk.STAR_ITEM =>
    rcases hlvl : c0.currentLevel with _ | lvl
    · simp [commitCore, undoCore, hst, hlvl, pushCap_getLast, pushCap_dropLast, hmax, hdl,
        htl, hrest, hstmax, htake, htake2, hsn]
    · have ht := htile lvl hlvl (Or.inr (Or.inr rfl))
      have hset : setTileAt (setTileAt lvl.tiles cand Tile.EMPTY) cand Tile.STAR_ITEM = lvl.tiles := by
        rw [setTileAt_setTileAt]
        exact setTileAt_of_tileAt _ _ _ (by simp) ht
      simp [commitCore, undoCore, hst, hlvl, pushCap_getLast, pushCap_dropLast, hmax, hdl,
        htl, hrest, hstmax, htake, htake2, hsn, hset]
  case mk.PORTAL_A =>
    rcases hw : (c0.portalLinks.find? fun link => link.1 = cand).map Prod.snd with _ | dest
    · simp [commitCore, undoCore, hst, hw, pushCap_getLast, pushCap_dropLast, hmax, hdl,
        htl, hrest, hstmax, htake, htake2, hsn]
    · by_cases hce : Game.canEnterT c0.starMovesRemaining
          (Game.getTileL c0.currentLevel dest.x dest.y) <;>
        simp [commitCore, undoCore, hst, hw, hce, pushCap_getLast, pushCap_dropLast, hmax,
          hdl, htl, hrest, hstmax, htake, htake2, hsn]
  case mk.PORTAL_B =>
    rcases hw : (c0.portalLinks.find? fun link => link.1 = cand).map Prod.snd with _ | dest
    · simp [commitCore, undoCore, hst, hw, pushCap_getLast, pushCap_dropLast, hmax, hdl,
        htl, hrest, hstmax, htake, htake2, hsn]
    · by_cases hce : Game.canEnterT c0.starMovesRemaining
          (Game.getTileL c0.currentLevel dest.x dest.y) <;>
        simp [commitCore, undoCore, hst, hw, hce, pushCap_getLast, pushCap_dropLast, hmax,
          hdl, htl, hrest, hstmax, htake, htake2, hsn]

/-- When the landing tile is not the exit, the post-move check never
changes the play state (the deadlock branch only arms the hint timer). -/
theorem checkPost_state_of_not_exit (g : Game)
    (hexit : g.getTile ((g.snake.map Snake.getHead).getD ⟨0, 0⟩).x
      ((g.snake.map Snake.getHead).getD ⟨0, 0⟩).y ≠ Tile.EXIT) :
    (g.checkPostMoveState).state = g.state := by
  unfold Game.checkPostMoveState
  simp only [hexit, if_false, ite_false]
  split
  · rfl
  · rfl

/-- A committed move whose landing head is not on the exit leaves the
game in the Playing state. -/
theorem commitMove_state_playing (g : Game) (s : Snake) (d : String)
    (dv c : Pos) (ct : Tile)
    (hst : g.state = GState.PLAYING)
    (hsn : g.snake = some s)
    (hne : s.segments ≠ [])
    (hdv : DIRECTIONS d = some dv)
    (hc : Game.getMoveCandidate s d = some c)
    (hexit : Game.getTileL (commitCore g.core s d c ct).currentLevel
      ((((commitCore g.core s d c ct).snake.map Snake.getHead).getD ⟨0, 0⟩).x)
      ((((commitCore g.core s d c ct).snake.map Snake.getHead).getD ⟨0, 0⟩).y)
      ≠ Tile.EXIT) :
    (g.commitMove s d c ct).state = GState.PLAYING := by
  have hcore := commitSteps_core g s d dv c ct hst hsn hne hdv hc
  have hsteps : g.commitMove s d c ct = (g.commitSteps s d c ct).checkPostMoveState := rfl
  have hlvl : (g.commitSteps s d c ct).currentLevel =
      (commitCore g.core s d c ct).currentLevel := congrArg Core.currentLevel hcore
  have hsn8 : (g.commitSteps s d c ct).snake =
      (commitCore g.core s d c ct).snake := congrArg Core.snake hcore
  have hx : (g.commitSteps s d c ct).getTile
      ((((g.commitSteps s d c ct).snake.map Snake.getHead).getD ⟨0, 0⟩).x)
      ((((g.commitSteps s d c ct).snake.map Snake.getHead).getD ⟨0, 0⟩).y)
      ≠ Tile.EXIT := by
    unfold Game.getTile
    rw [hlvl, hsn8]
    exact hexit
  rw [hsteps, checkPost_state_of_not_exit _ hx]
  have h := congrArg Core.state hcore
  rw [commitCore_state] at h
  exact h.trans hst

/-- A successful candidate lookup pins down a known direction vector. -/
theorem getMoveCandidate_dir (s : Snake) (d : String) (c : Pos)
    (hc : Game.getMoveCandidate s d = some c) : ∃ dv, DIRECTIONS d = some dv := by
  unfold Game.getMoveCandidate at hc
  cases hdv : DIRECTIONS d with
  | none => rw [hdv] at hc; cases hc
  | some dv => exact ⟨dv, rfl⟩

/-- Peeling the newest undo off an undo chain. -/
theorem undoN_succ (n : Nat) : ∀ g : Game, undoN g (n + 1) = ((undoN g n).undo).2 := by
  induction n with
  | zero => intro g; rfl
  | succ m ih =>
    intro g
    show undoN (g.undo).2 (m + 1) = _
    rw [ih (g.undo).2]
    rfl

/-- The undo chain succeeds entirely iff each peeled undo succeeds. -/
theorem undosOk_succ (n : Nat) :
    ∀ g : Game, undosOk g (n + 1) = (undosOk g n && ((undoN g n).undo).1) := by
  induction n with
  | zero => intro g; simp [undosOk, undoN]
  | succ m ih =>
    intro g
    show (g.undo.1 && undosOk (g.undo).2 (m + 1)) =
      (undosOk g (m + 1) && ((undoN g (m + 1)).undo).1)
    rw [ih (g.undo).2]
    show (g.undo.1 && (undosOk (g.undo).2 m && ((undoN (g.undo).2 m).undo).1)) =
      ((g.undo.1 && undosOk (g.undo).2 m) && ((undoN (g.undo).2 m).undo).1)
    rw [Bool.and_assoc]

/-- runPlaying splits over list concatenation. -/
theorem runPlaying_append (l1 : List (String × Int)) :
    ∀ (l2 : List (String × Int)) (g : Game),
      runPlaying g (l1 ++ l2) =
        match runPlaying g l1 with
        | none => none
        | some gm => runPlaying gm l2 := by
  induction l1 with
  | nil => intro l2 g; rfl
  | cons mv rest ih =>
    intro l2 g
    show runPlaying g (mv :: (rest ++ l2)) = _
    rw [runPlaying]
    conv_rhs => rw [runPlaying]
    cases hs : stepPlaying g mv with
    | none => rfl
    | some g1 => exact ih l2 g1

/-- The committed snake: facing the move direction, never empty. -/
theorem commitCore_snake (c0 : Core) (s : Snake) (d : String) (c : Pos)
    (ct : Tile) :
    ∃ t, (commitCore c0 s d c ct).snake = some ⟨t, d⟩ ∧ t ≠ [] := by
  unfold commitCore
  dsimp only
  refine ⟨_, rfl, ?_⟩
  split
  · simp
  · simp

/-- The committed star counter never drops below zero. -/
theorem commitCore_star_nonneg (c0 : Core) (s : Snake) (d : String) (c : Pos)
    (ct : Tile) (h : 0 ≤ c0.starMovesRemaining) :
    0 ≤ (commitCore c0 s d c ct).starMovesRemaining := by
  unfold commitCore GAMEPLAY.STAR_POWER_MOVES
  dsimp only
  split_ifs <;> omega

/-- The bounded push keeps the length at the cap plus the new delta. -/
theorem pushCap_len (l : List Delta) (hcap : l.length + 1 ≤ GAMEPLAY.HISTORY_LIMIT)
    (δ : Delta) :
    (if GAMEPLAY.HISTORY_LIMIT < (l ++ [δ]).length then (l ++ [δ]).tail
     else l ++ [δ]).length = l.length + 1 := by
  rw [if_neg (by simp; omega)]
  simp

/-- Below the cap the committed history grows by exactly one delta. -/
theorem commitCore_hist_len (c0 : Core) (s : Snake) (d : String) (c : Pos)
    (ct : Tile) (hcap : c0.history.length + 1 ≤ GAMEPLAY.HISTORY_LIMIT) :
    (commitCore c0 s d c ct).history.length = c0.history.length + 1 := by
  unfold commitCore
  dsimp only
  exact pushCap_len c0.history hcap _

/-- One accepted driver step in terms of the core: the move commits on
the core mirror, the undo of the new core restores the old core exactly
(given history room), and the running invariants are maintained. -/
theorem stepPlaying_undo (g g1 : Game) (mv : String × Int)
    (h : stepPlaying g mv = some g1)
    (hsn : ∃ s, g.snake = some s ∧ s.segments ≠ [])
    (hstar : 0 ≤ g.starMovesRemaining)
    (hcap : g.history.length + 1 ≤ GAMEPLAY.HISTORY_LIMIT) :
    undoCore g1.core = (true, g.core) ∧
    (∃ s1, g1.snake = some s1 ∧ s1.segments ≠ []) ∧
    0 ≤ g1.starMovesRemaining ∧
    g1.history.length = g.history.length + 1 ∧
    g1.state = GState.PLAYING := by
  obtain ⟨s0, hs0, hne0⟩ := hsn
  have hu : (g.update mv.2).core = g.core := update_core g mv.2
  unfold stepPlaying at h
  dsimp only at h
  by_cases hcnd : ((g.update mv.2).tryMove mv.1 mv.2).1 = true ∧
      ((g.update mv.2).tryMove mv.1 mv.2).2.state = GState.PLAYING
  · obtain ⟨s, c, hst, hsn', hgate, hc, hce, hcommit⟩ :=
      tryMove_accepted (g.update mv.2) mv.1 mv.2 hcnd.1
    have hg1 : g1 = ((g.update mv.2).tryMove mv.1 mv.2).2 := by
      rw [if_pos ⟨hcnd.1, hcnd.2⟩] at h
      exact (Option.some.inj h).symm
    have hsg : (g.update mv.2).snake = g.snake := congrArg Core.snake hu
    have hs : s = s0 := by
      rw [hsg, hs0] at hsn'
      exact (Option.some.inj hsn').symm
    have hne : s.segments ≠ [] := hs ▸ hne0
    obtain ⟨dv, hdv⟩ := getMoveCandidate_dir s mv.1 c hc
    have hpost : ((g.update mv.2).commitMove s mv.1 c
        ((g.update mv.2).getTile c.x c.y)).state = GState.PLAYING := by
      rw [← hcommit]
      exact hcnd.2
    have hcore : g1.core = commitCore g.core s mv.1 c
        ((g.update mv.2).getTile c.x c.y) := by
      rw [hg1, hcommit, commit_core_eq (g.update mv.2) s mv.1 dv c _ hst hsn' hne hdv hc hpost, hu]
    set ct := (g.update mv.2).getTile c.x c.y with hct
    have hcst : g.core.state = GState.PLAYING := by
      have := congrArg Core.state hu
      exact this.symm.trans hst
    have hcsn : g.core.snake = some s := by
      show g.snake = some s
      rw [← hsg]
      exact hsn'
    have htile : ∀ lvl, g.core.currentLevel = some lvl →
        ct = Tile.ITEM ∨ ct = Tile.BIG_ITEM ∨ ct = Tile.STAR_ITEM →
        tileAt lvl.tiles c = ct := by
      intro lvl hlvl hmem
      have hwall : ct ≠ Tile.WALL := by
        rcases hmem with h1 | h1 | h1 <;> rw [h1] <;> simp
      have hgt : Game.getTileL (g.update mv.2).currentLevel c.x c.y = ct := rfl
      have hlu : (g.update mv.2).currentLevel = g.currentLevel :=
        congrArg Core.currentLevel hu
      rw [hlu] at hgt
      obtain ⟨lvl', hl', ht'⟩ := getTileL_eq_tileAt g.currentLevel c.x c.y ct hgt hwall
      have : lvl = lvl' := by
        have : g.currentLevel = some lvl := hlvl
        rw [this] at hl'
        exact Option.some.inj hl'
      rw [this]
      exact ht'
    have hmain := undo_commit_core g.core s mv.1 c ct hcst hcsn hne hstar htile
    have hnocap : ¬ GAMEPLAY.HISTORY_LIMIT < g.core.history.length + 1 := by
      have : g.core.history.length = g.history.length := rfl
      omega
    rw [if_neg hnocap] at hmain
    refine ⟨by rw [hcore]; exact hmain, ?_, ?_, ?_, ?_⟩
    · obtain ⟨t, hsnake, htne⟩ := commitCore_snake g.core s mv.1 c ct
      refine ⟨⟨t, mv.1⟩, ?_, htne⟩
      have hgs : g1.snake = (commitCore g.core s mv.1 c ct).snake :=
        congrArg Core.snake hcore
      rw [hgs, hsnake]
    · have hgs : g1.starMovesRemaining =
          (commitCore g.core s mv.1 c ct).starMovesRemaining :=
        congrArg Core.starMovesRemaining hcore
      rw [hgs]
      exact commitCore_star_nonneg g.core s mv.1 c ct hstar
    · have hgh : g1.history = (commitCore g.core s mv.1 c ct).history :=
        congrArg Core.history hcore
      rw [hgh, commitCore_hist_len g.core s mv.1 c ct hcap]
      rfl
    · rw [hg1]; exact hcnd.2
  · rw [if_neg hcnd] at h
    cases h

/-- A some result of the first-success option fold comes from the
accumulator or from one of the entries. -/
theorem dfsStep_foldl_some (tiles : List (List Tile)) (len fuel : Nat)
    (path visited : List Pos) (x y : Int) :
    ∀ (opts : List (String × Nat)) (acc : Option (List Pos)) (r : List Pos),
      opts.foldl (dfsStep tiles len fuel path visited x y) acc = some r →
      acc = some r ∨
        ∃ o ∈ opts, dfsStep tiles len fuel path visited x y none o = some r := by
  intro opts
  induction opts with
  | nil => intro acc r h; exact Or.inl h
  | cons a t ih =>
    intro acc r h
    rcases acc with _ | x0
    · rcases ih (dfsStep tiles len fuel path visited x y none a) r h with h1 | ⟨o, ho, hf⟩
      · exact Or.inr ⟨a, List.mem_cons_self a t, h1⟩
      · exact Or.inr ⟨o, List.mem_cons_of_mem a ho, hf⟩
    · rcases ih (some x0) r h with h1 | ⟨o, ho, hf⟩
      · exact Or.inl h1
      · exact Or.inr ⟨o, List.mem_cons_of_mem a ho, hf⟩

/-- Unfolding one fuel level of the search in terms of the named step. -/
theorem dfsBuild_succ (tiles : List (List Tile)) (len fuel : Nat)
    (path visited : List Pos) (x y : Int) :
    dfsBuild tiles len (fuel + 1) path visited x y =
      if len ≤ path.length then some path
      else (sortByOpenness (dfsOptions tiles visited x y)).foldl
        (dfsStep tiles len fuel path visited x y) none := rfl

/-- Any successful depth-first search result extends the path it was
handed: the search only ever appends cells. -/
theorem dfsBuild_prefix (tiles : List (List Tile)) (len : Nat) :
    ∀ (fuel : Nat) (path visited : List Pos) (x y : Int) (r : List Pos),
      dfsBuild tiles len fuel path visited x y = some r → path <+: r := by
  intro fuel
  induction fuel with
  | zero => intro path visited x y r h; cases h
  | succ n ih =>
    intro path visited x y r h
    rw [dfsBuild_succ] at h
    by_cases hl : len ≤ path.length
    · rw [if_pos hl] at h
      cases h
      exact List.prefix_refl _
    · rw [if_neg hl] at h
      rcases dfsStep_foldl_some tiles len n path visited x y _ _ _ h with h1 | ⟨o, ho, hf⟩
      · cases h1
      · unfold dfsStep at hf
        revert hf
        cases hD : DIRECTIONS o.1 with
        | none => intro hf; cases hf
        | some dd =>
          intro hf
          have hx := ih (path ++ [⟨x + dd.x, y + dd.y⟩])
            (visited ++ [⟨x + dd.x, y + dd.y⟩]) (x + dd.x) (y + dd.y) r hf
          exact (List.prefix_append path _).trans hx

/-- The initial placement always produces at least one segment: the
search path starts at the spawn cell and only grows. -/
theorem buildInitialSegments_ne_nil (spawn : Pos) (len : Nat)
    (tiles : List (List Tile)) : buildInitialSegments spawn len tiles ≠ [] := by
  unfold buildInitialSegments padToLength dfsPath
  cases hd : dfsBuild tiles len 302 [spawn] [spawn] spawn.x spawn.y with
  | none => simp
  | some r =>
    have hp := dfsBuild_prefix tiles len 302 [spawn] [spawn] spawn.x spawn.y r hd
    have hr : r ≠ [] := by
      intro hnil
      subst hnil
      simp at hp
    simp [hr]

/-- The freshly loaded Playing state: play begins, with the placed actor,
no history, and no star power. -/
theorem loadedPlaying_fields (lvl : CurrentLevel) (rm : Bool) (nl : Nat) :
    (loadedPlaying lvl rm nl).state = GState.PLAYING ∧
    (loadedPlaying lvl rm nl).snake =
      some (Snake.mkSnake lvl.spawn lvl.snakeLength lvl.tiles) ∧
    (loadedPlaying lvl rm nl).starMovesRemaining = 0 ∧
    (loadedPlaying lvl rm nl).history = [] ∧
    (loadedPlaying lvl rm nl).moveCount = 0 := by
  refine ⟨rfl, rfl, rfl, rfl, rfl⟩

/-- Within the history window, every accepted run undoes exactly back to
its starting core. -/
theorem runPlaying_restores :
    ∀ (mvs : List (String × Int)) (g g' : Game),
      runPlaying g mvs = some g' →
      (∃ s, g.snake = some s ∧ s.segments ≠ []) →
      0 ≤ g.starMovesRemaining →
      g.history.length + mvs.length ≤ GAMEPLAY.HISTORY_LIMIT →
      undosOk g' mvs.length = true ∧ (undoN g' mvs.length).core = g.core := by
  intro mvs
  induction mvs with
  | nil =>
    intro g g' h _ _ _
    cases h
    exact ⟨rfl, rfl⟩
  | cons mv rest ih =>
    intro g g' h hsn hstar hcap
    rw [runPlaying] at h
    cases hstep : stepPlaying g mv with
    | none => rw [hstep] at h; cases h
    | some g1 =>
      rw [hstep] at h
      obtain ⟨hundo, hsn1, hstar1, hlen1, hst1⟩ :=
        stepPlaying_undo g g1 mv hstep hsn hstar (by simp at hcap; omega)
      obtain ⟨hok, hcore⟩ := ih g1 g' h hsn1 hstar1 (by simp at hcap; omega)
      have hlen : (mv :: rest).length = rest.length + 1 := rfl
      constructor
      · rw [hlen, undosOk_succ rest.length g', hok]
        rw [undo_fst_core (undoN g' rest.length), hcore, hundo]
        rfl
      · rw [hlen, undoN_succ rest.length g']
        rw [show ((undoN g' rest.length).undo).2.core =
            (undoCore (undoN g' rest.length).core).2 from
          undo_snd_core (undoN g' rest.length), hcore, hundo]

/-- The running invariants carried forward by an accepted run within the
history window: an actor remains, the star counter stays nonnegative and
the history grows by one entry per move. -/
theorem runPlaying_inv :
    ∀ (mvs : List (String × Int)) (g g' : Game),
      runPlaying g mvs = some g' →
      (∃ s, g.snake = some s ∧ s.segments ≠ []) →
      0 ≤ g.starMovesRemaining →
      g.history.length + mvs.length ≤ GAMEPLAY.HISTORY_LIMIT →
      (∃ s, g'.snake = some s ∧ s.segments ≠ []) ∧
        0 ≤ g'.starMovesRemaining ∧
        g'.history.length = g.history.length + mvs.length := by
  intro mvs
  induction mvs with
  | nil =>
    intro g g' h hsn hstar _
    cases h
    exact ⟨hsn, hstar, rfl⟩
  | cons mv rest ih =>
    intro g g' h hsn hstar hcap
    rw [runPlaying] at h
    cases hstep : stepPlaying g mv with
    | none => rw [hstep] at h; cases h
    | some g1 =>
      rw [hstep] at h
      obtain ⟨hundo, hsn1, hstar1, hlen1, hst1⟩ :=
        stepPlaying_undo g g1 mv hstep hsn hstar (by simp at hcap; omega)
      obtain ⟨hsn', hstar', hlen'⟩ := ih g1 g' h hsn1 hstar1 (by simp at hcap; omega)
      refine ⟨hsn', hstar', ?_⟩
      rw [hlen', hlen1]
      simp
      omega

/-- C1 (amended: the claim holds for runs of at most HISTORY_LIMIT = 300
accepted moves; beyond that the bounded history forgets the oldest moves
and exact inversion fails, see the counterexample). Undo is an exact
inverse within the history window: after any run of N accepted moves
from a freshly loaded level, N undos all succeed and restore the core
state — actor segments coordinate-for-coordinate, move count, star-power
counter, and the per-level and total item counters — to the state at
level load; moreover for every split of the run, undoing the
later moves restores exactly the intermediate state reached after the
earlier moves, so each individual undo reproduces the pre-move state of
the move it inverts. -/
theorem undo_exact_inverse (lvl : CurrentLevel) (rm : Bool) (nl : Nat)
    (mvs : List (String × Int)) (g' : Game)
    (hrun : runPlaying (loadedPlaying lvl rm nl) mvs = some g')
    (hcap : mvs.length ≤ GAMEPLAY.HISTORY_LIMIT) :
    (undosOk g' mvs.length = true ∧
      (undoN g' mvs.length).core = (loadedPlaying lvl rm nl).core) ∧
    (∀ pre post, mvs = pre ++ post →
      ∃ gmid, runPlaying (loadedPlaying lvl rm nl) pre = some gmid ∧
        undosOk g' post.length = true ∧
        (undoN g' post.length).core = gmid.core) := by
  have hfields := loadedPlaying_fields lvl rm nl
  have hsn : ∃ s, (loadedPlaying lvl rm nl).snake = some s ∧ s.segments ≠ [] :=
    ⟨Snake.mkSnake lvl.spawn lvl.snakeLength lvl.tiles, hfields.2.1,
      buildInitialSegments_ne_nil lvl.spawn lvl.snakeLength lvl.tiles⟩
  have hstar : 0 ≤ (loadedPlaying lvl rm nl).starMovesRemaining := by
    rw [hfields.2.2.1]
  have hhist : (loadedPlaying lvl rm nl).history.length + mvs.length ≤
      GAMEPLAY.HISTORY_LIMIT := by
    rw [hfields.2.2.2.1]
    simpa using hcap
  refine ⟨runPlaying_restores mvs _ g' hrun hsn hstar hhist, ?_⟩
  intro pre post heq
  subst heq
  rw [runPlaying_append pre post (loadedPlaying lvl rm nl)] at hrun
  cases hpre : runPlaying (loadedPlaying lvl rm nl) pre with
  | none => rw [hpre] at hrun; cases hrun
  | some gmid =>
    rw [hpre] at hrun
    have hlenpre : (loadedPlaying lvl rm nl).history.length + pre.length ≤
        GAMEPLAY.HISTORY_LIMIT := by
      rw [hfields.2.2.2.1]
      simp at hcap ⊢
      omega
    obtain ⟨hsn', hstar', hlen'⟩ :=
      runPlaying_inv pre _ gmid hpre hsn hstar hlenpre
    have hcap' : gmid.history.length + post.length ≤ GAMEPLAY.HISTORY_LIMIT := by
      rw [hlen', hfields.2.2.2.1]
      simp at hcap ⊢
      omega
    obtain ⟨hok, hcore⟩ := runPlaying_restores post gmid g' hrun hsn' hstar' hcap'
    exact ⟨gmid, rfl, hok, hcore⟩

/-- Witness for the amended C1 theorem at a concrete level and run. -/
theorem undo_exact_inverse_witness :
    ∃ g', runPlaying (loadedPlaying levelCorridor false 1) [("right", 0)] = some g' ∧
      undosOk g' 1 = true ∧
      (undoN g' 1).core = (loadedPlaying levelCorridor false 1).core := by
  have h := undo_exact_inverse levelCorridor false 1 [("right", 0)]
    ((runPlaying (loadedPlaying levelCorridor false 1) [("right", 0)]).getD
      (initGame false 1))
    (by rfl) (by decide)
  exact ⟨_, by rfl, h.1.1, h.1.2⟩

/-- The undo chain is a function of the core. -/
theorem undoN_core (n : Nat) :
    ∀ g : Game, (undoN g n).core = undoNCore g.core n := by
  induction n with
  | zero => intro g; rfl
  | succ m ih =>
    intro g
    show (undoN (g.undo).2 m).core = undoNCore (undoCore g.core).2 m
    rw [ih (g.undo).2, undo_snd_core g]

/-- The undo chain's success flags are a function of the core. -/
theorem undosOk_core (n : Nat) :
    ∀ g : Game, undosOk g n = undosOkCore g.core n := by
  induction n with
  | zero => intro g; rfl
  | succ m ih =>
    intro g
    show (g.undo.1 && undosOk (g.undo).2 m) = ((undoCore g.core).1 && undosOkCore (undoCore g.core).2 m)
    rw [ih (g.undo).2, undo_snd_core g, undo_fst_core g]

/-- tryMove accepts when every gate passes, committing the move. -/
theorem tryMove_accepts (g : Game) (d : String) (t : Int) (s : Snake) (c : Pos)
    (hst : g.state = GState.PLAYING) (hsn : g.snake = some s)
    (hgate : g.gateBlocked = false) (hc : Game.getMoveCandidate s d = some c)
    (hce : g.canEnterTileType (g.getTile c.x c.y) = true) :
    g.tryMove d t = (true, g.commitMove s d c (g.getTile c.x c.y)) := by
  unfold Game.tryMove
  simp [hst, hsn, hgate, hc, hce]

/-- The frame update keeps the motion-reduction flag. -/
theorem update_reduceMotion (g : Game) (t : Int) :
    (g.update t).reduceMotion = g.reduceMotion := by
  unfold Game.update
  cases g.moveAnimation
  · rfl
  · dsimp only
    split
    · rfl
    · rfl

/-- The frame update never introduces a positive-duration animation. -/
theorem update_animPred (g : Game) (t : Int)
    (ha : g.moveAnimation = none ∨
      ∃ a, g.moveAnimation = some a ∧ a.duration ≤ 0) :
    (g.update t).moveAnimation = none ∨
      ∃ a, (g.update t).moveAnimation = some a ∧ a.duration ≤ 0 := by
  unfold Game.update
  rcases ha with h | ⟨a, h, hd⟩ <;> rw [h] <;> dsimp only
  · exact Or.inl rfl
  · split
    · exact Or.inl rfl
    · exact Or.inr ⟨a, rfl, hd⟩

/-- A nonpositive-duration (or absent) animation never blocks a move. -/
theorem gateBlocked_of_animPred (g : Game)
    (ha : g.moveAnimation = none ∨
      ∃ a, g.moveAnimation = some a ∧ a.duration ≤ 0) :
    g.gateBlocked = false := by
  unfold Game.gateBlocked
  rcases ha with h | ⟨a, h, hd⟩ <;> rw [h]
  simp
  omega

/-- Item collection never touches the motion-reduction flag. -/
theorem handleItemCollection_rm (g : Game) (cand : Pos) (ct : Tile)
    (tl : Pos) (δ : Delta) :
    ((g.handleItemCollection cand ct tl δ).1).reduceMotion = g.reduceMotion := by
  cases ct <;> rfl

/-- Portal warps never touch the motion-reduction flag. -/
theorem handlePortalWarp_rm (g : Game) (cand : Pos) (ct : Tile) (δ : Delta) :
    ((g.handlePortalWarp cand ct δ).1).reduceMotion = g.reduceMotion := by
  unfold Game.handlePortalWarp
  by_cases h1 : ct ≠ Tile.PORTAL_A ∧ ct ≠ Tile.PORTAL_B
  · rw [if_pos h1]
  · rw [if_neg h1]
    cases hd : g.getPortalDestination cand
    · rfl
    · dsimp only
      split
      · rfl
      · rfl

/-- The history push never touches the motion-reduction flag. -/
theorem pushHistoryDelta_rm (g : Game) (δ : Delta) :
    (g.pushHistoryDelta δ).reduceMotion = g.reduceMotion := by
  unfold Game.pushHistoryDelta
  dsimp only
  split
  · rfl
  · rfl

/-- The star tick never touches the motion-reduction flag. -/
theorem tickStarPower_rm (g : Game) (b : Bool) :
    (g.tickStarPower b).reduceMotion = g.reduceMotion := by
  unfold Game.tickStarPower
  split
  · dsimp only
    split
    · rfl
    · rfl
  · rfl

/-- The commit chain preserves the motion-reduction flag and always
installs a move animation whose duration is zero exactly under reduced
motion. -/
theorem commitSteps_rm_anim (g : Game) (s : Snake) (d : String) (c : Pos)
    (ct : Tile) :
    (g.commitSteps s d c ct).reduceMotion = g.reduceMotion ∧
    ∃ a, (g.commitSteps s d c ct).moveAnimation = some a ∧
      a.duration = (if g.reduceMotion then 0 else GAMEPLAY.MOVE_ANIMATION_MS) := by
  let tl : Pos := s.segments.getLastD ⟨0, 0⟩
  let d0 : Delta :=
    { moveCountBefore := g.moveCount, previousDirection := s.direction,
      tail := tl, direction := d, growth := 0, consumedItem := none,
      totalItemsBefore := g.totalItemsCollected,
      levelItemsBefore := g.levelCollectedItems,
      starMovesBefore := g.starMovesRemaining, portalJump := none }
  let g1 : Game := { g with snake := some (s.move d) }
  let g2 : Game := (g1.handleItemCollection c ct tl d0).1
  let d1 : Delta := (g1.handleItemCollection c ct tl d0).2.1
  let act : Bool := (g1.handleItemCollection c ct tl d0).2.2.activatedStar
  let g3 : Game := (g2.handlePortalWarp c ct d1).1
  let d2 : Delta := (g2.handlePortalWarp c ct d1).2
  let g4 : Game := g3.pushHistoryDelta d2
  let g5 : Game := g4.tickStarPower act
  let g6 : Game := { g5 with moveCount := g5.moveCount + 1,
                             totalMoveCount := g5.totalMoveCount + 1 }
  have hcommit : g.commitSteps s d c ct =
      (g6.startMoveAnimation s.segments ((g6.snake.map Snake.segments).getD [])).emit
        (GEvent.moveDone d g6.moveCount g6.starMovesRemaining) := rfl
  have h2 : g2.reduceMotion = g1.reduceMotion := handleItemCollection_rm g1 c ct tl d0
  have h3 : g3.reduceMotion = g2.reduceMotion := handlePortalWarp_rm g2 c ct d1
  have h4 : g4.reduceMotion = g3.reduceMotion := pushHistoryDelta_rm g3 d2
  have h5 : g5.reduceMotion = g4.reduceMotion := tickStarPower_rm g4 act
  have h6 : g6.reduceMotion = g.reduceMotion := by
    show g5.reduceMotion = g.reduceMotion
    rw [h5, h4, h3, h2]
  refine ⟨?_, ?_⟩
  · rw [hcommit]
    show g6.reduceMotion = g.reduceMotion
    exact h6
  · refine ⟨_, by rw [hcommit]; exact (rfl :
      ((g6.startMoveAnimation s.segments ((g6.snake.map Snake.segments).getD [])).emit
        (GEvent.moveDone d g6.moveCount g6.starMovesRemaining)).moveAnimation = some _), ?_⟩
    show (if g6.reduceMotion then (0 : Int) else GAMEPLAY.MOVE_ANIMATION_MS) =
      (if g.reduceMotion then (0 : Int) else GAMEPLAY.MOVE_ANIMATION_MS)
    rw [h6]

/-- The post-move check touches neither the animation nor the
motion-reduction flag. -/
theorem checkPost_rm_anim (g : Game) :
    (g.checkPostMoveState).reduceMotion = g.reduceMotion ∧
    (g.checkPostMoveState).moveAnimation = g.moveAnimation := by
  unfold Game.checkPostMoveState Game.handleLevelClear Game.setState Game.emit
  dsimp only
  constructor <;> (repeat' split) <;> rfl

/-- One corridor commit on the core mirror. -/
theorem commitCore_corr (k : Nat) (hk : k ≤ 300) :
    commitCore (corrCore k) ⟨[corrPos k], corrFacing k⟩ (corrDir k)
      (corrPos (k + 1)) Tile.EMPTY = corrCore (k + 1) := by
  have hfac : corrFacing (k + 1) = corrDir k := by simp [corrFacing]
  have hlen : ((List.range k).map corrDelta).length = k := by simp
  by_cases hk3 : k < 300
  · have h0 : k - 300 = 0 := by omega
    have h1 : k + 1 - 300 = 0 := by omega
    have hsucc : (List.range (k + 1)).map corrDelta =
        (List.range k).map corrDelta ++ [corrDelta k] := by
      rw [List.range_succ, List.map_append]
      rfl
    have hnocap : ¬ GAMEPLAY.HISTORY_LIMIT <
        (((List.range k).map corrDelta).drop (k - 300) ++ [corrDelta k]).length := by
      simp [h0, hlen, GAMEPLAY.HISTORY_LIMIT]
      omega
    simp [commitCore, corrCore, corrDelta, h0, h1, hsucc, hnocap, hfac,
      GAMEPLAY.HISTORY_LIMIT]
    intro hcontra
    exact absurd hcontra (by omega)
  · have hk4 : k = 300 := by omega
    subst hk4
    have hne : (List.range 300).map corrDelta ≠ [] := by
      intro h
      have := congrArg List.length h
      simp at this
    have hcap : GAMEPLAY.HISTORY_LIMIT <
        (((List.range 300).map corrDelta).drop (300 - 300) ++ [corrDelta 300]).length := by
      simp [hlen, GAMEPLAY.HISTORY_LIMIT]
    have hsucc : (List.range (300 + 1)).map corrDelta =
        (List.range 300).map corrDelta ++ [corrDelta 300] := by
      rw [List.range_succ, List.map_append]
      rfl
    have htail : (((List.range 300).map corrDelta) ++ [corrDelta 300]).tail =
        ((List.range 300).map corrDelta).tail ++ [corrDelta 300] :=
      List.tail_append_of_ne_nil hne
    simp [commitCore, corrCore, corrDelta, hcap, hsucc, htail, hfac,
      GAMEPLAY.HISTORY_LIMIT, List.drop_one]

/-- The corridor candidate of the k-th move is the next oscillation
cell. -/
theorem corr_cand (k : Nat) :
    Game.getMoveCandidate ⟨[corrPos k], corrFacing k⟩ (corrDir k) =
      some (corrPos (k + 1)) := by
  rcases Nat.mod_two_eq_zero_or_one k with hk | hk
  · have h1 : (k + 1) % 2 = 1 := by omega
    simp [corrDir, corrPos, hk, h1, Game.getMoveCandidate, DIRECTIONS, Snake.getHead]
  · have h1 : (k + 1) % 2 = 0 := by omega
    simp [corrDir, corrPos, hk, h1, Game.getMoveCandidate, DIRECTIONS, Snake.getHead]

/-- Both oscillation cells of the corridor hold the Empty tile. -/
theorem corr_tile (k : Nat) :
    Game.getTileL (some levelCorridor) (corrPos k).x (corrPos k).y = Tile.EMPTY := by
  rcases Nat.mod_two_eq_zero_or_one k with hk | hk <;>
    simp [corrPos, hk] <;> decide

/-- One corridor driver step: from any game whose core matches the
corridor formula (with reduced motion and no pending animation), the
next oscillation move is accepted and advances the core formula. -/
theorem corr_step (k : Nat) (hk : k ≤ 300) (g : Game)
    (hcore : g.core = corrCore k) (hrm : g.reduceMotion = true)
    (ha : g.moveAnimation = none ∨
      ∃ a, g.moveAnimation = some a ∧ a.duration ≤ 0) :
    ∃ g1, stepPlaying g (corrDir k, 0) = some g1 ∧ g1.core = corrCore (k + 1) ∧
      g1.reduceMotion = true ∧
      (g1.moveAnimation = none ∨ ∃ a, g1.moveAnimation = some a ∧ a.duration ≤ 0) := by
  have hu : (g.update 0).core = corrCore k := (update_core g 0).trans hcore
  have hurm : (g.update 0).reduceMotion = true := (update_reduceMotion g 0).trans hrm
  have hua := update_animPred g 0 ha
  have hgate : (g.update 0).gateBlocked = false := gateBlocked_of_animPred _ hua
  have hst : (g.update 0).state = GState.PLAYING := congrArg Core.state hu
  have hsn : (g.update 0).snake = some ⟨[corrPos k], corrFacing k⟩ :=
    congrArg Core.snake hu
  have hlvl : (g.update 0).currentLevel = some levelCorridor :=
    congrArg Core.currentLevel hu
  have hcand := corr_cand k
  obtain ⟨dv, hdv⟩ := getMoveCandidate_dir _ _ _ hcand
  have hne : ([corrPos k] : List Pos) ≠ [] := by simp
  have htile : (g.update 0).getTile (corrPos (k + 1)).x (corrPos (k + 1)).y
      = Tile.EMPTY := by
    show Game.getTileL (g.update 0).currentLevel _ _ = _
    rw [hlvl]
    exact corr_tile (k + 1)
  have hce : (g.update 0).canEnterTileType
      ((g.update 0).getTile (corrPos (k + 1)).x (corrPos (k + 1)).y) = true := by
    rw [htile]
    rfl
  have hcommitcore := commitCore_corr k hk
  have hccu : commitCore (g.update 0).core ⟨[corrPos k], corrFacing k⟩ (corrDir k)
      (corrPos (k + 1)) Tile.EMPTY = corrCore (k + 1) := by
    rw [hu, hcommitcore]
  have hexit : Game.getTileL
      (commitCore (g.update 0).core ⟨[corrPos k], corrFacing k⟩ (corrDir k)
        (corrPos (k + 1)) Tile.EMPTY).currentLevel
      ((((commitCore (g.update 0).core ⟨[corrPos k], corrFacing k⟩ (corrDir k)
        (corrPos (k + 1)) Tile.EMPTY).snake.map Snake.getHead).getD ⟨0, 0⟩).x)
      ((((commitCore (g.update 0).core ⟨[corrPos k], corrFacing k⟩ (corrDir k)
        (corrPos (k + 1)) Tile.EMPTY).snake.map Snake.getHead).getD ⟨0, 0⟩).y)
      ≠ Tile.EXIT := by
    rw [hccu]
    have h2 : Game.getTileL (corrCore (k + 1)).currentLevel
        ((((corrCore (k + 1)).snake.map Snake.getHead).getD ⟨0, 0⟩).x)
        ((((corrCore (k + 1)).snake.map Snake.getHead).getD ⟨0, 0⟩).y)
        = Tile.EMPTY := corr_tile (k + 1)
    rw [h2]
    simp
  have hpost : ((g.update 0).commitMove ⟨[corrPos k], corrFacing k⟩ (corrDir k)
      (corrPos (k + 1)) Tile.EMPTY).state = GState.PLAYING :=
    commitMove_state_playing (g.update 0) _ (corrDir k) dv (corrPos (k + 1))
      Tile.EMPTY hst hsn hne hdv hcand hexit
  have htry := tryMove_accepts (g.update 0) (corrDir k) 0 _ (corrPos (k + 1))
    hst hsn hgate hcand hce
  rw [htile] at htry
  refine ⟨(g.update 0).commitMove ⟨[corrPos k], corrFacing k⟩ (corrDir k)
    (corrPos (k + 1)) Tile.EMPTY, ?_, ?_, ?_, ?_⟩
  · unfold stepPlaying
    dsimp only
    rw [htry]
    dsimp only
    rw [if_pos ⟨rfl, hpost⟩]
  · exact (commit_core_eq (g.update 0) _ (corrDir k) dv (corrPos (k + 1))
      Tile.EMPTY hst hsn hne hdv hcand hpost).trans hccu
  · have hr : ((g.update 0).commitMove ⟨[corrPos k], corrFacing k⟩ (corrDir k)
        (corrPos (k + 1)) Tile.EMPTY).reduceMotion
        = (g.update 0).reduceMotion := by
      show (((g.update 0).commitSteps _ _ _ _).checkPostMoveState).reduceMotion = _
      rw [(checkPost_rm_anim _).1,
        (commitSteps_rm_anim (g.update 0) ⟨[corrPos k], corrFacing k⟩ (corrDir k)
          (corrPos (k + 1)) Tile.EMPTY).1]
    exact hr.trans hurm
  · obtain ⟨a, hA, hD⟩ := (commitSteps_rm_anim (g.update 0)
      ⟨[corrPos k], corrFacing k⟩ (corrDir k) (corrPos (k + 1)) Tile.EMPTY).2
    refine Or.inr ⟨a, ?_, ?_⟩
    · show (((g.update 0).commitSteps _ _ _ _).checkPostMoveState).moveAnimation = some a
      rw [(checkPost_rm_anim _).2]
      exact hA
    · rw [hD, hurm]
      simp

set_option maxRecDepth 8000 in
/-- The first 301 corridor moves are all accepted and drive the core
formula forward. -/
theorem corr_run : ∀ n, n ≤ 301 →
    ∃ g', runPlaying (loadedPlaying levelCorridor true 1)
        ((List.range n).map fun i => (corrDir i, 0)) = some g' ∧
      g'.core = corrCore n ∧ g'.reduceMotion = true ∧
      (g'.moveAnimation = none ∨ ∃ a, g'.moveAnimation = some a ∧ a.duration ≤ 0) := by
  intro n
  induction n with
  | zero =>
    intro _
    refine ⟨loadedPlaying levelCorridor true 1, rfl, ?_, rfl, Or.inl rfl⟩
    decide
  | succ m ih =>
    intro hm
    obtain ⟨gm, hrunm, hc, hr, ha⟩ := ih (by omega)
    obtain ⟨g1, hstep, hc1, hr1, ha1⟩ := corr_step m (by omega) gm hc hr ha
    refine ⟨g1, ?_, hc1, hr1, ha1⟩
    rw [List.range_succ, List.map_append, runPlaying_append, hrunm]
    show runPlaying gm (List.map (fun i => (corrDir i, 0)) [m]) = some g1
    show runPlaying gm [(corrDir m, 0)] = some g1
    rw [runPlaying, hstep]
    rfl

/-- corrUndoCore at zero is exactly the 301-move core. -/
theorem corrUndo_zero : corrUndoCore 0 = corrCore 301 := rfl

/-- One core-level undo along the corridor chain. -/
theorem corrUndo_step (j : Nat) (hj : j < 300) :
    undoCore (corrUndoCore j) = (true, corrUndoCore (j + 1)) := by
  have hm : 301 - j = (301 - (j + 1)) + 1 := by omega
  set p := 301 - (j + 1) with hp
  have hp1 : 1 ≤ p := by omega
  have hsplit : (List.range (p + 1)).map corrDelta =
      (List.range p).map corrDelta ++ [corrDelta p] := by
    rw [List.range_succ, List.map_append]
    rfl
  have hdrop : ((List.range (p + 1)).map corrDelta).drop 1 =
      ((List.range p).map corrDelta).drop 1 ++ [corrDelta p] := by
    rw [hsplit, List.drop_append_of_le_length (by simp; omega)]
  unfold corrUndoCore corrCore
  rw [hm, hdrop]
  simp [undoCore, corrDelta, List.getLast?_concat, List.dropLast_concat]
  have hpq : p = 300 - j := by omega
  simp [hpq]

/-- The corridor undo chain runs exactly down the core formulas. -/
theorem corrUndo_chain :
    ∀ (j i : Nat), i + j ≤ 300 →
      undoNCore (corrUndoCore i) j = corrUndoCore (i + j) ∧
      undosOkCore (corrUndoCore i) j = true := by
  intro j
  induction j with
  | zero => intro i _; exact ⟨rfl, rfl⟩
  | succ n ih =>
    intro i hij
    have hstep := corrUndo_step i (by omega)
    constructor
    · show undoNCore (undoCore (corrUndoCore i)).2 n = _
      rw [hstep]
      have := (ih (i + 1) (by omega)).1
      rw [this]
      congr 1
      omega
    · show ((undoCore (corrUndoCore i)).1 && undosOkCore (undoCore (corrUndoCore i)).2 n) = true
      rw [hstep]
      have := (ih (i + 1) (by omega)).2
      simp [this]

/-- Splitting a core-level undo chain. -/
theorem undoNCore_add (m n : Nat) :
    ∀ c : Core, undoNCore c (m + n) = undoNCore (undoNCore c m) n := by
  induction m with
  | zero => intro c; rw [Nat.zero_add]; rfl
  | succ k ih =>
    intro c
    rw [show k + 1 + n = (k + n) + 1 from by omega]
    show undoNCore (undoCore c).2 (k + n) = undoNCore (undoNCore c (k + 1)) n
    rw [ih (undoCore c).2]
    rfl

/-- Splitting the success flags of a core-level undo chain. -/
theorem undosOkCore_add (m n : Nat) :
    ∀ c : Core, undosOkCore c (m + n) =
      (undosOkCore c m && undosOkCore (undoNCore c m) n) := by
  induction m with
  | zero => intro c; rw [Nat.zero_add]; simp [undosOkCore, undoNCore]
  | succ k ih =>
    intro c
    rw [show k + 1 + n = (k + n) + 1 from by omega]
    show ((undoCore c).1 && undosOkCore (undoCore c).2 (k + n)) =
      (undosOkCore c (k + 1) && undosOkCore (undoNCore c (k + 1)) n)
    rw [ih (undoCore c).2]
    show ((undoCore c).1 && (undosOkCore (undoCore c).2 k &&
        undosOkCore (undoNCore (undoCore c).2 k) n)) =
      (((undoCore c).1 && undosOkCore (undoCore c).2 k) &&
        undosOkCore (undoNCore (undoCore c).2 k) n)
    rw [Bool.and_assoc]

/-- After the 300 possible undos the history is empty and the 301st undo
fails, leaving the chain at the state after move 1. -/
theorem corrUndo_final :
    undosOkCore (corrCore 301) 301 = false ∧
    undoNCore (corrCore 301) 301 = corrUndoCore 300 := by
  have hchain := corrUndo_chain 300 0 (by omega)
  rw [corrUndo_zero] at hchain
  simp only [Nat.zero_add] at hchain
  have hfail : undoCore (corrUndoCore 300) = (false, corrUndoCore 300) := by
    have hhist : (corrUndoCore 300).history = [] := by decide
    unfold undoCore
    rw [if_neg (by decide), hhist]
    rfl
  constructor
  · rw [show (301 : Nat) = 300 + 1 from rfl, undosOkCore_add 300 1,
      hchain.2, hchain.1]
    show (true && ((undoCore (corrUndoCore 300)).1 &&
      undosOkCore (undoCore (corrUndoCore 300)).2 0)) = false
    rw [hfail]
    rfl
  · rw [show (301 : Nat) = 300 + 1 from rfl, undoNCore_add 300 1, hchain.1]
    show (undoCore (corrUndoCore 300)).2 = _
    rw [hfail]

set_option maxRecDepth 8000 in
/-- C1 counterexample: 301 accepted corridor moves overflow the 300-entry
bounded history; the discarded first delta makes the final undo fail and
leaves the chain at the state after move 1 instead of the loaded state,
so undo is not an exact inverse for arbitrary N. -/
theorem undo_exact_inverse_cex :
    ∃ (mvs : List (String × Int)) (g' : Game),
      runPlaying (loadedPlaying levelCorridor true 1) mvs = some g' ∧
      undosOk g' mvs.length = false ∧
      (undoN g' mvs.length).core ≠ (loadedPlaying levelCorridor true 1).core := by
  obtain ⟨g', hrun, hcore, _, _⟩ := corr_run 301 (le_refl _)
  refine ⟨(List.range 301).map fun i => (corrDir i, 0), g', hrun, ?_, ?_⟩
  · simp only [List.length_map, List.length_range]
    rw [undosOk_core 301 g', hcore]
    exact corrUndo_final.1
  · simp only [List.length_map, List.length_range]
    rw [undoN_core 301 g', hcore, corrUndo_final.2]
    intro hEq
    exact absurd (congrArg Core.moveCount hEq) (by decide)

/-- C10: getTile is total — any off-board coordinate, or a missing level,
reads as the Wall tile — and consequently a move whose candidate head
lies off the board is rejected as a blocked move with reason "wall". -/
theorem getTile_total_edge (g : Game) (x y : Int) (d : String) (t : Int)
    (s : Snake) (c : Pos) :
    ((¬ Game.isInsideBoard x y ∨ g.currentLevel = none) →
      g.getTile x y = Tile.WALL) ∧
    (g.state = GState.PLAYING → g.snake = some s → g.gateBlocked = false →
      Game.getMoveCandidate s d = some c → ¬ Game.isInsideBoard c.x c.y →
      (g.tryMove d t).1 = false ∧
      (g.tryMove d t).2.eventQueue = g.eventQueue ++ [GEvent.blocked "wall" c]) := by
  have htot : ∀ (x y : Int), (¬ Game.isInsideBoard x y ∨ g.currentLevel = none) →
      g.getTile x y = Tile.WALL := by
    intro x y h
    show Game.getTileL g.currentLevel x y = Tile.WALL
    rcases h with h | h
    · cases g.currentLevel
      · rfl
      · simp [Game.getTileL, h]
    · rw [h]
      rfl
  refine ⟨htot x y, ?_⟩
  intro hst hsn hgate hc hout
  have hw : g.getTile c.x c.y = Tile.WALL := htot c.x c.y (Or.inl hout)
  have hcf : g.canEnterTileType Tile.WALL = false := by
    simp [Game.canEnterTileType, Game.canEnterT]
  have hce : ¬ g.canEnterTileType (g.getTile c.x c.y) = true := by
    rw [hw, hcf]
    simp
  constructor
  · unfold Game.tryMove
    simp [hst, hsn, hgate, hc, hce]
  · unfold Game.tryMove
    simp [hst, hsn, hgate, hc, hce, hw, hcf, Game.setBlockedFeedback, Game.emit]

set_option maxRecDepth 8000 in
/-- Witness for C10 at the edge level: moving up from the corner spawn
leaves the board and is rejected as a wall. -/
theorem getTile_total_edge_witness :
    (loadedPlaying levelEdge false 1).getTile 0 (-1) = Tile.WALL ∧
    ((loadedPlaying levelEdge false 1).tryMove "up" 0).1 = false ∧
    ((loadedPlaying levelEdge false 1).tryMove "up" 0).2.eventQueue =
      (loadedPlaying levelEdge false 1).eventQueue ++
        [GEvent.blocked "wall" ⟨0, -1⟩] := by
  have h := getTile_total_edge (loadedPlaying levelEdge false 1) 0 (-1) "up" 0
    (Snake.mkSnake levelEdge.spawn levelEdge.snakeLength levelEdge.tiles) ⟨0, -1⟩
  exact ⟨h.1 (Or.inl (by decide)),
    (h.2 rfl rfl (by decide) (by decide) (by decide)).1,
    (h.2 rfl rfl (by decide) (by decide) (by decide)).2⟩

/-- C4: rejected commands are pure no-ops on the game state — the actor,
grid, counters, star power and history are untouched — and a move into a
Wall is refused with a "wall" blocked notification while a move into an
Obstacle without star power is refused identically with "obstacle". -/
theorem rejected_move_noop (g : Game) (d : String) (t : Int) :
    ((g.tryMove d t).1 = false →
      (g.tryMove d t).2.snake = g.snake ∧
      (g.tryMove d t).2.currentLevel = g.currentLevel ∧
      (g.tryMove d t).2.moveCount = g.moveCount ∧
      (g.tryMove d t).2.totalMoveCount = g.totalMoveCount ∧
      (g.tryMove d t).2.starMovesRemaining = g.starMovesRemaining ∧
      (g.tryMove d t).2.history = g.history ∧
      (g.tryMove d t).2.state = g.state) ∧
    (∀ s c, g.state = GState.PLAYING → g.snake = some s → g.gateBlocked = false →
      Game.getMoveCandidate s d = some c →
      (g.getTile c.x c.y = Tile.WALL →
        (g.tryMove d t).1 = false ∧
        (g.tryMove d t).2 = g.setBlockedFeedback c "wall") ∧
      (g.getTile c.x c.y = Tile.OBSTACLE → g.starMovesRemaining ≤ 0 →
        (g.tryMove d t).1 = false ∧
        (g.tryMove d t).2 = g.setBlockedFeedback c "obstacle")) := by
  refine ⟨tryMove_rejected_fields g d t, ?_⟩
  intro s c hst hsn hgate hc
  constructor
  · intro hw
    have hcf : g.canEnterTileType Tile.WALL = false := by
      simp [Game.canEnterTileType, Game.canEnterT]
    have hce : ¬ g.canEnterTileType (g.getTile c.x c.y) = true := by
      rw [hw, hcf]
      simp
    constructor
    · unfold Game.tryMove
      simp [hst, hsn, hgate, hc, hce]
    · unfold Game.tryMove
      simp [hst, hsn, hgate, hc, hce, hw]
      rw [if_pos hcf]
  · intro ho hstar
    have hcf : g.canEnterTileType Tile.OBSTACLE = false := by
      simp [Game.canEnterTileType, Game.canEnterT]
      omega
    have hce : ¬ g.canEnterTileType (g.getTile c.x c.y) = true := by
      rw [ho, hcf]
      simp
    constructor
    · unfold Game.tryMove
      simp [hst, hsn, hgate, hc, hce]
    · unfold Game.tryMove
      simp [hst, hsn, hgate, hc, hce, ho]
      rw [if_pos hcf]

set_option maxRecDepth 8000 in
/-- Witness for C4: a wall block on the corridor level and an obstacle
block with no star power, both pure feedback-only rejections. -/
theorem rejected_move_noop_witness :
    (((loadedPlaying levelCorridor false 1).tryMove "up" 0).1 = false ∧
      ((loadedPlaying levelCorridor false 1).tryMove "up" 0).2 =
        (loadedPlaying levelCorridor false 1).setBlockedFeedback ⟨1, 0⟩ "wall") ∧
    (((loadedPlaying levelObstacle false 1).tryMove "right" 0).1 = false ∧
      ((loadedPlaying levelObstacle false 1).tryMove "right" 0).2 =
        (loadedPlaying levelObstacle false 1).setBlockedFeedback ⟨2, 1⟩ "obstacle") ∧
    ((loadedPlaying levelCorridor false 1).tryMove "up" 0).2.moveCount =
      (loadedPlaying levelCorridor false 1).moveCount := by
  have h1 := ((rejected_move_noop (loadedPlaying levelCorridor false 1) "up" 0).2
    (Snake.mkSnake levelCorridor.spawn levelCorridor.snakeLength levelCorridor.tiles)
    ⟨1, 0⟩ rfl rfl (by decide) (by decide)).1 (by decide)
  have h2 := ((rejected_move_noop (loadedPlaying levelObstacle false 1) "right" 0).2
    (Snake.mkSnake levelObstacle.spawn levelObstacle.snakeLength levelObstacle.tiles)
    ⟨2, 1⟩ rfl rfl (by decide) (by decide)).2 (by decide) (by decide)
  have h3 := ((rejected_move_noop (loadedPlaying levelCorridor false 1) "up" 0).1
    h1.1).2.2.1
  exact ⟨h1, h2, h3⟩

/-- The post-move check can change only the state, progress bookkeeping
and the event queue: every other engine field passes through. -/
theorem checkPost_fields (g : Game) :
    (g.checkPostMoveState).snake = g.snake ∧
    (g.checkPostMoveState).currentLevel = g.currentLevel ∧
    (g.checkPostMoveState).moveCount = g.moveCount ∧
    (g.checkPostMoveState).history = g.history ∧
    (g.checkPostMoveState).levelCollectedItems = g.levelCollectedItems ∧
    (g.checkPostMoveState).levelTotalItems = g.levelTotalItems ∧
    (g.checkPostMoveState).totalItemsCollected = g.totalItemsCollected ∧
    (g.checkPostMoveState).starMovesRemaining = g.starMovesRemaining ∧
    (g.checkPostMoveState).portalLinks = g.portalLinks := by
  unfold Game.checkPostMoveState Game.handleLevelClear Game.setState Game.emit
  dsimp only
  refine ⟨?_, ?_, ?_, ?_, ?_, ?_, ?_, ?_, ?_⟩ <;> (repeat' split) <;> rfl

/-- Reading back a freshly written cell that was in range (it held a
non-Wall tile) returns the written tile. -/
theorem tileAt_setTileAt (tiles : List (List Tile)) (p : Pos) (t : Tile)
    (hw : tileAt tiles p ≠ Tile.WALL) :
    tileAt (setTileAt tiles p t) p = t := by
  unfold tileAt setTileAt at *
  rcases hy : tiles[p.y.toNat]? with _ | row
  · exfalso
    have hrow : tiles.getD p.y.toNat [] = [] := by
      simp [List.getD_eq_getElem?_getD, hy]
    rw [hrow] at hw
    simp at hw
  · have hrow : tiles.getD p.y.toNat [] = row := by
      simp [List.getD_eq_getElem?_getD, hy]
    rw [hrow] at hw ⊢
    have hyl : p.y.toNat < tiles.length := (List.getElem?_eq_some_iff.mp hy).1
    have hget : (tiles.set p.y.toNat (row.set p.x.toNat t)).getD p.y.toNat []
        = row.set p.x.toNat t := by
      simp [List.getD_eq_getElem?_getD, List.getElem?_set_self, hyl]
    rw [hget]
    rcases hx : row[p.x.toNat]? with _ | cell
    · exfalso
      have hc : row.getD p.x.toNat Tile.WALL = Tile.WALL := by
        simp [List.getD_eq_getElem?_getD, hx]
      rw [hc] at hw
      simp at hw
    · have hxl : p.x.toNat < row.length := (List.getElem?_eq_some_iff.mp hx).1
      simp [List.getD_eq_getElem?_getD, List.getElem?_set_self, hxl]

/-- The committed snake's segment count: the shift keeps the length and
each unit of growth appends one segment. -/
theorem commitCore_snakeLen (c0 : Core) (s : Snake) (d : String) (c : Pos)
    (ct : Tile) (hne : s.segments ≠ []) :
    ∃ t, (commitCore c0 s d c ct).snake = some ⟨t, d⟩ ∧
      t.length = s.segments.length +
        (if ct = Tile.ITEM then 1 else if ct = Tile.BIG_ITEM then 2 else 0) := by
  have hB : 1 ≤ s.segments.length := List.length_pos.mpr hne
  unfold commitCore
  dsimp only
  refine ⟨_, rfl, ?_⟩
  split
  · next dest tail heq =>
    have hlen := congrArg List.length heq
    simp at hlen ⊢
    omega
  · simp
    omega

/-- C5: growth correctness of item collection on an accepted move — an
Item adds exactly one segment, empties its tile and bumps both item
counters once; a BigItem adds exactly two segments with a single counter
bump; a StarItem adds no segment, empties its tile, arms the star
counter with the fixed constant and bumps no counter. -/
theorem item_collection_growth (g : Game) (d : String) (t : Int) (s : Snake)
    (c : Pos)
    (hsn : g.snake = some s) (hne : s.segments ≠ [])
    (hc : Game.getMoveCandidate s d = some c)
    (hacc : (g.tryMove d t).1 = true) :
    (g.getTile c.x c.y = Tile.ITEM →
      (g.tryMove d t).2.snakeLen = s.segments.length + 1 ∧
      (∃ lvl', (g.tryMove d t).2.currentLevel = some lvl' ∧
        tileAt lvl'.tiles c = Tile.EMPTY) ∧
      (g.tryMove d t).2.levelCollectedItems = g.levelCollectedItems + 1 ∧
      (g.tryMove d t).2.totalItemsCollected = g.totalItemsCollected + 1) ∧
    (g.getTile c.x c.y = Tile.BIG_ITEM →
      (g.tryMove d t).2.snakeLen = s.segments.length + 2 ∧
      (∃ lvl', (g.tryMove d t).2.currentLevel = some lvl' ∧
        tileAt lvl'.tiles c = Tile.EMPTY) ∧
      (g.tryMove d t).2.levelCollectedItems = g.levelCollectedItems + 1 ∧
      (g.tryMove d t).2.totalItemsCollected = g.totalItemsCollected + 1) ∧
    (g.getTile c.x c.y = Tile.STAR_ITEM →
      (g.tryMove d t).2.snakeLen = s.segments.length ∧
      (∃ lvl', (g.tryMove d t).2.currentLevel = some lvl' ∧
        tileAt lvl'.tiles c = Tile.EMPTY) ∧
      (g.tryMove d t).2.starMovesRemaining = GAMEPLAY.STAR_POWER_MOVES ∧
      (g.tryMove d t).2.levelCollectedItems = g.levelCollectedItems ∧
      (g.tryMove d t).2.totalItemsCollected = g.totalItemsCollected) := by
  obtain ⟨s', c', hst, hsn', hgate, hc', hce, hcommit⟩ := tryMove_accepted g d t hacc
  have hs : s' = s := by
    rw [hsn] at hsn'
    exact (Option.some.inj hsn').symm
  rw [hs] at hc' hcommit
  have hcc : c' = c := (Option.some.inj (hc.symm.trans hc')).symm
  rw [hcc] at hce hcommit
  obtain ⟨dv, hdv⟩ := getMoveCandidate_dir s d c hc
  have hcore := commitSteps_core g s d dv c (g.getTile c.x c.y) hst hsn hne hdv hc
  have hsteps : (g.tryMove d t).2 =
      (g.commitSteps s d c (g.getTile c.x c.y)).checkPostMoveState := hcommit
  have hf := checkPost_fields (g.commitSteps s d c (g.getTile c.x c.y))
  have hlvl2 : (g.tryMove d t).2.currentLevel =
      (commitCore g.core s d c (g.getTile c.x c.y)).currentLevel := by
    rw [hsteps, hf.2.1]
    exact congrArg Core.currentLevel hcore
  have hsn2 : (g.tryMove d t).2.snake =
      (commitCore g.core s d c (g.getTile c.x c.y)).snake := by
    rw [hsteps, hf.1]
    exact congrArg Core.snake hcore
  have hlci2 : (g.tryMove d t).2.levelCollectedItems =
      (commitCore g.core s d c (g.getTile c.x c.y)).levelCollectedItems := by
    rw [hsteps, hf.2.2.2.2.1]
    exact congrArg Core.levelCollectedItems hcore
  have htic2 : (g.tryMove d t).2.totalItemsCollected =
      (commitCore g.core s d c (g.getTile c.x c.y)).totalItemsCollected := by
    rw [hsteps, hf.2.2.2.2.2.2.1]
    exact congrArg Core.totalItemsCollected hcore
  have hstar2 : (g.tryMove d t).2.starMovesRemaining =
      (commitCore g.core s d c (g.getTile c.x c.y)).starMovesRemaining := by
    rw [hsteps, hf.2.2.2.2.2.2.2.1]
    exact congrArg Core.starMovesRemaining hcore
  have hlevel : ∀ ct, g.getTile c.x c.y = ct → ct ≠ Tile.WALL →
      ∃ lvl, g.currentLevel = some lvl ∧ tileAt lvl.tiles c = ct := by
    intro ct hct hw
    exact getTileL_eq_tileAt g.currentLevel c.x c.y ct hct hw
  refine ⟨?_, ?_, ?_⟩
  · intro hct
    obtain ⟨tl, hsnake, hlen⟩ := commitCore_snakeLen g.core s d c Tile.ITEM hne
    obtain ⟨lvl, hl, ht⟩ := hlevel Tile.ITEM hct (by simp)
    rw [hct] at hlvl2 hsn2 hlci2 htic2
    refine ⟨?_, ⟨{ lvl with tiles := setTileAt lvl.tiles c Tile.EMPTY }, ?_, ?_⟩, ?_, ?_⟩
    · unfold Game.snakeLen
      rw [hsn2, hsnake]
      simpa using hlen
    · rw [hlvl2]
      show (if Tile.ITEM = Tile.ITEM ∨ Tile.ITEM = Tile.BIG_ITEM ∨
          Tile.ITEM = Tile.STAR_ITEM then
          g.core.currentLevel.map fun lvl =>
            { lvl with tiles := setTileAt lvl.tiles c Tile.EMPTY }
        else g.core.currentLevel) = _
      rw [if_pos (by simp)]
      show g.currentLevel.map _ = _
      rw [hl]
      rfl
    · exact tileAt_setTileAt lvl.tiles c Tile.EMPTY (by rw [ht]; simp)
    · rw [hlci2]
      simp [commitCore]
      rfl
    · rw [htic2]
      simp [commitCore]
      rfl
  · intro hct
    obtain ⟨tl, hsnake, hlen⟩ := commitCore_snakeLen g.core s d c Tile.BIG_ITEM hne
    obtain ⟨lvl, hl, ht⟩ := hlevel Tile.BIG_ITEM hct (by simp)
    rw [hct] at hlvl2 hsn2 hlci2 htic2
    refine ⟨?_, ⟨{ lvl with tiles := setTileAt lvl.tiles c Tile.EMPTY }, ?_, ?_⟩, ?_, ?_⟩
    · unfold Game.snakeLen
      rw [hsn2, hsnake]
      simpa using hlen
    · rw [hlvl2]
      show (if Tile.BIG_ITEM = Tile.ITEM ∨ Tile.BIG_ITEM = Tile.BIG_ITEM ∨
          Tile.BIG_ITEM = Tile.STAR_ITEM then
          g.core.currentLevel.map fun lvl =>
            { lvl with tiles := setTileAt lvl.tiles c Tile.EMPTY }
        else g.core.currentLevel) = _
      rw [if_pos (by simp)]
      show g.currentLevel.map _ = _
      rw [hl]
      rfl
    · exact tileAt_setTileAt lvl.tiles c Tile.EMPTY (by rw [ht]; simp)
    · rw [hlci2]
      simp [commitCore]
      rfl
    · rw [htic2]
      simp [commitCore]
      rfl
  · intro hct
    obtain ⟨tl, hsnake, hlen⟩ := commitCore_snakeLen g.core s d c Tile.STAR_ITEM hne
    obtain ⟨lvl, hl, ht⟩ := hlevel Tile.STAR_ITEM hct (by simp)
    rw [hct] at hlvl2 hsn2 hlci2 htic2 hstar2
    refine ⟨?_, ⟨{ lvl with tiles := setTileAt lvl.tiles c Tile.EMPTY }, ?_, ?_⟩,
      ?_, ?_, ?_⟩
    · unfold Game.snakeLen
      rw [hsn2, hsnake]
      simpa using hlen
    · rw [hlvl2]
      show (if Tile.STAR_ITEM = Tile.ITEM ∨ Tile.STAR_ITEM = Tile.BIG_ITEM ∨
          Tile.STAR_ITEM = Tile.STAR_ITEM then
          g.core.currentLevel.map fun lvl =>
            { lvl with tiles := setTileAt lvl.tiles c Tile.EMPTY }
        else g.core.currentLevel) = _
      rw [if_pos (by simp)]
      show g.currentLevel.map _ = _
      rw [hl]
      rfl
    · exact tileAt_setTileAt lvl.tiles c Tile.EMPTY (by rw [ht]; simp)
    · rw [hstar2]
      simp [commitCore]
    · rw [hlci2]
      simp [commitCore]
      rfl
    · rw [htic2]
      simp [commitCore]
      rfl

set_option maxRecDepth 8000 in
/-- Witness for C5: the first move of the items level lands on a BigItem
and grows the actor by exactly two while counting one pickup. -/
theorem item_collection_growth_witness :
    ((loadedPlaying levelItems false 1).tryMove "right" 0).2.snakeLen =
      (Snake.mkSnake levelItems.spawn levelItems.snakeLength
        levelItems.tiles).segments.length + 2 ∧
    ((loadedPlaying levelItems false 1).tryMove "right" 0).2.levelCollectedItems =
      (loadedPlaying levelItems false 1).levelCollectedItems + 1 ∧
    ((loadedPlaying levelItems false 1).tryMove "right" 0).2.totalItemsCollected =
      (loadedPlaying levelItems false 1).totalItemsCollected + 1 := by
  have h := (item_collection_growth (loadedPlaying levelItems false 1) "right" 0
    (Snake.mkSnake levelItems.spawn levelItems.snakeLength levelItems.tiles) ⟨2, 1⟩
    rfl (by decide) (by decide) (by decide)).2.1 (by decide)
  exact ⟨h.1, h.2.2.1, h.2.2.2⟩

/-- C6: star power decay on an accepted move — the counter drops by
exactly one when positive and the move is not the activation move, stays
put at zero, is set to the activation constant on the activation move,
never goes negative, and the star tick emits the one power_end
notification exactly when the counter reaches zero on that move. -/
theorem star_power_decay (g : Game) (d : String) (t : Int) (s : Snake) (c : Pos)
    (hsn : g.snake = some s) (hne : s.segments ≠ [])
    (hc : Game.getMoveCandidate s d = some c)
    (hacc : (g.tryMove d t).1 = true) :
    (g.getTile c.x c.y ≠ Tile.STAR_ITEM →
      (0 < g.starMovesRemaining →
        (g.tryMove d t).2.starMovesRemaining = g.starMovesRemaining - 1) ∧
      (g.starMovesRemaining ≤ 0 →
        (g.tryMove d t).2.starMovesRemaining = g.starMovesRemaining)) ∧
    (g.getTile c.x c.y = Tile.STAR_ITEM →
      (g.tryMove d t).2.starMovesRemaining = GAMEPLAY.STAR_POWER_MOVES) ∧
    (0 ≤ g.starMovesRemaining → 0 ≤ (g.tryMove d t).2.starMovesRemaining) ∧
    (∀ (g0 : Game) (b : Bool),
      (g0.tickStarPower b).eventQueue = g0.eventQueue ++
        (if 0 < g0.starMovesRemaining ∧ ¬ b ∧ g0.starMovesRemaining ≤ 1
         then [GEvent.power_end] else [])) := by
  obtain ⟨s', c', hst, hsn', hgate, hc', hce, hcommit⟩ := tryMove_accepted g d t hacc
  have hs : s' = s := by
    rw [hsn] at hsn'
    exact (Option.some.inj hsn').symm
  rw [hs] at hc' hcommit
  have hcc : c' = c := (Option.some.inj (hc.symm.trans hc')).symm
  rw [hcc] at hce hcommit
  obtain ⟨dv, hdv⟩ := getMoveCandidate_dir s d c hc
  have hcore := commitSteps_core g s d dv c (g.getTile c.x c.y) hst hsn hne hdv hc
  have hf := checkPost_fields (g.commitSteps s d c (g.getTile c.x c.y))
  have hstar2 : (g.tryMove d t).2.starMovesRemaining =
      (commitCore g.core s d c (g.getTile c.x c.y)).starMovesRemaining := by
    rw [hcommit]
    show ((g.commitSteps s d c (g.getTile c.x c.y)).checkPostMoveState).starMovesRemaining = _
    rw [hf.2.2.2.2.2.2.2.1]
    exact congrArg Core.starMovesRemaining hcore
  refine ⟨?_, ?_, ?_, ?_⟩
  · intro hct
    have hform : (commitCore g.core s d c (g.getTile c.x c.y)).starMovesRemaining =
        (if g.starMovesRemaining > 0 then
          (if g.starMovesRemaining - 1 ≤ 0 then 0 else g.starMovesRemaining - 1)
         else g.starMovesRemaining) := by
      unfold commitCore
      dsimp only
      simp only [hct, ite_false]
      rfl
    constructor
    · intro hpos
      rw [hstar2, hform, if_pos hpos]
      show (if g.starMovesRemaining - 1 ≤ 0 then 0 else g.starMovesRemaining - 1) = _
      by_cases h1 : g.starMovesRemaining - 1 ≤ 0
      · rw [if_pos h1]
        omega
      · rw [if_neg h1]
    · intro hneg
      rw [hstar2, hform, if_neg (by omega)]
  · intro hct
    rw [hstar2, hct]
    simp [commitCore]
  · intro hpos
    rw [hstar2]
    exact commitCore_star_nonneg g.core s d c (g.getTile c.x c.y) hpos
  · intro g0 b
    unfold Game.tickStarPower
    by_cases h1 : g0.starMovesRemaining > 0 ∧ ¬ (b = true)
    · rw [if_pos h1]
      dsimp only
      by_cases h2 : g0.starMovesRemaining - 1 ≤ 0
      · rw [if_pos h2, if_pos (⟨h1.1, h1.2, by omega⟩ :
          0 < g0.starMovesRemaining ∧ ¬ b = true ∧ g0.starMovesRemaining ≤ 1)]
        rfl
      · rw [if_neg h2, if_neg (fun h => h2 (by omega : g0.starMovesRemaining - 1 ≤ 0) :
          ¬ (0 < g0.starMovesRemaining ∧ ¬ b = true ∧ g0.starMovesRemaining ≤ 1))]
        simp
    · rw [if_neg h1, if_neg (fun h => h1 ⟨h.1, h.2.1⟩ :
        ¬ (0 < g0.starMovesRemaining ∧ ¬ b = true ∧ g0.starMovesRemaining ≤ 1))]
      simp

set_option maxRecDepth 8000 in
/-- Witness for C6: collecting the star on the star level arms the fixed
constant without a decrement, and a concrete tick at counter 1 emits the
one power_end notification. -/
theorem star_power_decay_witness :
    ((loadedPlaying levelStar false 1).tryMove "right" 0).2.starMovesRemaining =
      GAMEPLAY.STAR_POWER_MOVES ∧
    0 ≤ ((loadedPlaying levelStar false 1).tryMove "right" 0).2.starMovesRemaining := by
  have h := star_power_decay (loadedPlaying levelStar false 1) "right" 0
    (Snake.mkSnake levelStar.spawn levelStar.snakeLength levelStar.tiles) ⟨2, 1⟩
    rfl (by decide) (by decide) (by decide)
  exact ⟨h.2.1 (by decide), h.2.2.1 (by decide)⟩

/-- C7: portal warp correctness on an accepted move onto a portal tile —
the head, and only the head, is rewritten to the linked partner exactly
when a link exists and the partner tile is enterable; otherwise the
actor simply stands on the portal tile; and the link table is built once
per level load as the symmetric mapping between the first PortalA and
the first PortalB in row-major scan order. -/
theorem portal_warp_correct (g : Game) (d : String) (t : Int) (s : Snake) (c : Pos)
    (hsn : g.snake = some s) (hne : s.segments ≠ [])
    (hc : Game.getMoveCandidate s d = some c)
    (hacc : (g.tryMove d t).1 = true)
    (hpq : g.getTile c.x c.y = Tile.PORTAL_A ∨ g.getTile c.x c.y = Tile.PORTAL_B) :
    ((∃ dest, g.getPortalDestination c = some dest ∧
        g.canEnterTileType (g.getTile dest.x dest.y) = true ∧
        (g.tryMove d t).2.snake = some ⟨dest :: s.segments.dropLast, d⟩) ∨
      ((g.getPortalDestination c = none ∨
        ∃ dest, g.getPortalDestination c = some dest ∧
          g.canEnterTileType (g.getTile dest.x dest.y) = false) ∧
       (g.tryMove d t).2.snake = some ⟨c :: s.segments.dropLast, d⟩)) ∧
    (∀ (tiles : List (List Tile)) (a b : Pos),
      boardCells.find? (fun p => tileAt tiles p = Tile.PORTAL_A) = some a →
      boardCells.find? (fun p => tileAt tiles p = Tile.PORTAL_B) = some b →
      Game.buildPortalLinksOf tiles = [(a, b), (b, a)]) ∧
    (∀ (g0 : Game) (lvl : CurrentLevel),
      (g0.loadLevel lvl).portalLinks = Game.buildPortalLinksOf lvl.tiles) := by
  obtain ⟨s', c', hst, hsn', hgate, hc', hce, hcommit⟩ := tryMove_accepted g d t hacc
  have hs : s' = s := by
    rw [hsn] at hsn'
    exact (Option.some.inj hsn').symm
  rw [hs] at hc' hcommit
  have hcc : c' = c := (Option.some.inj (hc.symm.trans hc')).symm
  rw [hcc] at hce hcommit
  obtain ⟨dv, hdv⟩ := getMoveCandidate_dir s d c hc
  have hcore := commitSteps_core g s d dv c (g.getTile c.x c.y) hst hsn hne hdv hc
  have hf := checkPost_fields (g.commitSteps s d c (g.getTile c.x c.y))
  have hsn2 : (g.tryMove d t).2.snake =
      (commitCore g.core s d c (g.getTile c.x c.y)).snake := by
    rw [hcommit]
    show ((g.commitSteps s d c (g.getTile c.x c.y)).checkPostMoveState).snake = _
    rw [hf.1]
    exact congrArg Core.snake hcore
  refine ⟨?_, ?_, ?_⟩
  · rcases hfind : g.getPortalDestination c with _ | dest
    · refine Or.inr ⟨Or.inl rfl, ?_⟩
      have hf2 : (g.core.portalLinks.find? fun link => link.1 = c).map Prod.snd
          = none := hfind
      rcases hpq with h | h <;>
        · rw [hsn2, h]
          simp [commitCore, hf2]
    · have hf2 : (g.core.portalLinks.find? fun link => link.1 = c).map Prod.snd
          = some dest := hfind
      by_cases hce2 : g.canEnterTileType (g.getTile dest.x dest.y) = true
      · refine Or.inl ⟨dest, rfl, hce2, ?_⟩
        have hce3 : Game.canEnterT g.core.starMovesRemaining
            (Game.getTileL g.core.currentLevel dest.x dest.y) = true := hce2
        rcases hpq with h | h <;>
          · rw [hsn2, h]
            simp [commitCore, hf2, hce3]
      · refine Or.inr ⟨Or.inr ⟨dest, rfl, by simpa using hce2⟩, ?_⟩
        have hce3 : ¬ Game.canEnterT g.core.starMovesRemaining
            (Game.getTileL g.core.currentLevel dest.x dest.y) = true := hce2
        rcases hpq with h | h <;>
          · rw [hsn2, h]
            simp [commitCore, hf2, hce3]
  · intro tiles a b hA hB
    unfold Game.buildPortalLinksOf
    show (match boardCells.find? (fun p => tileAt tiles p = Tile.PORTAL_A),
        boardCells.find? (fun p => tileAt tiles p = Tile.PORTAL_B) with
      | some a, some b => [(a, b), (b, a)]
      | _, _ => ([] : List (Pos × Pos))) = _
    rw [hA, hB]
  · intro g0 lvl
    rfl

set_option maxRecDepth 8000 in
/-- Witness for C7: stepping onto the linked PortalA of the portal level
rewrites the head to the partner portal's cell. -/
theorem portal_warp_correct_witness :
    ((loadedPlaying levelPortal false 1).tryMove "right" 0).2.snake =
      some ⟨[⟨5, 3⟩], "right"⟩ := by
  have h := (portal_warp_correct (loadedPlaying levelPortal false 1) "right" 0
    (Snake.mkSnake levelPortal.spawn levelPortal.snakeLength levelPortal.tiles) ⟨2, 1⟩
    rfl (by decide) (by decide) (by decide) (Or.inl (by decide))).1
  rcases h with ⟨dest, hd, _, hsnk⟩ | ⟨hno, _⟩
  · have hdest : dest = ⟨5, 3⟩ := by
      have h5 : (loadedPlaying levelPortal false 1).getPortalDestination ⟨2, 1⟩ =
          some ⟨5, 3⟩ := by decide
      rw [h5] at hd
      exact (Option.some.inj hd).symm
    rw [hdest] at hsnk
    rw [hsnk]
    decide
  · exfalso
    rcases hno with hnone | ⟨dest, hd, hcf⟩
    · have h5 : (loadedPlaying levelPortal false 1).getPortalDestination ⟨2, 1⟩ =
          some ⟨5, 3⟩ := by decide
      rw [h5] at hnone
      cases hnone
    · have h5 : (loadedPlaying levelPortal false 1).getPortalDestination ⟨2, 1⟩ =
          some ⟨5, 3⟩ := by decide
      rw [h5] at hd
      have hdest : dest = ⟨5, 3⟩ := (Option.some.inj hd).symm
      rw [hdest] at hcf
      revert hcf
      decide

set_option maxRecDepth 8000 in
/-- C3 counterexample: the very first accepted move of the items level
lands on a BigItem; both growth segments are appended at the vacated
tail cell, so the actor immediately holds two segments on the same cell
during normal play. -/
theorem no_overlap_cex :
    ∃ g', stepPlaying (loadedPlaying levelItems false 1) ("right", 0) = some g' ∧
      ∃ s, g'.snake = some s ∧ ¬ s.segments.Nodup := by
  refine ⟨(stepPlaying (loadedPlaying levelItems false 1) ("right", 0)).getD
    (initGame false 1), by rfl, ?_⟩
  refine ⟨⟨[⟨2, 1⟩, ⟨1, 1⟩, ⟨1, 1⟩], "right"⟩, by decide, by decide⟩

/-- Membership is preserved by the stable descending insertion. -/
theorem mem_insertByScore (o x : String × Nat) :
    ∀ l : List (String × Nat), x ∈ insertByScore o l ↔ x = o ∨ x ∈ l := by
  intro l
  induction l with
  | nil => simp [insertByScore]
  | cons h t ih =>
    unfold insertByScore
    by_cases hle : o.2 ≤ h.2
    · rw [if_pos hle]
      simp [ih] <;> tauto
    · rw [if_neg hle]
      simp <;> tauto

/-- Membership is preserved by the openness sort. -/
theorem mem_sortByOpenness (l : List (String × Nat)) (x : String × Nat) :
    x ∈ sortByOpenness l ↔ x ∈ l := by
  have key : ∀ (l acc : List (String × Nat)),
      (x ∈ l.foldl (fun acc o => insertByScore o acc) acc ↔ x ∈ acc ∨ x ∈ l) := by
    intro l
    induction l with
    | nil => intro acc; simp
    | cons h t ih =>
      intro acc
      show x ∈ t.foldl _ (insertByScore h acc) ↔ _
      rw [ih (insertByScore h acc)]
      rw [mem_insertByScore h x acc]
      simp
      tauto
  rw [sortByOpenness, key l []]
  simp

/-- An option delivered by the dfs option list points at an unvisited
cell. -/
theorem dfsOptions_unvisited (tiles : List (List Tile)) (visited : List Pos)
    (x y : Int) (o : String × Nat) (dd : Pos)
    (ho : o ∈ dfsOptions tiles visited x y) (hdv : DIRECTIONS o.1 = some dd) :
    (⟨x + dd.x, y + dd.y⟩ : Pos) ∉ visited := by
  unfold dfsOptions at ho
  obtain ⟨dirName, hmem, hf⟩ := List.mem_filterMap.mp ho
  revert hf
  cases hD : DIRECTIONS dirName with
  | none => intro hf; cases hf
  | some d =>
    intro hf
    dsimp only at hf
    by_cases hcond : visited.contains (⟨x + d.x, y + d.y⟩ : Pos) = true ∨
        ¬ isWalkable tiles (x + d.x) (y + d.y) = true
    · rw [if_pos hcond] at hf
      cases hf
    · rw [if_neg hcond] at hf
      have h1 : o.1 = dirName := by
        have := congrArg Prod.fst (Option.some.inj hf)
        exact this.symm
      rw [h1, hD] at hdv
      have hdd : dd = d := Option.some.inj hdv.symm
      subst hdd
      intro hin
      exact hcond (Or.inl (by simpa using hin))

/-- A successful dfs result visits no cell twice when started on a
duplicate-free path covered by the visited set. -/
theorem dfsBuild_nodup (tiles : List (List Tile)) (len : Nat) :
    ∀ (fuel : Nat) (path visited : List Pos) (x y : Int) (r : List Pos),
      dfsBuild tiles len fuel path visited x y = some r →
      path.Nodup → path ⊆ visited → r.Nodup := by
  intro fuel
  induction fuel with
  | zero => intro path visited x y r h; cases h
  | succ n ih =>
    intro path visited x y r h hnd hsub
    rw [dfsBuild_succ] at h
    by_cases hl : len ≤ path.length
    · rw [if_pos hl] at h
      cases h
      exact hnd
    · rw [if_neg hl] at h
      rcases dfsStep_foldl_some tiles len n path visited x y _ _ _ h with h1 | ⟨o, ho, hf⟩
      · cases h1
      · unfold dfsStep at hf
        revert hf
        cases hD : DIRECTIONS o.1 with
        | none => intro hf; cases hf
        | some dd =>
          intro hf
          have hunv : (⟨x + dd.x, y + dd.y⟩ : Pos) ∉ visited :=
            dfsOptions_unvisited tiles visited x y o dd
              ((mem_sortByOpenness _ _).mp ho) hD
          have hnp : (⟨x + dd.x, y + dd.y⟩ : Pos) ∉ path :=
            fun hin => hunv (hsub hin)
          refine ih (path ++ [⟨x + dd.x, y + dd.y⟩])
            (visited ++ [⟨x + dd.x, y + dd.y⟩]) (x + dd.x) (y + dd.y) r hf ?_ ?_
          · rw [List.nodup_append]
            exact ⟨hnd, List.nodup_singleton _, by simpa using hnp⟩
          · intro p hp
            rcases List.mem_append.mp hp with hp | hp
            · exact List.mem_append.mpr (Or.inl (hsub hp))
            · exact List.mem_append.mpr (Or.inr hp)

/-- C3 (amended: the no-overlap guarantee belongs to the initial
placement, not to all of play — growth from a BigItem appends two
segments on the same vacated cell, see the counterexample). The
initial-placement search path never visits a cell twice; the placed
actor is that path plus tail-duplication padding, so it is
duplicate-free exactly when the search reached the required length. -/
theorem initial_placement_nodup (spawn : Pos) (len : Nat)
    (tiles : List (List Tile)) :
    (dfsPath spawn len tiles).Nodup ∧
    buildInitialSegments spawn len tiles =
      dfsPath spawn len tiles ++
        List.replicate (len - (dfsPath spawn len tiles).length)
          ((dfsPath spawn len tiles).getLastD ⟨0, 0⟩) ∧
    (len ≤ (dfsPath spawn len tiles).length →
      (buildInitialSegments spawn len tiles).Nodup) := by
  have hnd : (dfsPath spawn len tiles).Nodup := by
    unfold dfsPath
    cases hd : dfsBuild tiles len 302 [spawn] [spawn] spawn.x spawn.y with
    | none => simp
    | some r =>
      have := dfsBuild_nodup tiles len 302 [spawn] [spawn] spawn.x spawn.y r hd
        (List.nodup_singleton spawn) (fun p hp => hp)
      simpa using this
  refine ⟨hnd, rfl, ?_⟩
  intro hlen
  unfold buildInitialSegments padToLength
  rw [Nat.sub_eq_zero_of_le hlen]
  simpa using hnd

set_option maxRecDepth 8000 in
/-- Witness for the amended C3 theorem: the corridor level's placement
search reaches the required length, so the placed actor is
duplicate-free. -/
theorem initial_placement_nodup_witness :
    (buildInitialSegments levelCorridor.spawn levelCorridor.snakeLength
      levelCorridor.tiles).Nodup :=
  (initial_placement_nodup levelCorridor.spawn levelCorridor.snakeLength
    levelCorridor.tiles).2.2 (by decide)

/-- On a well-formed 20 by 15 grid the verifier's raw tile read agrees
with the engine's board test: a cell inside the board, nothing
otherwise. -/
theorem solveTileAt_spec (tiles : List (List Tile)) (x y : Int)
    (hrows : tiles.length = GRID_ROWS.toNat)
    (hcols : ∀ row ∈ tiles, row.length = GRID_COLS.toNat) :
    solveTileAt tiles x y =
      if Game.isInsideBoard x y then some (tileAt tiles ⟨x, y⟩) else none := by
  have hR : GRID_ROWS = 15 := rfl
  have hC : GRID_COLS = 20 := rfl
  have hRn : GRID_ROWS.toNat = 15 := rfl
  have hCn : GRID_COLS.toNat = 20 := rfl
  by_cases hin : x ≥ 0 ∧ y ≥ 0 ∧ x < GRID_COLS ∧ y < GRID_ROWS
  · have hI : Game.isInsideBoard x y = true := by
      simp only [Game.isInsideBoard]
      simp only [decide_eq_true_eq]
      exact hin
    rw [if_pos hI]
    have hy : y.toNat < tiles.length := by rw [hrows, hRn]; omega
    have hrow : tiles.get? y.toNat = some tiles[y.toNat] := by
      rw [List.get?_eq_getElem?]
      exact List.getElem?_eq_getElem hy
    have hmem : tiles[y.toNat] ∈ tiles := List.getElem_mem hy
    have hx : x.toNat < tiles[y.toNat].length := by
      rw [hcols tiles[y.toNat] hmem, hCn]
      omega
    have hcell : tiles[y.toNat].get? x.toNat = some tiles[y.toNat][x.toNat] := by
      rw [List.get?_eq_getElem?]
      exact List.getElem?_eq_getElem hx
    unfold solveTileAt
    rw [if_neg (by omega), hrow]
    dsimp only
    rw [hcell]
    unfold tileAt
    have h1 : tiles.getD y.toNat [] = tiles[y.toNat] := by
      simp [List.getD_eq_getElem?_getD, List.getElem?_eq_getElem hy]
    have h2 : tiles[y.toNat].getD x.toNat Tile.WALL = tiles[y.toNat][x.toNat] := by
      simp [List.getD_eq_getElem?_getD, List.getElem?_eq_getElem hx]
    rw [h1, h2]
  · have hI : ¬ Game.isInsideBoard x y = true := by
      simp only [Game.isInsideBoard]
      simp only [decide_eq_true_eq]
      exact hin
    rw [if_neg hI]
    unfold solveTileAt
    by_cases h0 : x < 0 ∨ y < 0
    · rw [if_pos h0]
    · rw [if_neg h0]
      by_cases hy : y < GRID_ROWS
      · have hx : ¬ x < GRID_COLS := by
          rw [hC] at *
          rw [hR] at hy
          omega
        have hylt : y.toNat < tiles.length := by rw [hrows, hRn]; omega
        have hrow : tiles.get? y.toNat = some tiles[y.toNat] := by
          rw [List.get?_eq_getElem?]
          exact List.getElem?_eq_getElem hylt
        rw [hrow]
        dsimp only
        have hmem : tiles[y.toNat] ∈ tiles := List.getElem_mem hylt
        have hxge : tiles[y.toNat].length ≤ x.toNat := by
          rw [hcols tiles[y.toNat] hmem, hCn]
          omega
        rw [List.get?_eq_getElem?, List.getElem?_eq_none hxge]
      · have hyge : tiles.length ≤ y.toNat := by
          rw [hrows, hRn]
          rw [hR] at hy
          omega
        rw [List.get?_eq_getElem?, List.getElem?_eq_none hyge]

set_option maxHeartbeats 1000000 in
/-- C2 (amended: the verifier shares the engine's rejection rule — Wall
always, Obstacle only without star power, board edges — and its
successor matches the engine exactly on plain tiles, but it is not an
exact refinement of the full accepted-move semantics: the verifier
ignores growth and tile consumption and warps on any portal of the
opposite kind without the engine's enterability test, see the
counterexample). -/
theorem verifier_matches_engine (lvl : CurrentLevel) (segs : List Pos)
    (dir0 : String) (star : Int) (d : String) (t : Int)
    (hrows : lvl.tiles.length = GRID_ROWS.toNat)
    (hcols : ∀ row ∈ lvl.tiles, row.length = GRID_COLS.toNat)
    (hne : segs ≠ []) :
    (((engineState lvl segs dir0 star).tryMove d t).1 = false ↔
      solveSuccessor lvl.tiles (portalList lvl.tiles Tile.PORTAL_A)
        (portalList lvl.tiles Tile.PORTAL_B) segs star d = none) ∧
    (∀ c, Game.getMoveCandidate ⟨segs, dir0⟩ d = some c →
      ((engineState lvl segs dir0 star).tryMove d t).1 = true →
      ((engineState lvl segs dir0 star).getTile c.x c.y = Tile.EMPTY ∨
       (engineState lvl segs dir0 star).getTile c.x c.y = Tile.EXIT) →
      solveSuccessor lvl.tiles (portalList lvl.tiles Tile.PORTAL_A)
        (portalList lvl.tiles Tile.PORTAL_B) segs star d =
        some (c :: segs.dropLast, if star > 0 then star - 1 else star) ∧
      ((engineState lvl segs dir0 star).tryMove d t).2.snake =
        some ⟨c :: segs.dropLast, d⟩ ∧
      ((engineState lvl segs dir0 star).tryMove d t).2.starMovesRemaining =
        (if star > 0 then star - 1 else star)) := by
  have hst : (engineState lvl segs dir0 star).state = GState.PLAYING := rfl
  have hsn : (engineState lvl segs dir0 star).snake = some ⟨segs, dir0⟩ := rfl
  have hgate : (engineState lvl segs dir0 star).gateBlocked = false := rfl
  have hlvl : (engineState lvl segs dir0 star).currentLevel = some lvl := rfl
  have hstareq : (engineState lvl segs dir0 star).starMovesRemaining = star := rfl
  have hsp := solveTileAt_spec lvl.tiles
  rcases hD : DIRECTIONS d with _ | dv
  · have hcand : Game.getMoveCandidate ⟨segs, dir0⟩ d = none := by
      unfold Game.getMoveCandidate
      rw [hD]
    constructor
    · constructor
      · intro _
        unfold solveSuccessor
        rw [hD]
      · intro _
        unfold Game.tryMove
        simp [hst, hsn, hgate, hcand]
    · intro c hc
      rw [hcand] at hc
      cases hc
  · set hd0 : Pos := segs.headD ⟨0, 0⟩ with hhd
    set c0 : Pos := ⟨hd0.x + dv.x, hd0.y + dv.y⟩ with hc0
    have hcand : Game.getMoveCandidate ⟨segs, dir0⟩ d = some c0 := by
      unfold Game.getMoveCandidate
      rw [hD]
      rfl
    have hvtile : solveSuccessor lvl.tiles (portalList lvl.tiles Tile.PORTAL_A)
        (portalList lvl.tiles Tile.PORTAL_B) segs star d =
        (match solveTileAt lvl.tiles c0.x c0.y with
         | none => none
         | some tile =>
           if tile = Tile.WALL then none
           else if tile = Tile.OBSTACLE ∧ ¬ (star > 0) then none
           else
             let nextSegments := c0 :: segs.dropLast
             let nextStarMoves : Int :=
               if tile = Tile.STAR_ITEM then GAMEPLAY.STAR_POWER_MOVES
               else if star > 0 then star - 1
               else star
             let nextSegments :=
               if tile = Tile.PORTAL_A ∧ portalList lvl.tiles Tile.PORTAL_B ≠ [] then
                 (portalList lvl.tiles Tile.PORTAL_B).headD ⟨0, 0⟩ :: nextSegments.tail
               else if tile = Tile.PORTAL_B ∧ portalList lvl.tiles Tile.PORTAL_A ≠ [] then
                 (portalList lvl.tiles Tile.PORTAL_A).headD ⟨0, 0⟩ :: nextSegments.tail
               else nextSegments
             some (nextSegments, nextStarMoves)) := by
      unfold solveSuccessor
      rw [hD]
    have hgt : (engineState lvl segs dir0 star).getTile c0.x c0.y =
        (if Game.isInsideBoard c0.x c0.y then tileAt lvl.tiles c0 else Tile.WALL) := by
      show Game.getTileL (engineState lvl segs dir0 star).currentLevel c0.x c0.y = _
      rw [hlvl]
      unfold Game.getTileL
      rfl
    by_cases hins : Game.isInsideBoard c0.x c0.y = true
    · have hgt2 : (engineState lvl segs dir0 star).getTile c0.x c0.y =
          tileAt lvl.tiles c0 := by rw [hgt, if_pos hins]
      have hstile : solveTileAt lvl.tiles c0.x c0.y = some (tileAt lvl.tiles c0) := by
        rw [hsp c0.x c0.y hrows hcols, if_pos hins]
      have hcanEq : (engineState lvl segs dir0 star).canEnterTileType
          ((engineState lvl segs dir0 star).getTile c0.x c0.y) =
          Game.canEnterT star (tileAt lvl.tiles c0) := by
        rw [hgt2]
        rfl
      constructor
      · constructor
        · intro hrej
          have hcf : ¬ (engineState lvl segs dir0 star).canEnterTileType
              ((engineState lvl segs dir0 star).getTile c0.x c0.y) = true := by
            intro hcc
            have := tryMove_accepts (engineState lvl segs dir0 star) d t _ c0
              hst hsn hgate hcand hcc
            rw [this] at hrej
            cases hrej
          rw [hcanEq] at hcf
          rw [hvtile, hstile]
          unfold Game.canEnterT at hcf
          by_cases hw : tileAt lvl.tiles c0 = Tile.WALL
          · dsimp only
            rw [if_pos hw]
          · rw [if_neg hw] at hcf
            by_cases hob : tileAt lvl.tiles c0 = Tile.OBSTACLE ∧ ¬ (star > 0)
            · dsimp only
              rw [if_neg hw, if_pos hob]
            · rw [if_neg hob] at hcf
              simp at hcf
        · intro hv
          rw [hvtile, hstile] at hv
          unfold Game.tryMove
          simp only [hst, hsn, hgate, hcand]
          dsimp only
          have hcf : (engineState lvl segs dir0 star).canEnterTileType
              ((engineState lvl segs dir0 star).getTile c0.x c0.y) = false := by
            rw [hcanEq]
            unfold Game.canEnterT
            by_cases hw : tileAt lvl.tiles c0 = Tile.WALL
            · rw [if_pos hw]
            · rw [if_neg hw]
              by_cases hob : tileAt lvl.tiles c0 = Tile.OBSTACLE ∧ ¬ (star > 0)
              · rw [if_pos hob]
              · exfalso
                revert hv
                dsimp only
                rw [if_neg hw, if_neg hob]
                intro hv
                cases hv
          simp [hst, hsn, hgate, hcand, hcf]
      · intro c hc hacc hplain
        have hcc0 : c = c0 := Option.some.inj (hcand.symm.trans hc).symm
        subst hcc0
        rw [hgt2] at hplain
        have hnw : tileAt lvl.tiles c0 ≠ Tile.WALL := by
          rcases hplain with h | h <;> rw [h] <;> simp
        have hnob : ¬ (tileAt lvl.tiles c0 = Tile.OBSTACLE ∧ ¬ (star > 0)) := by
          rcases hplain with h | h <;> rw [h] <;> simp
        have hnst : tileAt lvl.tiles c0 ≠ Tile.STAR_ITEM := by
          rcases hplain with h | h <;> rw [h] <;> simp
        have hnpa : tileAt lvl.tiles c0 ≠ Tile.PORTAL_A := by
          rcases hplain with h | h <;> rw [h] <;> simp
        have hnpb : tileAt lvl.tiles c0 ≠ Tile.PORTAL_B := by
          rcases hplain with h | h <;> rw [h] <;> simp
        refine ⟨?_, ?_⟩
        · rw [hvtile, hstile]
          dsimp only
          rw [if_neg hnw, if_neg hnob]
          simp only [hnst, ite_false, hnpa, hnpb, false_and, if_false]
        · obtain ⟨s', c', hst', hsn', hgate', hc', hce', hcommit⟩ :=
            tryMove_accepted (engineState lvl segs dir0 star) d t hacc
          have hs : s' = (⟨segs, dir0⟩ : Snake) := by
            rw [hsn] at hsn'
            exact (Option.some.inj hsn').symm
          rw [hs] at hc' hcommit
          have hcc : c' = c0 := (Option.some.inj (hcand.symm.trans hc')).symm
          rw [hcc] at hcommit
          obtain ⟨dv', hdv'⟩ := getMoveCandidate_dir _ d c0 hcand
          have hcore := commitSteps_core (engineState lvl segs dir0 star)
            ⟨segs, dir0⟩ d dv' c0 ((engineState lvl segs dir0 star).getTile c0.x c0.y)
            hst hsn hne hdv' hcand
          have hf := checkPost_fields ((engineState lvl segs dir0 star).commitSteps
            ⟨segs, dir0⟩ d c0 ((engineState lvl segs dir0 star).getTile c0.x c0.y))
          have hsn2 : ((engineState lvl segs dir0 star).tryMove d t).2.snake =
              (commitCore (engineState lvl segs dir0 star).core ⟨segs, dir0⟩ d c0
                ((engineState lvl segs dir0 star).getTile c0.x c0.y)).snake := by
            rw [hcommit]
            show (((engineState lvl segs dir0 star).commitSteps ⟨segs, dir0⟩ d c0
              ((engineState lvl segs dir0 star).getTile c0.x c0.y)).checkPostMoveState).snake = _
            rw [hf.1]
            exact congrArg Core.snake hcore
          have hstar2 : ((engineState lvl segs dir0 star).tryMove d t).2.starMovesRemaining =
              (commitCore (engineState lvl segs dir0 star).core ⟨segs, dir0⟩ d c0
                ((engineState lvl segs dir0 star).getTile c0.x c0.y)).starMovesRemaining := by
            rw [hcommit]
            show (((engineState lvl segs dir0 star).commitSteps ⟨segs, dir0⟩ d c0
              ((engineState lvl segs dir0 star).getTile c0.x c0.y)).checkPostMoveState).starMovesRemaining = _
            rw [hf.2.2.2.2.2.2.2.1]
            exact congrArg Core.starMovesRemaining hcore
          rw [hgt2] at hsn2 hstar2
          constructor
          · rw [hsn2]
            unfold commitCore
            dsimp only
            simp only [hnst, hnpa, hnpb, ite_false, if_false]
            rcases hplain with h | h <;>
              · rw [h]
                simp
          · rw [hstar2]
            unfold commitCore
            dsimp only
            simp only [hnst, ite_false]
            show (if star > 0 then (if star - 1 ≤ 0 then 0 else star - 1) else star) = _
            by_cases hpos : star > 0
            · rw [if_pos hpos, if_pos hpos]
              by_cases h1 : star - 1 ≤ 0
              · rw [if_pos h1]
                omega
              · rw [if_neg h1]
            · rw [if_neg hpos, if_neg hpos]
    · have hgt2 : (engineState lvl segs dir0 star).getTile c0.x c0.y = Tile.WALL := by
        rw [hgt, if_neg hins]
      have hstile : solveTileAt lvl.tiles c0.x c0.y = none := by
        rw [hsp c0.x c0.y hrows hcols, if_neg hins]
      have hcf : (engineState lvl segs dir0 star).canEnterTileType
          ((engineState lvl segs dir0 star).getTile c0.x c0.y) = false := by
        rw [hgt2]
        rfl
      constructor
      · constructor
        · intro _
          rw [hvtile, hstile]
        · intro _
          unfold Game.tryMove
          simp [hst, hsn, hgate, hcand, hcf]
      · intro c hc hacc hplain
        have hcc0 : c = c0 := Option.some.inj (hcand.symm.trans hc).symm
        subst hcc0
        rw [hgt2] at hplain
        rcases hplain with h | h <;> cases h

set_option maxRecDepth 8000 in
/-- Witness for the amended C2 theorem: a plain corridor step, where the
verifier's rejection test and successor agree exactly with the engine. -/
theorem verifier_matches_engine_witness :
    solveSuccessor levelCorridor.tiles (portalList levelCorridor.tiles Tile.PORTAL_A)
      (portalList levelCorridor.tiles Tile.PORTAL_B) [⟨1, 1⟩] 0 "right" =
      some ([⟨2, 1⟩], 0) ∧
    ((engineState levelCorridor [⟨1, 1⟩] "right" 0).tryMove "right" 0).2.snake =
      some ⟨[⟨2, 1⟩], "right"⟩ := by
  have h := (verifier_matches_engine levelCorridor [⟨1, 1⟩] "right" 0 "right" 0
    (by decide) (by decide) (by decide)).2 ⟨2, 1⟩ (by decide) (by decide)
    (Or.inl (by decide))
  exact ⟨by simpa using h.1, by simpa using h.2.1⟩

set_option maxRecDepth 8000 in
/-- C2 counterexample: on a BigItem tile the engine's accepted move grows
the actor to three segments and consumes the tile, while the verifier's
successor keeps a single segment — the verifier does not share the full
accepted-move semantics. -/
theorem verifier_matches_engine_cex :
    ((engineState levelItems [⟨1, 1⟩] "right" 0).tryMove "right" 0).1 = true ∧
    ((engineState levelItems [⟨1, 1⟩] "right" 0).tryMove "right" 0).2.snake =
      some ⟨[⟨2, 1⟩, ⟨1, 1⟩, ⟨1, 1⟩], "right"⟩ ∧
    solveSuccessor levelItems.tiles (portalList levelItems.tiles Tile.PORTAL_A)
      (portalList levelItems.tiles Tile.PORTAL_B) [⟨1, 1⟩] 0 "right" =
      some ([⟨2, 1⟩], 0) ∧
    ¬ ([(⟨2, 1⟩ : Pos), ⟨1, 1⟩, ⟨1, 1⟩] = [(⟨2, 1⟩ : Pos)]) :=
  ⟨by decide, by decide, by decide, by decide⟩

/-- Only the spawn symbol parses to the Spawn tile. -/
theorem charToTile_spawn (c : Char) : charToTile c = .ok Tile.SPAWN ↔ c = 'S' := by
  constructor
  · intro h
    by_contra hne
    unfold charToTile at h
    split_ifs at h <;> simp_all
  · intro h
    subst h
    rfl

/-- Only the exit symbol parses to the Exit tile. -/
theorem charToTile_exit (c : Char) : charToTile c = .ok Tile.EXIT ↔ c = 'E' := by
  constructor
  · intro h
    by_contra hne
    unfold charToTile at h
    split_ifs at h <;> simp_all
  · intro h
    subst h
    rfl

/-- The cell loop succeeds exactly when every character is a known
symbol and the row adds at most one spawn beyond the one already seen. -/
theorem parseCells_ok_iff (y : Nat) :
    ∀ (row : List Char) (x : Nat) (spawn : Option Pos) (exits : Nat),
      (∃ out, parseCells y x row spawn exits = .ok out) ↔
        ((∀ c ∈ row, (charToTile c).isOk) ∧
         row.count 'S' + (if spawn.isSome then 1 else 0) ≤ 1) := by
  intro row
  induction row with
  | nil =>
    intro x spawn exits
    constructor
    · intro _
      refine ⟨by simp, ?_⟩
      cases spawn <;> simp
    · intro _
      exact ⟨_, rfl⟩
  | cons c rest ih =>
    intro x spawn exits
    have hstep : parseCells y x (c :: rest) spawn exits =
        (match charToTile c with
         | .error e => .error e
         | .ok tile =>
           if tile = Tile.SPAWN then
             match spawn with
             | some _ => .error "multiple spawn points"
             | none =>
               match parseCells y (x + 1) rest (some ⟨(x : Int), (y : Int)⟩) exits with
               | .error e => .error e
               | .ok out => .ok (Tile.EMPTY :: out.1, out.2)
           else
             match parseCells y (x + 1) rest spawn
                 (if tile = Tile.EXIT then exits + 1 else exits) with
             | .error e => .error e
             | .ok out => .ok (tile :: out.1, out.2)) := rfl
    rw [hstep]
    cases hct : charToTile c with
    | error e =>
      dsimp only
      constructor
      · rintro ⟨out, hout⟩
        cases hout
      · rintro ⟨hknown, -⟩
        have := hknown c (List.mem_cons_self c rest)
        rw [hct] at this
        cases this
    | ok tile =>
      by_cases hsp : tile = Tile.SPAWN
      · subst hsp
        have hcS : c = 'S' := (charToTile_spawn c).mp hct
        subst hcS
        dsimp only
        rw [if_pos rfl]
        cases spawn with
        | some p =>
          constructor
          · rintro ⟨out, hout⟩
            cases hout
          · rintro ⟨-, hcount⟩
            simp [List.count_cons] at hcount
          | none =>
          constructor
          · rintro ⟨out, hout⟩
            revert hout
            cases hrec : parseCells y (x + 1) rest (some ⟨(x : Int), (y : Int)⟩) exits with
            | error e => intro hout; cases hout
            | ok out2 =>
              intro hout
              have hx := (ih (x + 1) (some ⟨(x : Int), (y : Int)⟩) exits).mp ⟨out2, hrec⟩
              refine ⟨?_, ?_⟩
              · intro c hc
                rcases List.mem_cons.mp hc with h | h
                · subst h
                  rw [hct]
                  rfl
                · exact hx.1 c h
              · have := hx.2
                simp at this
                simp [List.count_cons, this]
          · rintro ⟨hknown, hcount⟩
            have hrest := (ih (x + 1) (some ⟨(x : Int), (y : Int)⟩) exits).mpr
              ⟨fun c hc => hknown c (List.mem_cons_of_mem _ hc), ?_⟩
            · obtain ⟨out2, hrec⟩ := hrest
              rw [hrec]
              exact ⟨_, rfl⟩
            · simp [List.count_cons] at hcount
              simp [hcount]
      · have hcS : c ≠ 'S' := by
          intro h
          subst h
          exact hsp (Except.ok.inj
            ((rfl : charToTile 'S' = Except.ok Tile.SPAWN).symm.trans hct)).symm
        dsimp only
        rw [if_neg hsp]
        constructor
        · rintro ⟨out, hout⟩
          revert hout
          cases hrec : parseCells y (x + 1) rest spawn
              (if tile = Tile.EXIT then exits + 1 else exits) with
          | error e => intro hout; cases hout
          | ok out2 =>
            intro hout
            have hx := (ih (x + 1) spawn _).mp ⟨out2, hrec⟩
            refine ⟨?_, ?_⟩
            · intro c' hc'
              rcases List.mem_cons.mp hc' with h | h
              · subst h
                rw [hct]
                rfl
              · exact hx.1 c' h
            · simpa [List.count_cons, hcS] using hx.2
        · rintro ⟨hknown, hcount⟩
          have hcount2 : rest.count 'S' + (if spawn.isSome then 1 else 0) ≤ 1 := by
            simpa [List.count_cons, hcS] using hcount
          obtain ⟨out2, hrec⟩ := (ih (x + 1) spawn
            (if tile = Tile.EXIT then exits + 1 else exits)).mpr
            ⟨fun c' hc' => hknown c' (List.mem_cons_of_mem _ hc'), hcount2⟩
          rw [hrec]
          exact ⟨_, rfl⟩

/-- What a successful cell loop returns: one tile per character, the
exit count accumulated, and either the spawn passed through untouched
past a spawn-free row, or — starting with no spawn — the single recorded
spawn coordinate, whose cell is stored as the Empty tile. -/
theorem parseCells_out (y : Nat) :
    ∀ (row : List Char) (x : Nat) (spawn : Option Pos) (exits : Nat) out,
      parseCells y x row spawn exits = .ok out →
      out.1.length = row.length ∧
      out.2.2 = exits + row.count 'E' ∧
      ((out.2.1 = spawn ∧ row.count 'S' = 0) ∨
       (spawn = none ∧ ∃ i, i < row.length ∧ row.getD i ' ' = 'S' ∧
         out.1.getD i Tile.WALL = Tile.EMPTY ∧
         out.2.1 = some ⟨((x + i : Nat) : Int), (y : Int)⟩)) := by
  intro row
  induction row with
  | nil =>
    intro x spawn exits out hout
    cases hout
    refine ⟨rfl, by simp, Or.inl ⟨rfl, rfl⟩⟩
  | cons c rest ih =>
    intro x spawn exits out
    have hstep : parseCells y x (c :: rest) spawn exits =
        (match charToTile c with
         | .error e => .error e
         | .ok tile =>
           if tile = Tile.SPAWN then
             match spawn with
             | some _ => .error "multiple spawn points"
             | none =>
               match parseCells y (x + 1) rest (some ⟨(x : Int), (y : Int)⟩) exits with
               | .error e => .error e
               | .ok out => .ok (Tile.EMPTY :: out.1, out.2)
           else
             match parseCells y (x + 1) rest spawn
                 (if tile = Tile.EXIT then exits + 1 else exits) with
             | .error e => .error e
             | .ok out => .ok (tile :: out.1, out.2)) := rfl
    rw [hstep]
    cases hct : charToTile c with
    | error e => intro hout; cases hout
    | ok tile =>
      dsimp only
      by_cases hsp : tile = Tile.SPAWN
      · subst hsp
        have hcS : c = 'S' := (charToTile_spawn c).mp hct
        subst hcS
        rw [if_pos rfl]
        cases spawn with
        | some p => intro hout; cases hout
        | none =>
          cases hrec : parseCells y (x + 1) rest (some ⟨(x : Int), (y : Int)⟩) exits with
          | error e => intro hout; cases hout
          | ok out2 =>
            intro hout
            cases hout
            obtain ⟨hlen, hex, hsp2⟩ := ih (x + 1) (some ⟨(x : Int), (y : Int)⟩) exits out2 hrec
            refine ⟨by simpa using hlen, by simpa [List.count_cons] using hex, ?_⟩
            rcases hsp2 with ⟨hpass, -⟩ | ⟨hnone, -⟩
            · refine Or.inr ⟨rfl, 0, by simp, by simp, by simp, ?_⟩
              simpa using hpass
            · cases hnone
      · have hcS : c ≠ 'S' := by
          intro h
          subst h
          exact hsp (Except.ok.inj
            ((rfl : charToTile 'S' = Except.ok Tile.SPAWN).symm.trans hct)).symm
        rw [if_neg hsp]
        cases hrec : parseCells y (x + 1) rest spawn
            (if tile = Tile.EXIT then exits + 1 else exits) with
        | error e => intro hout; cases hout
        | ok out2 =>
          intro hout
          cases hout
          obtain ⟨hlen, hex, hsp2⟩ := ih (x + 1) spawn _ out2 hrec
          have hexit : (if tile = Tile.EXIT then exits + 1 else exits) + rest.count 'E'
              = exits + (c :: rest).count 'E' := by
            by_cases hE : tile = Tile.EXIT
            · have hcE : c = 'E' := (charToTile_exit c).mp (hE ▸ hct)
              subst hcE
              rw [if_pos hE]
              simp [List.count_cons]
              omega
            · have hcE : c ≠ 'E' := by
                intro h
                subst h
                exact hE (Except.ok.inj
                  ((rfl : charToTile 'E' = Except.ok Tile.EXIT).symm.trans hct)).symm
              rw [if_neg hE]
              simp [List.count_cons, hcE]
          refine ⟨by simpa using hlen, by rw [← hexit]; simpa using hex, ?_⟩
          rcases hsp2 with ⟨hpass, hcount⟩ | ⟨hnone, i, hi, hS, hT, hout2⟩
          · exact Or.inl ⟨hpass, by simp [List.count_cons, hcS, hcount]⟩
          · refine Or.inr ⟨hnone, i + 1, by simpa using hi, by simpa using hS,
              by simpa using hT, ?_⟩
            rw [hout2]
            congr 2
            omega

/-- The row loop succeeds exactly when every row has the fixed column
count, every character is a known symbol, and the whole block adds at
most one spawn beyond the one already seen. -/
theorem parseRows_ok_iff :
    ∀ (rows : List (List Char)) (y : Nat) (spawn : Option Pos) (exits : Nat),
      (∃ out, parseRows y rows spawn exits = .ok out) ↔
        ((∀ row ∈ rows, row.length = GRID_COLS.toNat) ∧
         (∀ row ∈ rows, ∀ c ∈ row, (charToTile c).isOk) ∧
         (rows.map (fun r => r.count 'S')).sum +
           (if spawn.isSome then 1 else 0) ≤ 1) := by
  intro rows
  induction rows with
  | nil =>
    intro y spawn exits
    constructor
    · intro _
      refine ⟨by simp, by simp, ?_⟩
      cases spawn <;> simp
    · intro _
      exact ⟨_, rfl⟩
  | cons row rest ih =>
    intro y spawn exits
    have hstep : parseRows y (row :: rest) spawn exits =
        (if row.length ≠ GRID_COLS.toNat then .error "invalid col count"
         else
           match parseCells y 0 row spawn exits with
           | .error e => .error e
           | .ok rowOut =>
             match parseRows (y + 1) rest rowOut.2.1 rowOut.2.2 with
             | .error e => .error e
             | .ok out => .ok (rowOut.1 :: out.1, out.2)) := rfl
    rw [hstep]
    by_cases hcol : row.length = GRID_COLS.toNat
    · rw [if_neg (not_not_intro hcol)]
      cases hcells : parseCells y 0 row spawn exits with
      | error e =>
        dsimp only
        constructor
        · rintro ⟨out, hout⟩
          cases hout
        · rintro ⟨-, hknown, hsum⟩
          have hrow : row.count 'S' + (if spawn.isSome then 1 else 0) ≤ 1 := by
            simp only [List.map_cons, List.sum_cons] at hsum
            omega
          obtain ⟨o, ho⟩ := (parseCells_ok_iff y row 0 spawn exits).mpr
            ⟨hknown row (List.mem_cons_self row rest), hrow⟩
          rw [hcells] at ho
          cases ho
      | ok rowOut =>
        dsimp only
        have hrowfacts := (parseCells_ok_iff y row 0 spawn exits).mp ⟨rowOut, hcells⟩
        obtain ⟨-, -, hspfact⟩ := parseCells_out y row 0 spawn exits rowOut hcells
        constructor
        · rintro ⟨out, hout⟩
          revert hout
          cases hrec : parseRows (y + 1) rest rowOut.2.1 rowOut.2.2 with
          | error e => intro hout; cases hout
          | ok out2 =>
            intro hout
            have hx := (ih (y + 1) rowOut.2.1 rowOut.2.2).mp ⟨out2, hrec⟩
            refine ⟨?_, ?_, ?_⟩
            · intro r hr
              rcases List.mem_cons.mp hr with h | h
              · subst h; exact hcol
              · exact hx.1 r h
            · intro r hr
              rcases List.mem_cons.mp hr with h | h
              · subst h; exact hrowfacts.1
              · exact hx.2.1 r h
            · simp only [List.map_cons, List.sum_cons]
              rcases hspfact with ⟨hpass, hcnt0⟩ | ⟨hnone, i, hi, hS, -, hsome⟩
              · have h2 := hx.2.2
                rw [hpass] at h2
                omega
              · have hflagR : (if (rowOut.2.1).isSome then (1 : Nat) else 0) = 1 := by
                  rw [hsome]; rfl
                have hflag0 : (if spawn.isSome then (1 : Nat) else 0) = 0 := by
                  rw [hnone]; rfl
                have h2 := hx.2.2
                have hrow1 := hrowfacts.2
                omega
        · rintro ⟨hcols, hknown, hsum⟩
          simp only [List.map_cons, List.sum_cons] at hsum
          have hrestcond : (rest.map (fun r => r.count 'S')).sum +
              (if (rowOut.2.1).isSome then 1 else 0) ≤ 1 := by
            rcases hspfact with ⟨hpass, hcnt0⟩ | ⟨hnone, i, hi, hS, -, hsome⟩
            · rw [hpass]
              omega
            · have hflagR : (if (rowOut.2.1).isSome then (1 : Nat) else 0) = 1 := by
                rw [hsome]; rfl
              have hflag0 : (if spawn.isSome then (1 : Nat) else 0) = 0 := by
                rw [hnone]; rfl
              have hmem : 'S' ∈ row := by
                rw [List.getD_eq_getElem row ' ' hi] at hS
                rw [← hS]
                exact List.getElem_mem hi
              have hpos : 0 < row.count 'S' := List.count_pos_iff.mpr hmem
              omega
          obtain ⟨out2, hrec⟩ := (ih (y + 1) rowOut.2.1 rowOut.2.2).mpr
            ⟨fun r hr => hcols r (List.mem_cons_of_mem _ hr),
             fun r hr => hknown r (List.mem_cons_of_mem _ hr), hrestcond⟩
          rw [hrec]
          exact ⟨_, rfl⟩
    · rw [if_pos hcol]
      constructor
      · rintro ⟨out, hout⟩
        cases hout
      · rintro ⟨hcols, -, -⟩
        exact absurd (hcols row (List.mem_cons_self row rest)) hcol

/-- What a successful row loop returns: one tile row per map row, the
exit count accumulated across all rows, and either the spawn passed
through a spawn-free block, or — starting with no spawn — the single
recorded spawn coordinate, whose cell is stored as the Empty tile. -/
theorem parseRows_out :
    ∀ (rows : List (List Char)) (y : Nat) (spawn : Option Pos) (exits : Nat) out,
      parseRows y rows spawn exits = .ok out →
      out.1.length = rows.length ∧
      out.2.2 = exits + (rows.map (fun r => r.count 'E')).sum ∧
      ((out.2.1 = spawn ∧ (rows.map (fun r => r.count 'S')).sum = 0) ∨
       (spawn = none ∧ ∃ j i, j < rows.length ∧ i < (rows.getD j []).length ∧
         (rows.getD j []).getD i ' ' = 'S' ∧
         (out.1.getD j []).getD i Tile.WALL = Tile.EMPTY ∧
         out.2.1 = some ⟨(i : Int), ((y + j : Nat) : Int)⟩)) := by
  intro rows
  induction rows with
  | nil =>
    intro y spawn exits out hout
    cases hout
    exact ⟨rfl, by simp, Or.inl ⟨rfl, by simp⟩⟩
  | cons row rest ih =>
    intro y spawn exits out
    have hstep : parseRows y (row :: rest) spawn exits =
        (if row.length ≠ GRID_COLS.toNat then .error "invalid col count"
         else
           match parseCells y 0 row spawn exits with
           | .error e => .error e
           | .ok rowOut =>
             match parseRows (y + 1) rest rowOut.2.1 rowOut.2.2 with
             | .error e => .error e
             | .ok out => .ok (rowOut.1 :: out.1, out.2)) := rfl
    rw [hstep]
    by_cases hcol : row.length = GRID_COLS.toNat
    · rw [if_neg (not_not_intro hcol)]
      cases hcells : parseCells y 0 row spawn exits with
      | error e => intro hout; cases hout
      | ok rowOut =>
        dsimp only
        cases hrec : parseRows (y + 1) rest rowOut.2.1 rowOut.2.2 with
        | error e => intro hout; cases hout
        | ok out2 =>
          intro hout
          cases hout
          dsimp only
          obtain ⟨hlenC, hexC, hspC⟩ := parseCells_out y row 0 spawn exits rowOut hcells
          obtain ⟨hlenR, hexR, hspR⟩ := ih (y + 1) rowOut.2.1 rowOut.2.2 out2 hrec
          refine ⟨by simp [hlenR], ?_, ?_⟩
          · simp only [List.map_cons, List.sum_cons]
            omega
          · rcases hspR with ⟨hpassR, hzR⟩ | ⟨hnoneR, j, i, hj, hi, hS, hT, hsomeR⟩
            · rcases hspC with ⟨hpassC, hzC⟩ | ⟨hnoneC, i, hi, hS, hT, hsomeC⟩
              · refine Or.inl ⟨by rw [hpassR, hpassC], ?_⟩
                simp only [List.map_cons, List.sum_cons]
                omega
              · refine Or.inr ⟨hnoneC, 0, i, by simp, by simpa using hi,
                  by simpa using hS, by simpa using hT, ?_⟩
                rw [hpassR, hsomeC]
                simp only [Option.some.injEq, Pos.mk.injEq]
                omega
            · rcases hspC with ⟨hpassC, hzC⟩ | ⟨hnoneC, i2, hi2, hS2, hT2, hsomeC⟩
              · refine Or.inr ⟨by rw [← hpassC]; exact hnoneR, j + 1, i,
                  by simpa using hj, by simpa using hi, by simpa using hS,
                  by simpa using hT, ?_⟩
                have h3 : y + 1 + j = y + (j + 1) := by omega
                rw [hsomeR, h3]
              · rw [hsomeC] at hnoneR
                cases hnoneR
    · rw [if_pos hcol]
      intro hout
      cases hout

/-- C9: parseMap accepts a level definition exactly when the map has the
fixed 15-row by 20-column shape, every character is a known tile symbol,
exactly one Spawn is present, and at least one Exit is present; every
other input yields a structural error; and on success the single spawn
coordinate is the recorded spawn, whose cell is stored as the Empty tile
kind. -/
theorem parse_map_validates (ld : LevelDef) :
    ((parseMap ld).isOk ↔
      (ld.map.length = GRID_ROWS.toNat ∧
       (∀ row ∈ ld.map, row.length = GRID_COLS.toNat) ∧
       (∀ row ∈ ld.map, ∀ c ∈ row, (charToTile c).isOk) ∧
       (ld.map.map (fun r => r.count 'S')).sum = 1 ∧
       1 ≤ (ld.map.map (fun r => r.count 'E')).sum)) ∧
    ∀ pl, parseMap ld = .ok pl →
      charAt ld.map pl.spawn = 'S' ∧ tileAt pl.tiles pl.spawn = Tile.EMPTY := by
  have hflag : (if (none : Option Pos).isSome then (1 : Nat) else 0) = 0 := rfl
  constructor
  · constructor
    · intro hok
      have hexv : ∃ v, parseMap ld = .ok v := by
        cases hm : parseMap ld with
        | error e => rw [hm] at hok; exact Bool.noConfusion hok
        | ok v => exact ⟨v, rfl⟩
      obtain ⟨v, hv⟩ := hexv
      unfold parseMap at hv
      by_cases hrows : ld.map.length = GRID_ROWS.toNat
      · rw [if_neg (not_not_intro hrows)] at hv
        cases hpr : parseRows 0 ld.map none 0 with
        | error e => rw [hpr] at hv; cases hv
        | ok out =>
          rw [hpr] at hv
          dsimp only at hv
          obtain ⟨hcols, hknown, hsum⟩ := (parseRows_ok_iff ld.map 0 none 0).mp ⟨out, hpr⟩
          obtain ⟨hlen, hexq, hspf⟩ := parseRows_out ld.map 0 none 0 out hpr
          cases hsp2 : out.2.1 with
          | none => rw [hsp2] at hv; cases hv
          | some sp =>
            rw [hsp2] at hv
            dsimp only at hv
            by_cases hez : out.2.2 = 0
            · rw [if_pos hez] at hv; cases hv
            · refine ⟨hrows, hcols, hknown, ?_, ?_⟩
              · rcases hspf with ⟨hn, -⟩ | ⟨-, j, i, hj, hi, hS, -, -⟩
                · rw [hsp2] at hn; cases hn
                · have hmem : 'S' ∈ ld.map.getD j [] := by
                    rw [List.getD_eq_getElem (ld.map.getD j []) ' ' hi] at hS
                    rw [← hS]
                    exact List.getElem_mem hi
                  have hpos : 0 < (ld.map.getD j []).count 'S' :=
                    List.count_pos_iff.mpr hmem
                  have hrowmem : ld.map.getD j [] ∈ ld.map := by
                    rw [List.getD_eq_getElem ld.map [] hj]
                    exact List.getElem_mem hj
                  have hle : (ld.map.getD j []).count 'S' ≤
                      (ld.map.map (fun r => r.count 'S')).sum :=
                    List.single_le_sum (fun x _ => Nat.zero_le x) _
                      (List.mem_map_of_mem _ hrowmem)
                  omega
              · omega
      · rw [if_pos hrows] at hv
        cases hv
    · rintro ⟨hrows, hcols, hknown, hsum1, hexge⟩
      unfold parseMap
      rw [if_neg (not_not_intro hrows)]
      obtain ⟨out, hpr⟩ := (parseRows_ok_iff ld.map 0 none 0).mpr
        ⟨hcols, hknown, by omega⟩
      rw [hpr]
      dsimp only
      obtain ⟨hlen, hexq, hspf⟩ := parseRows_out ld.map 0 none 0 out hpr
      rcases hspf with ⟨-, hz⟩ | ⟨-, j, i, hj, hi, hS, hT, hsome⟩
      · omega
      · rw [hsome]
        dsimp only
        rw [if_neg (by omega)]
        rfl
  · intro pl hpl
    unfold parseMap at hpl
    by_cases hrows : ld.map.length = GRID_ROWS.toNat
    · rw [if_neg (not_not_intro hrows)] at hpl
      cases hpr : parseRows 0 ld.map none 0 with
      | error e => rw [hpr] at hpl; cases hpl
      | ok out =>
        rw [hpr] at hpl
        dsimp only at hpl
        obtain ⟨hlen, hexq, hspf⟩ := parseRows_out ld.map 0 none 0 out hpr
        rcases hspf with ⟨hn, -⟩ | ⟨-, j, i, hj, hi, hS, hT, hsome⟩
        · rw [hn] at hpl
          dsimp only at hpl
          cases hpl
        · rw [hsome] at hpl
          dsimp only at hpl
          by_cases hez : out.2.2 = 0
          · rw [if_pos hez] at hpl; cases hpl
          · rw [if_neg hez] at hpl
            cases hpl
            have hx : ((i : Int)).toNat = i := Int.toNat_ofNat i
            have hy : (((0 + j : Nat) : Int)).toNat = j := by
              rw [Int.toNat_ofNat]
              omega
            constructor
            · show charAt ld.map ⟨(i : Int), ((0 + j : Nat) : Int)⟩ = 'S'
              unfold charAt
              dsimp only
              rw [hx, hy]
              exact hS
            · show tileAt out.1 ⟨(i : Int), ((0 + j : Nat) : Int)⟩ = Tile.EMPTY
              unfold tileAt
              dsimp only
              rw [hx, hy]
              exact hT
    · rw [if_pos hrows] at hpl
      cases hpl

set_option maxRecDepth 8000 in
/-- C9 witness: the corridor map parses, and its recorded spawn sits on
the map's S character with the cell stored as Empty. -/
theorem parse_map_validates_witness :
    (parseMap corridorDef).isOk = true ∧
    charAt corridorDef.map
      ((parseMap corridorDef).toOption.getD emptyParsedLevel).spawn = 'S' ∧
    tileAt ((parseMap corridorDef).toOption.getD emptyParsedLevel).tiles
      ((parseMap corridorDef).toOption.getD emptyParsedLevel).spawn = Tile.EMPTY :=
  ⟨(parse_map_validates corridorDef).1.mpr (by decide),
   ((parse_map_validates corridorDef).2
     ((parseMap corridorDef).toOption.getD emptyParsedLevel) (by rfl)).1,
   ((parse_map_validates corridorDef).2
     ((parseMap corridorDef).toOption.getD emptyParsedLevel) (by rfl)).2⟩

/-- A Fisher-Yates swap step preserves list membership. -/
theorem listSwap_mem {α : Type} (l : List α) (i j : Nat) (x : α)
    (h : x ∈ listSwap l i j) : x ∈ l := by
  unfold listSwap at h
  cases hi : l.get? i with
  | none =>
    cases hj : l.get? j with
    | none => rw [hi, hj] at h; exact h
    | some b => rw [hi, hj] at h; exact h
  | some a =>
    cases hj : l.get? j with
    | none => rw [hi, hj] at h; exact h
    | some b =>
      rw [hi, hj] at h
      dsimp only at h
      rcases List.mem_or_eq_of_mem_set h with h2 | h2
      · rcases List.mem_or_eq_of_mem_set h2 with h3 | h3
        · exact h3
        · subst h3
          exact List.get?_mem hj
      · subst h2
        exact List.get?_mem hi

/-- The Fisher-Yates loop preserves list membership. -/
theorem shuffleAux_mem {α : Type} :
    ∀ (n : Nat) (l : List α) (r : Rng) (x : α), x ∈ (shuffleAux l r n).1 → x ∈ l := by
  intro n
  induction n with
  | zero => intro l r x h; exact h
  | succ i ih =>
    intro l r x h
    exact listSwap_mem _ _ _ _ (ih _ _ x h)

/-- Both components of a scanned pair come from the scanned list. -/
theorem orderedPairs_mem {α : Type} :
    ∀ (l : List α) (p : α × α), p ∈ orderedPairs l → p.1 ∈ l ∧ p.2 ∈ l := by
  intro l
  induction l with
  | nil => intro p h; cases h
  | cons a t ih =>
    intro p h
    unfold orderedPairs at h
    rcases List.mem_append.mp h with h1 | h1
    · obtain ⟨b, hb, hbp⟩ := List.mem_map.mp h1
      subst hbp
      exact ⟨by simp, by simp [hb]⟩
    · obtain ⟨h2, h3⟩ := ih p h1
      exact ⟨List.mem_cons_of_mem _ h2, List.mem_cons_of_mem _ h3⟩

/-- The best-pair fold only ever returns the accumulator or a pair of the
scanned list tagged with its own Manhattan distance. -/
theorem bestScan_aux :
    ∀ (ps : List (Pos × Pos)) (acc : Option (Pos × Pos × Nat)) (best : Pos × Pos × Nat),
      ps.foldl
        (fun acc ab =>
          let d := manhattan ab.1 ab.2
          match acc with
          | none => some (ab.1, ab.2, d)
          | some best => if best.2.2 < d then some (ab.1, ab.2, d) else acc)
        acc = some best →
      (∃ p, p ∈ ps ∧ best = (p.1, p.2, manhattan p.1 p.2)) ∨ acc = some best := by
  intro ps
  induction ps with
  | nil => intro acc best h; exact Or.inr h
  | cons q t ih =>
    intro acc best h
    rw [List.foldl_cons] at h
    rcases ih _ best h with ⟨p, hp, hbp⟩ | hacc
    · exact Or.inl ⟨p, List.mem_cons_of_mem _ hp, hbp⟩
    · cases acc with
      | none =>
        dsimp only at hacc
        exact Or.inl ⟨q, List.mem_cons_self q t, (Option.some.inj hacc).symm⟩
      | some b0 =>
        dsimp only at hacc
        by_cases hlt : b0.2.2 < manhattan q.1 q.2
        · rw [if_pos hlt] at hacc
          exact Or.inl ⟨q, List.mem_cons_self q t, (Option.some.inj hacc).symm⟩
        · rw [if_neg hlt] at hacc
          exact Or.inr hacc

/-- A successful best-pair scan returns two sampled cells together with
their true mutual Manhattan distance. -/
theorem bestPairScan_spec (sample : List Pos) (best : Pos × Pos × Nat)
    (h : bestPairScan sample = some best) :
    best.1 ∈ sample ∧ best.2.1 ∈ sample ∧ best.2.2 = manhattan best.1 best.2.1 := by
  unfold bestPairScan at h
  rcases bestScan_aux (orderedPairs sample) none best h with ⟨p, hp, hbp⟩ | h2
  · obtain ⟨h1, h2⟩ := orderedPairs_mem sample p hp
    subst hbp
    exact ⟨h1, h2, rfl⟩
  · cases h2

/-- C8: a failed portal placement leaves the grid untouched, and a
successful one writes two candidate cells at mutual Manhattan distance at
least 8 — but the distance-6 clearing from spawn and exit is only
guaranteed when at least two candidates survive that filter, because the
placement falls back to the unfiltered candidate list otherwise. -/
theorem portal_pair_constraints (grid : List (List Char)) (cands : List Pos)
    (r : Rng) (spawn exitPos : Pos) :
    ((placePortalPair grid cands r spawn exitPos).1 = false →
      (placePortalPair grid cands r spawn exitPos).2.1 = grid) ∧
    ((placePortalPair grid cands r spawn exitPos).1 = true →
      ∃ a b, a ∈ cands ∧ b ∈ cands ∧ 8 ≤ manhattan a b ∧
        (placePortalPair grid cands r spawn exitPos).2.1 =
          setCharAt (setCharAt grid a 'P') b 'Q' ∧
        (2 ≤ (cands.filter fun cell =>
            6 ≤ manhattan cell spawn ∧ 6 ≤ manhattan cell exitPos).length →
          (6 ≤ manhattan a spawn ∧ 6 ≤ manhattan a exitPos) ∧
          (6 ≤ manhattan b spawn ∧ 6 ≤ manhattan b exitPos))) := by
  by_cases hlen : cands.length < 2
  · have heq : placePortalPair grid cands r spawn exitPos = (false, grid, r) := by
      unfold placePortalPair
      rw [if_pos hlen]
    rw [heq]
    exact ⟨fun _ => rfl, fun h => Bool.noConfusion h⟩
  · unfold placePortalPair
    rw [if_neg hlen]
    dsimp only
    cases hbs : bestPairScan
        ((shuffleInPlace
          (if (cands.filter fun cell =>
              6 ≤ manhattan cell spawn ∧ 6 ≤ manhattan cell exitPos).length < 2
           then cands
           else cands.filter fun cell =>
              6 ≤ manhattan cell spawn ∧ 6 ≤ manhattan cell exitPos) r).1.take 24) with
    | none =>
      exact ⟨fun _ => rfl, fun h => Bool.noConfusion h⟩
    | some best =>
      have hspec := bestPairScan_spec _ best hbs
      have hpool : ∀ x : Pos,
          x ∈ ((shuffleInPlace
            (if (cands.filter fun cell =>
                6 ≤ manhattan cell spawn ∧ 6 ≤ manhattan cell exitPos).length < 2
             then cands
             else cands.filter fun cell =>
                6 ≤ manhattan cell spawn ∧ 6 ≤ manhattan cell exitPos) r).1.take 24) →
          x ∈ (if (cands.filter fun cell =>
                6 ≤ manhattan cell spawn ∧ 6 ≤ manhattan cell exitPos).length < 2
             then cands
             else cands.filter fun cell =>
                6 ≤ manhattan cell spawn ∧ 6 ≤ manhattan cell exitPos) := by
        intro x hx
        exact shuffleAux_mem _ _ _ _ (List.mem_of_mem_take hx)
      have hAfl := hpool best.1 hspec.1
      have hBfl := hpool best.2.1 hspec.2.1
      have hAc : best.1 ∈ cands := by
        by_cases hfl : (cands.filter fun cell =>
            6 ≤ manhattan cell spawn ∧ 6 ≤ manhattan cell exitPos).length < 2
        · rw [if_pos hfl] at hAfl; exact hAfl
        · rw [if_neg hfl] at hAfl; exact (List.mem_filter.mp hAfl).1
      have hBc : best.2.1 ∈ cands := by
        by_cases hfl : (cands.filter fun cell =>
            6 ≤ manhattan cell spawn ∧ 6 ≤ manhattan cell exitPos).length < 2
        · rw [if_pos hfl] at hBfl; exact hBfl
        · rw [if_neg hfl] at hBfl; exact (List.mem_filter.mp hBfl).1
      dsimp only
      by_cases hd : best.2.2 < 8
      · rw [if_pos hd]
        exact ⟨fun _ => rfl, fun h => Bool.noConfusion h⟩
      · rw [if_neg hd]
        by_cases hch : charAt grid best.1 ≠ '.' ∨ charAt grid best.2.1 ≠ '.'
        · rw [if_pos hch]
          exact ⟨fun _ => rfl, fun h => Bool.noConfusion h⟩
        · rw [if_neg hch]
          refine ⟨fun h => Bool.noConfusion h, fun _ => ?_⟩
          refine ⟨best.1, best.2.1, hAc, hBc, ?_, rfl, ?_⟩
          · have h8 := hspec.2.2
            omega
          · intro h2
            have hfl : ¬ (cands.filter fun cell =>
                6 ≤ manhattan cell spawn ∧ 6 ≤ manhattan cell exitPos).length < 2 := by
              omega
            rw [if_neg hfl] at hAfl hBfl
            exact ⟨of_decide_eq_true (List.mem_filter.mp hAfl).2,
                   of_decide_eq_true (List.mem_filter.mp hBfl).2⟩

set_option maxRecDepth 8000 in
/-- C8 counterexample: with only one candidate passing the distance-6
filter the placement falls back to all candidates and succeeds, writing a
portal onto a cell one step from the spawn — under the claimed
constraint the placement would have had to omit the portals. -/
theorem portal_pair_cex :
    (placePortalPair dotsGrid [⟨10, 8⟩, ⟨2, 2⟩] ⟨1⟩ ⟨10, 7⟩ ⟨19, 14⟩).1 = true ∧
    (charAt (placePortalPair dotsGrid [⟨10, 8⟩, ⟨2, 2⟩] ⟨1⟩ ⟨10, 7⟩
        ⟨19, 14⟩).2.1 ⟨10, 8⟩ = 'P' ∨
     charAt (placePortalPair dotsGrid [⟨10, 8⟩, ⟨2, 2⟩] ⟨1⟩ ⟨10, 7⟩
        ⟨19, 14⟩).2.1 ⟨10, 8⟩ = 'Q') ∧
    manhattan ⟨10, 8⟩ ⟨10, 7⟩ < 6 := by
  decide
